import Mathlib

/-!
Bataille navale: grid model and targeting strategies.

A shallow embedding of `src/src/utils.c` (grid queries), `src/src/random.c`
(the linear congruential generator) and `src/ai.c` (the three computer
opponents), followed by theorems about them.

Conventions of the embedding
* C `int` values are `Int`; every value the strategies compute stays far from
  the 32-bit limits (coordinates in `-1 .. 14`, cell codes built from ship ids).
* `unsigned int seed` is a `Nat` reduced modulo `2 ^ 32` at every update.
* An `int g[GRID][GRID]` array is a function `Int → Int → Int`; only the cells
  with both indices in `0 .. 13` belong to the array. With `direction` in
  `0 .. 4` the code never reads or writes any other cell: every access is
  guarded by a bounds test or uses an index that is a remainder modulo `GRID`.
* Loops that stop at their first shot or first `return` are modelled by the
  search for that first element, in the loop's order.
* The `do ... while` sampling loops may run forever, so the strategies take a
  `fuel` bound on the number of loop iterations and return `none` when it is
  exhausted. The steps that fire without sampling return for every `fuel`.
-/

namespace BatailleNavale

/-! ## Data model (`src/types.h`) -/

/-- The grid side, `#define GRID 14`. -/
def GRID : Int := 14

/-- An `int g[GRID][GRID]` array. -/
abbrev Grid := Int → Int → Int

/-- The values taken by a loop variable in `for (int i = 0; i < GRID; i++)`. -/
def indices : List Int := [0, 1, 2, 3, 4, 5, 6, 7, 8, 9, 10, 11, 12, 13]

/-- The array write `g[x][y] = v`. -/
def setCell (g : Grid) (x y v : Int) : Grid :=
  fun i j => if i = x ∧ j = y then v else g i j

/-- The `Player` structure. -/
structure Player where
  grid : Grid
  score : Int

/-- The `AIState` structure; `-1` in a coordinate field means "absent". -/
structure AIState where
  lastHitX : Int
  lastHitY : Int
  anchorX : Int
  anchorY : Int
  currentX : Int
  currentY : Int
  direction : Int
  shots : Grid

/-- Everything a strategy call can modify: the target player, the search
state and the global `seed`. -/
structure Game where
  target : Player
  ai : AIState
  seed : Nat

/-! ## Random source (`src/src/random.c`) -/

/-- The function `myRand`: updates the seed (`unsigned int`, so modulo `2 ^ 32`) and
returns `(seed >> 16) & 0x7FFF`. The result is the pair (returned value, new seed). -/
def myRand (seed : Nat) : Int × Nat :=
  let seed := (seed * 1103515245 + 12345) % 2 ^ 32
  ((((seed >>> 16) &&& 0x7FFF : Nat) : Int), seed)

/-- The sampling loop
`do { x = myRand() % GRID; y = myRand() % GRID; } while (again x y);`
with at most `fuel` iterations. Both operands of `%` are non-negative, where
C's remainder and `Int`'s agree. Returns the accepted cell and the new seed. -/
def sampleWhile (again : Int → Int → Bool) : Nat → Nat → Option (Int × Int × Nat)
  | 0, _ => none
  | fuel + 1, seed =>
    let r1 := myRand seed
    let x := r1.1 % GRID
    let r2 := myRand r1.2
    let y := r2.1 % GRID
    if again x y then sampleWhile again fuel r2.2 else some (x, y, r2.2)

/-! ## Grid queries (`src/src/utils.c`) -/

/-- The function `clearGrid`: the two nested loops writing 0 into every cell of the array. -/
def clearGrid (g : Grid) : Grid :=
  indices.foldl (fun g i => indices.foldl (fun g j => setCell g i j 0) g) g

/-- The function `initAIState`: no last hit, no anchor, no current cell, no direction, and a
cleared shot history. -/
def initAIState (ai : AIState) : AIState :=
  { ai with lastHitX := -1, lastHitY := -1, anchorX := -1, anchorY := -1, currentX := -1,
            currentY := -1, direction := 0, shots := clearGrid ai.shots }

/-- The function `allDestroyed`: returns 0 at the first cell holding a positive value, else 1. -/
def allDestroyed (g : Grid) : Int :=
  if indices.any (fun i => indices.any (fun j => decide (g i j > 0))) then 0 else 1

/-- The function `isShipSunk`: returns 0 at the first cell equal to `shipId`, else 1. -/
def isShipSunk (g : Grid) (shipId : Int) : Int :=
  if indices.any (fun i => indices.any (fun j => decide (g i j = shipId))) then 0 else 1

/-- The function `markShipSunk`: the two nested loops, rewriting in place each cell found equal
to `-shipId`. -/
def markShipSunk (g : Grid) (shipId : Int) : Grid :=
  indices.foldl
    (fun g i => indices.foldl
      (fun g j => if g i j = -shipId then setCell g i j (-200 - shipId) else g) g)
    g

/-! ## The three strategies (`src/ai.c`) -/

/-- The array `int dx[4] = {-1, 1, 0, 0}` of `enemyMedium` (up, down, left, right). -/
def dx4 (i : Int) : Int := if i = 0 then -1 else if i = 1 then 1 else 0

/-- The array `int dy[4] = {0, 0, -1, 1}` of `enemyMedium`. -/
def dy4 (i : Int) : Int := if i = 2 then -1 else if i = 3 then 1 else 0

/-- The array `int dx[5] = {0, -1, 1, 0, 0}` of `enemyHard` (index 0 unused, 1 up, 2 down,
3 left, 4 right). Reading it at an index outside `0 .. 4` is out of bounds in C; the model
gives 0 there, and every statement that depends on the table fixes `direction` in `0 .. 4`. -/
def dx (dir : Int) : Int := if dir = 1 then -1 else if dir = 2 then 1 else 0

/-- The array `int dy[5] = {0, 0, 0, -1, 1}` of `enemyHard`. -/
def dy (dir : Int) : Int := if dir = 3 then -1 else if dir = 4 then 1 else 0

/-- A loop over directions
`for (d ...) { x = cx + ddx[d]; y = cy + ddy[d]; if (x >= 0 && x < GRID && y >= 0 && y < GRID && shots[x][y] == 0) { fire } }`
up to the point where it fires: the first direction of the list whose neighbour of `(cx, cy)`
passes the test, with that neighbour; `none` when the loop ends without firing. -/
def firstFree (ddx ddy : Int → Int) (shots : Grid) (cx cy : Int) :
    List Int → Option (Int × Int × Int)
  | [] => none
  | d :: ds =>
    let x := cx + ddx d
    let y := cy + ddy d
    if 0 ≤ x ∧ x < GRID ∧ 0 ≤ y ∧ y < GRID ∧ shots x y = 0 then some (d, x, y)
    else firstFree ddx ddy shots cx cy ds

/-- One row of the grid-wide scan of `enemyHard`: the loop over `j`, testing
`grid[i][j] < 0 && grid[i][j] > -99` and then the four neighbours of `(i, j)`, up to the first
shot. Returns `(j, dir, x, y)`. -/
def scanRow (grid shots : Grid) (i : Int) : List Int → Option (Int × Int × Int × Int)
  | [] => none
  | j :: js =>
    if grid i j < 0 ∧ grid i j > -99 then
      match firstFree dx dy shots i j [1, 2, 3, 4] with
      | some (dir, x, y) => some (j, dir, x, y)
      | none => scanRow grid shots i js
    else scanRow grid shots i js

/-- The grid-wide scan of `enemyHard`: the loop over `i` around `scanRow`, up to the first
shot. Returns `(i, j, dir, x, y)`. -/
def scanGrid (grid shots : Grid) : List Int → Option (Int × Int × Int × Int × Int)
  | [] => none
  | i :: is =>
    match scanRow grid shots i indices with
    | some r => some (i, r)
    | none => scanGrid grid shots is

/-- The function `enemyEasy`. -/
def enemyEasy (fuel : Nat) (target : Player) (ai : AIState) (seed : Nat) : Option Game :=
  match sampleWhile (fun x y => decide (ai.shots x y ≠ 0)) fuel seed with
  | none => none
  | some (x, y, seed) =>
    let ai := { ai with shots := setCell ai.shots x y 1 }
    if target.grid x y > 0 then
      let shipId := target.grid x y
      let grid := setCell target.grid x y (-shipId)
      if isShipSunk grid shipId ≠ 0 then
        some ⟨{ target with grid := markShipSunk grid shipId }, ai, seed⟩
      else
        some ⟨{ target with grid := grid }, ai, seed⟩
    else if target.grid x y = 0 then
      some ⟨{ target with grid := setCell target.grid x y (-99) }, ai, seed⟩
    else
      some ⟨target, ai, seed⟩

/-- Step 2 of `enemyMedium` (lines 97-124): the random shot. -/
def mediumSearch (fuel : Nat) (target : Player) (ai : AIState) (seed : Nat) : Option Game :=
  match sampleWhile (fun x y => decide (ai.shots x y ≠ 0)) fuel seed with
  | none => none
  | some (x, y, seed) =>
    let ai := { ai with shots := setCell ai.shots x y 1 }
    if target.grid x y > 0 then
      let shipId := target.grid x y
      let grid := setCell target.grid x y (-shipId)
      let ai := { ai with lastHitX := x, lastHitY := y }
      if isShipSunk grid shipId ≠ 0 then
        some ⟨{ target with grid := markShipSunk grid shipId },
          { ai with lastHitX := -1, lastHitY := -1 }, seed⟩
      else
        some ⟨{ target with grid := grid }, ai, seed⟩
    else
      some ⟨{ target with grid := setCell target.grid x y (-99) }, ai, seed⟩

/-- The function `enemyMedium`: the chase around `lastHit` (step 1), then `mediumSearch`. -/
def enemyMedium (fuel : Nat) (target : Player) (ai : AIState) (seed : Nat) : Option Game :=
  if ai.lastHitX ≠ -1 then
    match firstFree dx4 dy4 ai.shots ai.lastHitX ai.lastHitY [0, 1, 2, 3] with
    | some (_, x, y) =>
      let ai := { ai with shots := setCell ai.shots x y 1 }
      if target.grid x y > 0 then
        let shipId := target.grid x y
        let grid := setCell target.grid x y (-shipId)
        let ai := { ai with lastHitX := x, lastHitY := y }
        if isShipSunk grid shipId ≠ 0 then
          some ⟨{ target with grid := markShipSunk grid shipId },
            { ai with lastHitX := -1, lastHitY := -1 }, seed⟩
        else
          some ⟨{ target with grid := grid }, ai, seed⟩
      else
        some ⟨{ target with grid := setCell target.grid x y (-99) }, ai, seed⟩
    | none => mediumSearch fuel target { ai with lastHitX := -1, lastHitY := -1 } seed
  else mediumSearch fuel target ai seed

/-- Step 3 of `enemyHard` (lines 275-300): the checkerboard random shot. -/
def hardStep3 (fuel : Nat) (target : Player) (ai : AIState) (seed : Nat) : Option Game :=
  match sampleWhile (fun x y => decide (ai.shots x y ≠ 0) || decide ((x + y) % 2 ≠ 0)) fuel seed with
  | none => none
  | some (x, y, seed) =>
    let ai := { ai with shots := setCell ai.shots x y 1 }
    if target.grid x y > 0 then
      let shipId := target.grid x y
      some ⟨{ target with grid := setCell target.grid x y (-shipId) },
        { ai with anchorX := x, anchorY := y, currentX := x, currentY := y }, seed⟩
    else
      some ⟨{ target with grid := setCell target.grid x y (-99) }, ai, seed⟩

/-- Step 2 of `enemyHard` (lines 183-273): the probe around the anchor, then the grid-wide
scan; falls to `hardStep3` when no shot was made. -/
def hardStep2 (fuel : Nat) (target : Player) (ai : AIState) (seed : Nat) : Option Game :=
  if ai.anchorX ≠ -1 then
    match firstFree dx dy ai.shots ai.anchorX ai.anchorY [1, 2, 3, 4] with
    | some (dir, x, y) =>
      let ai := { ai with shots := setCell ai.shots x y 1 }
      if target.grid x y > 0 then
        let shipId := target.grid x y
        let grid := setCell target.grid x y (-shipId)
        let ai := { ai with direction := dir, currentX := x, currentY := y }
        if isShipSunk grid shipId ≠ 0 then
          some ⟨{ target with grid := markShipSunk grid shipId },
            { ai with anchorX := -1, anchorY := -1, currentX := -1, currentY := -1,
                      direction := 0 }, seed⟩
        else
          some ⟨{ target with grid := grid }, ai, seed⟩
      else
        some ⟨{ target with grid := setCell target.grid x y (-99) }, ai, seed⟩
    | none =>
      match scanGrid target.grid ai.shots indices with
      | some (i, j, dir, x, y) =>
        let ai := { ai with shots := setCell ai.shots x y 1 }
        if target.grid x y > 0 then
          let shipId := target.grid x y
          let grid := setCell target.grid x y (-shipId)
          let ai := { ai with anchorX := i, anchorY := j, currentX := x, currentY := y,
                              direction := dir }
          if isShipSunk grid shipId ≠ 0 then
            some ⟨{ target with grid := markShipSunk grid shipId },
              { ai with anchorX := -1, anchorY := -1, currentX := -1, currentY := -1,
                        direction := 0 }, seed⟩
          else
            some ⟨{ target with grid := grid }, ai, seed⟩
        else
          some ⟨{ target with grid := setCell target.grid x y (-99) }, ai, seed⟩
      | none => hardStep3 fuel target ai seed
  else hardStep3 fuel target ai seed

/-- The function `enemyHard`: the pursuit in the active direction (step 1), then `hardStep2`. -/
def enemyHard (fuel : Nat) (target : Player) (ai : AIState) (seed : Nat) : Option Game :=
  if ai.direction ≠ 0 then
    let x := ai.currentX + dx ai.direction
    let y := ai.currentY + dy ai.direction
    if 0 ≤ x ∧ x < GRID ∧ 0 ≤ y ∧ y < GRID ∧ ai.shots x y = 0 then
      let ai := { ai with shots := setCell ai.shots x y 1 }
      if target.grid x y > 0 then
        let shipId := target.grid x y
        let grid := setCell target.grid x y (-shipId)
        let ai := { ai with currentX := x, currentY := y }
        if isShipSunk grid shipId ≠ 0 then
          some ⟨{ target with grid := markShipSunk grid shipId },
            { ai with anchorX := -1, anchorY := -1, currentX := -1, currentY := -1,
                      direction := 0 }, seed⟩
        else
          some ⟨{ target with grid := grid }, ai, seed⟩
      else
        some ⟨{ target with grid := setCell target.grid x y (-99) },
          { ai with currentX := ai.anchorX, currentY := ai.anchorY, direction := 0 }, seed⟩
    else
      hardStep2 fuel target
        { ai with currentX := ai.anchorX, currentY := ai.anchorY, direction := 0 } seed
  else hardStep2 fuel target ai seed

/-- Successive calls of `enemyHard` on the same target and search state, as the game loop
makes them, one per entry of `fuels` (the iteration bound of that call); `none` as soon as a
call does not return. -/
def hardRun : List Nat → Game → Option Game
  | [], g => some g
  | fuel :: fuels, g => (enemyHard fuel g.target g.ai g.seed).bind (hardRun fuels)

/-! ## Ship placement (`src/src/utils.c`) -/

/-- The values taken by a loop variable in `for (int i = a; i <= b; i++)`. -/
def intRange (a b : Int) : List Int :=
  (List.range (b + 1 - a).toNat).map (fun (k : Nat) => a + (k : Int))

/-- The function `isAreaFree`: the two nested loops over the rectangle enlarged by one cell,
skipping the indices outside the array; returns 0 at the first cell that does not hold 0,
else 1. -/
def isAreaFree (g : Grid) (x y width height : Int) : Int :=
  if (intRange (x - 1) (x + height)).any (fun i =>
      (intRange (y - 1) (y + width)).any (fun j =>
        !(decide (i < 0) || decide (i ≥ GRID) || decide (j < 0) || decide (j ≥ GRID))
          && decide (g i j ≠ 0)))
  then 0 else 1

/-- The function `canPlaceShip`; `vertical` is a C truth value. -/
def canPlaceShip (g : Grid) (x y size vertical : Int) : Int :=
  let width := if vertical ≠ 0 then 1 else size
  let height := if vertical ≠ 0 then size else 1
  if x + height > GRID ∨ y + width > GRID then 0
  else isAreaFree g x y width height

/-- The function `canPlaceShip5x2Manual`. -/
def canPlaceShip5x2Manual (g : Grid) (x y vertical : Int) : Int :=
  let width := if vertical ≠ 0 then 2 else 5
  let height := if vertical ≠ 0 then 5 else 2
  if x + height > GRID ∨ y + width > GRID then 0
  else isAreaFree g x y width height

/-- The loop nest
`for (int i = 0; i < height; i++) for (int j = 0; j < width; j++) g[x + i][y + j] = shipId;`
of `placeShips` (both branches) and of `placeShip5x2Manual`. The model writes at any integer
coordinates; in C the write is inside the array only when the rectangle is inside the grid,
which every statement about it assumes. -/
def placeRect (g : Grid) (x y width height shipId : Int) : Grid :=
  (intRange 0 (height - 1)).foldl
    (fun g i => (intRange 0 (width - 1)).foldl (fun g j => setCell g (x + i) (y + j) shipId) g)
    g

/-- The function `placeShip5x2Manual`. -/
def placeShip5x2Manual (g : Grid) (x y shipId vertical : Int) : Grid :=
  let width := if vertical ≠ 0 then 2 else 5
  let height := if vertical ≠ 0 then 5 else 2
  placeRect g x y width height shipId

/-- The write loop of the manual placement of a normal ship (`placeShipsSDL`, `src/render.c`):
`for (i = 0; i < size; i++) grid[x + (vertical ? i : 0)][y + (vertical ? 0 : i)] = shipId;`. -/
def placeShipManual (g : Grid) (x y size shipId vertical : Int) : Grid :=
  (intRange 0 (size - 1)).foldl
    (fun g i => setCell g (x + (if vertical ≠ 0 then i else 0))
      (y + (if vertical ≠ 0 then 0 else i)) shipId) g

/-- The `Score` structure: the player name, `char name[NAME_LEN]`, and the score. -/
structure Score where
  name : String
  score : Int

/-- The array write `scores[k] = v`; an array of scores is a function of the index. -/
def setAt (s : Nat → Score) (k : Nat) (v : Score) : Nat → Score :=
  fun n => if n = k then v else s n

/-- The body of the inner loop of `sortScores`: the test and the three assignments of the
exchange. -/
def exchange (s : Nat → Score) (i j : Nat) : Nat → Score :=
  if (s j).score > (s i).score then
    let tmp := s i
    let s := setAt s i (s j)
    setAt s j tmp
  else s

/-- The inner loop of `sortScores`, `for (int j = i + 1; j < count; j++)`. -/
def sortPass (s : Nat → Score) (count : Int) (i : Nat) : Nat → Score :=
  (List.range' (i + 1) (count.toNat - (i + 1))).foldl (fun s j => exchange s i j) s

/-- The function `sortScores`: the outer loop `for (int i = 0; i < count - 1; i++)`. -/
def sortScores (scores : Nat → Score) (count : Int) : Nat → Score :=
  (List.range (count - 1).toNat).foldl (fun s i => sortPass s count i) scores

/-- The function `getBestScore`, from the point where `loadScoresSection` has filled `scores`
and returned `count`; reading the file is not modelled. -/
def getBestScore (scores : Nat → Score) (count : Int) : Int :=
  if count = 0 then 0 else (sortScores scores count 0).score

/-! ## Observations used in the statements -/

/-- The cells of the array: both indices in `0 .. GRID - 1`. -/
def inGrid (x y : Int) : Prop := 0 ≤ x ∧ x < GRID ∧ 0 ≤ y ∧ y < GRID

instance (x y : Int) : Decidable (inGrid x y) :=
  inferInstanceAs (Decidable (0 ≤ x ∧ x < GRID ∧ 0 ≤ y ∧ y < GRID))

/-- The cells of the array as a finite set. -/
def cells : Finset (Int × Int) := Finset.Ico 0 GRID ×ˢ Finset.Ico 0 GRID

/-- Number of cells of the array whose `shots` entry equals 1. -/
def countShots (shots : Grid) : Nat := (cells.filter (fun c => shots c.1 c.2 = 1)).card

/-- The call that produced `r` from search state `ai` fired at `(x, y)`: a cell of the grid,
untried before, and the only `shots` entry that was written. -/
def FiresAt (ai : AIState) (r : Game) (x y : Int) : Prop :=
  inGrid x y ∧ ai.shots x y = 0 ∧ r.ai.shots = setCell ai.shots x y 1

/-- A cell a strategy may fire at: in the grid and not yet in the shot history. -/
def Untried (shots : Grid) (x y : Int) : Prop := inGrid x y ∧ shots x y = 0

instance (shots : Grid) (x y : Int) : Decidable (Untried shots x y) :=
  inferInstanceAs (Decidable (inGrid x y ∧ shots x y = 0))

/-- Two grids agree except, possibly, on cells that hold `-shipId` or `-200 - shipId` in
both: they differ only in hit or sunk cells of that ship. -/
def SameUpToHitCells (g g' : Grid) (shipId : Int) : Prop :=
  ∀ i j, inGrid i j → g' i j = g i j ∨
    ((g i j = -shipId ∨ g i j = -200 - shipId) ∧ (g' i j = -shipId ∨ g' i j = -200 - shipId))

/-- Some neighbour of `(cx, cy)` (up, down, left or right) is in the grid and untried. -/
def HasUntriedNeighbour (shots : Grid) (cx cy : Int) : Prop :=
  Untried shots (cx - 1) cy ∨ Untried shots (cx + 1) cy ∨ Untried shots cx (cy - 1) ∨
    Untried shots cx (cy + 1)

instance (shots : Grid) (cx cy : Int) : Decidable (HasUntriedNeighbour shots cx cy) :=
  inferInstanceAs (Decidable (Untried shots (cx - 1) cy ∨ Untried shots (cx + 1) cy ∨
    Untried shots cx (cy - 1) ∨ Untried shots cx (cy + 1)))

/-- The cell `(nx, ny)` is the first neighbour of `(cx, cy)`, in the order up (1), down (2),
left (3), right (4), that is in the grid and untried, and `dir` is its direction. -/
def FirstNeighbour (shots : Grid) (cx cy dir nx ny : Int) : Prop :=
  ((dir = 1 ∧ nx = cx - 1 ∧ ny = cy) ∨
    (dir = 2 ∧ nx = cx + 1 ∧ ny = cy ∧ ¬ Untried shots (cx - 1) cy) ∨
    (dir = 3 ∧ nx = cx ∧ ny = cy - 1 ∧ ¬ Untried shots (cx - 1) cy ∧
      ¬ Untried shots (cx + 1) cy) ∨
    (dir = 4 ∧ nx = cx ∧ ny = cy + 1 ∧ ¬ Untried shots (cx - 1) cy ∧
      ¬ Untried shots (cx + 1) cy ∧ ¬ Untried shots cx (cy - 1))) ∧
  Untried shots nx ny

/-- The cell `(i, j)` is the first cell of the grid, in row-major order, that holds a value
between `-98` and `-1` and has an untried neighbour, and `(nx, ny)`, in direction `dir`, is
the first such neighbour. -/
def ScanTarget (grid shots : Grid) (i j dir nx ny : Int) : Prop :=
  inGrid i j ∧ (-98 ≤ grid i j ∧ grid i j ≤ -1) ∧ FirstNeighbour shots i j dir nx ny ∧
    ∀ i' j', inGrid i' j' → (i' < i ∨ (i' = i ∧ j' < j)) →
      ¬ ((-98 ≤ grid i' j' ∧ grid i' j' ≤ -1) ∧ HasUntriedNeighbour shots i' j')

/-- No cell of the grid holding a value between `-98` and `-1` has an untried neighbour. -/
def NoScanTarget (grid shots : Grid) : Prop :=
  ∀ i j, inGrid i j → ¬ ((-98 ≤ grid i j ∧ grid i j ≤ -1) ∧ HasUntriedNeighbour shots i j)

/-- Step 1 of `enemyHard` fires nothing: there is no direction, or the direction is one of
`1 .. 4` and the cell one step from `current` is outside the grid or already tried. -/
def Step1Silent (ai : AIState) : Prop :=
  ai.direction = 0 ∨
    ((1 ≤ ai.direction ∧ ai.direction ≤ 4) ∧
      ¬ Untried ai.shots (ai.currentX + dx ai.direction) (ai.currentY + dy ai.direction))

/-- The search state after a silent step 1: unchanged without a direction; otherwise the
direction is abandoned (`current` back to `anchor`, `direction` 0; lines 176-180). -/
def dropDirection (ai : AIState) : AIState :=
  if ai.direction ≠ 0 then
    { ai with currentX := ai.anchorX, currentY := ai.anchorY, direction := 0 }
  else ai

/-- The call of `enemyHard` reaches step 3, the checkerboard fallback: step 1 fires nothing
and either there is no anchor (`anchorX = -1`) or neither the probe around the anchor nor
the grid-wide scan finds an untried cell. -/
def ReachesStep3 (target : Player) (ai : AIState) : Prop :=
  Step1Silent ai ∧
    (ai.anchorX = -1 ∨
      (¬ HasUntriedNeighbour ai.shots ai.anchorX ai.anchorY ∧ NoScanTarget target.grid ai.shots))

/-- The three ways a shot at `(x, y)` changes the grid `g` into `g'`: a miss writes `-99`; a
hit negates the cell; a hit that sinks the ship is followed by `markShipSunk`. -/
def GridAfterShot (g g' : Grid) (x y : Int) : Prop :=
  (¬ g x y > 0 ∧ g' = setCell g x y (-99)) ∨
  (g x y > 0 ∧ g' = setCell g x y (-g x y)) ∨
  (g x y > 0 ∧ g' = markShipSunk (setCell g x y (-g x y)) (g x y))

/-- The ways a strategy call firing at `(x, y)` changes the grid `g` into `g'`: those of
`GridAfterShot`, or, in `enemyEasy` only, a cell holding a negative value is left as it is. -/
def ShotEffect (g g' : Grid) (x y : Int) : Prop :=
  GridAfterShot g g' x y ∨ (g x y < 0 ∧ g' = g)

/-- Number of cells of the array holding a positive value: the intact ship cells. -/
def countPositive (g : Grid) : Nat := (cells.filter (fun c => g c.1 c.2 > 0)).card

/-- Grid and shot history agree: a cell of the array is in the shot history exactly when the
grid shows a hit, a miss or a sunk ship there (a negative value). -/
def Consistent (grid shots : Grid) : Prop :=
  ∀ x y, inGrid x y → (shots x y = 1 ↔ grid x y < 0)

/-- Well-formedness of the search fields of the hard strategy, on the values of `anchor`,
`current` and `direction`: the direction is in `0 .. 4`; an absent anchor (both coordinates
`-1`) comes with an absent current cell and no direction; a present anchor and the current
cell are cells of the grid; with a direction, the current cell lies `n ≥ 1` steps of the
direction table from the anchor. -/
def WellFormedAt (ax ay cx cy dir : Int) : Prop :=
  (0 ≤ dir ∧ dir ≤ 4) ∧
  (ax = -1 ∧ ay = -1 → (cx = -1 ∧ cy = -1) ∧ dir = 0) ∧
  (¬ (ax = -1 ∧ ay = -1) → inGrid ax ay ∧ inGrid cx cy) ∧
  (dir ≠ 0 → ∃ n : Int, 1 ≤ n ∧ cx = ax + n * dx dir ∧ cy = ay + n * dy dir)

/-- The search state is well formed. -/
def WellFormed (ai : AIState) : Prop :=
  WellFormedAt ai.anchorX ai.anchorY ai.currentX ai.currentY ai.direction

/-- Ships are kept apart: two cells of the array that are equal or adjacent, diagonally
included, and both hold a non-zero id hold the same id. -/
def Apart (g : Grid) : Prop :=
  ∀ i j i' j', inGrid i j → inGrid i' j' → (i' - 1 ≤ i ∧ i ≤ i' + 1) →
    (j' - 1 ≤ j ∧ j ≤ j' + 1) → g i j ≠ 0 → g i' j' ≠ 0 → g i j = g i' j'

/-- The cell `(i, j)` is one of the cells of the rectangle with top-left corner `(x, y)`,
`height` rows and `width` columns. -/
def InRect (x y width height i j : Int) : Prop :=
  x ≤ i ∧ i < x + height ∧ y ≤ j ∧ j < y + width

instance (x y width height i j : Int) : Decidable (InRect x y width height i j) :=
  inferInstanceAs (Decidable (x ≤ i ∧ i < x + height ∧ y ≤ j ∧ j < y + width))

/-- The placement is possible, in the words of the specification: every cell of the rectangle
lies in the grid, and every cell of the grid within the rectangle enlarged by one cell on each
side holds 0. -/
def PlacementPossible (g : Grid) (x y width height : Int) : Prop :=
  (∀ i j, InRect x y width height i j → inGrid i j) ∧
  ∀ i j, (x - 1 ≤ i ∧ i ≤ x + height) → (y - 1 ≤ j ∧ j ≤ y + width) → inGrid i j → g i j = 0

/-- The grid without any ship. -/
def emptyGrid : Grid := fun _ _ => 0

/-- Three scores out of order, followed by an entry the sort of three must not touch. -/
def sampleScores : Nat → Score := fun k =>
  if k = 0 then ⟨"ana", 120⟩ else if k = 1 then ⟨"bob", 340⟩ else if k = 2 then ⟨"eve", 205⟩
  else ⟨"zed", 999⟩

/-- A hit cell of a ship not yet sunk: a cell of the grid holding a value between `-98` and
`-1`, the values the grid-wide scan of `enemyHard` looks for. -/
def HitCell (g : Grid) (i j : Int) : Prop := inGrid i j ∧ -98 ≤ g i j ∧ g i j ≤ -1

instance (g : Grid) (i j : Int) : Decidable (HitCell g i j) :=
  inferInstanceAs (Decidable (inGrid i j ∧ -98 ≤ g i j ∧ g i j ≤ -1))

/-- A grid as ship placement leaves it: every cell holds 0 or a ship id between 1 and 98, ships
are kept apart, and the cells of each ship are exactly those of a rectangle inside the grid
with at least two cells. -/
def Fleet (g0 : Grid) : Prop :=
  (∀ i j, inGrid i j → 0 ≤ g0 i j ∧ g0 i j ≤ 98) ∧ Apart g0 ∧
  ∀ i j, inGrid i j → g0 i j > 0 →
    ∃ x y w h, 0 ≤ x ∧ 0 ≤ y ∧ x + h ≤ GRID ∧ y + w ≤ GRID ∧ 1 ≤ w ∧ 1 ≤ h ∧
      (2 ≤ w ∨ 2 ≤ h) ∧ ∀ p q, inGrid p q → (g0 p q = g0 i j ↔ InRect x y w h p q)

/-- The grid `g` and the shot history `shots` of a game played on the fleet `g0`: each cell
holds its initial value, or `-99` over water, or `-k` or `-200 - k` over ship `k`; a cell is
in the shot history (entry 1, else 0) exactly when its value is negative; every hit cell of a
ship not yet sunk comes with an intact cell of that ship; a sunk ship is converted as a whole;
and all hit cells of ships not yet sunk belong to one ship. -/
def GridInv (g0 g shots : Grid) : Prop :=
  (∀ i j, inGrid i j → (g0 i j = 0 ∧ (g i j = 0 ∨ g i j = -99)) ∨
    (g0 i j > 0 ∧ (g i j = g0 i j ∨ g i j = -g0 i j ∨ g i j = -200 - g0 i j))) ∧
  (∀ i j, inGrid i j → (shots i j = 0 ∧ 0 ≤ g i j) ∨ (shots i j = 1 ∧ g i j < 0)) ∧
  (∀ i j, HitCell g i j → ∃ p q, inGrid p q ∧ g p q = -g i j) ∧
  (∀ i j p q, inGrid i j → inGrid p q → g0 i j > 0 → g i j = -200 - g0 i j →
    g0 p q = g0 i j → g p q = -200 - g0 i j) ∧
  (∀ i j p q, HitCell g i j → HitCell g p q → g i j = g p q)

/-- The anchor, the current cell and the direction of the hard strategy follow the open ship:
while some hit cell belongs to a ship not yet sunk there is an anchor; the anchor, when
present, is such a hit cell; and so is the current cell while a direction is active. -/
def PointerInv (g : Grid) (ai : AIState) : Prop :=
  ((∃ i j, HitCell g i j) → ai.anchorX ≠ -1) ∧
  (ai.anchorX ≠ -1 → HitCell g ai.anchorX ai.anchorY) ∧
  (ai.direction ≠ 0 → HitCell g ai.currentX ai.currentY)

/-- The invariant of a game of the hard strategy on the fleet `g0`. -/
def HardInv (g0 : Grid) (target : Player) (ai : AIState) : Prop :=
  Fleet g0 ∧ GridInv g0 target.grid ai.shots ∧ PointerInv target.grid ai

/-- For each cell of the grid, row by row, a seed from which the first two results of
`myRand`, reduced modulo `GRID`, are the coordinates of that cell. -/
def sampleSeeds : List Nat :=
  [60, 158, 316, 178, 40, 85, 0, 105, 20, 35, 133, 268, 130, 15,
   83, 181, 18, 201, 63, 108, 266, 128, 43, 58, 156, 291, 153, 38,
   106, 241, 126, 33, 269, 131, 289, 13, 196, 111, 41, 314, 61, 244,
   585, 149, 11, 56, 154, 16, 312, 36, 81, 560, 239, 101, 31, 129,
   14, 172, 34, 79, 535, 39, 144, 59, 104, 583, 124, 9, 54, 152,
   37, 142, 57, 102, 260, 122, 167, 29, 127, 12, 147, 32, 77, 212,
   120, 165, 27, 125, 581, 145, 7, 52, 150, 72, 170, 215, 100, 556,
   143, 5, 50, 148, 10, 168, 30, 75, 554, 95, 140, 25, 123, 579,
   28, 211, 73, 529, 93, 138, 53, 98, 439, 118, 163, 48, 8, 464,
   51, 96, 279, 414, 116, 23, 206, 121, 462, 3, 71, 527, 389, 68,
   21, 119, 302, 139, 1, 46, 229, 6, 249, 26, 94, 254, 91, 159,
   44, 89, 4, 247, 24, 69, 252, 410, 134, 49, 64, 162, 114, 182,
   67, 112, 270, 132, 47, 92, 137, 433, 157, 19, 87, 2, 107, 22,
   90, 135, 293, 155, 17, 62, 160, 318, 180, 42, 110, 245, 343, 45]

/-- A seed under which a sampling loop draws the cell `(x, y)` first. -/
def seedFor (x y : Int) : Nat := sampleSeeds.getD (14 * x + y).toNat 0

/-! ## Concrete states used to exercise the theorems -/

/-- A grid with one ship, id 1, of size 3 on row 5, columns 3 to 5; water elsewhere. -/
def shipRow5 : Grid := fun i j => if i = 5 ∧ 3 ≤ j ∧ j ≤ 5 then 1 else 0

/-- A search state with no shot fired, no last hit, no anchor and no direction. -/
def idleState : AIState := ⟨-1, -1, -1, -1, -1, -1, 0, fun _ _ => 0⟩

/-- Start of the easy scenario: the ship of `shipRow5`, nothing fired, and a seed whose first
six samples are 5, 3, 5, 4, 5, 5. -/
def easyStart : Game := ⟨⟨shipRow5, 0⟩, idleState, 5548972⟩

/-- The easy scenario after the shot at `(5, 3)`. -/
def easyShot1 : Game :=
  ⟨⟨setCell shipRow5 5 3 (-1), 0⟩, { idleState with shots := setCell idleState.shots 5 3 1 },
    3769890826⟩

/-- The easy scenario after the shots at `(5, 3)` and `(5, 4)`. -/
def easyShot2 : Game :=
  ⟨⟨setCell easyShot1.target.grid 5 4 (-1), 0⟩,
    { idleState with shots := setCell easyShot1.ai.shots 5 4 1 }, 3409368728⟩

/-- What `enemyMedium` returns from `easyStart`. -/
def mediumShot1 : Game :=
  ⟨⟨setCell shipRow5 5 3 (-1), 0⟩,
    { idleState with shots := setCell idleState.shots 5 3 1, lastHitX := 5, lastHitY := 3 },
    3769890826⟩

/-- What `enemyHard` returns from `easyStart`. -/
def hardShot1 : Game :=
  ⟨⟨setCell shipRow5 5 3 (-1), 0⟩,
    { idleState with shots := setCell idleState.shots 5 3 1, anchorX := 5, anchorY := 3,
                     currentX := 5, currentY := 3 },
    3769890826⟩

/-- The ship of `shipRow5` with all three cells hit and not yet converted. -/
def hitRow5 : Grid := fun i j => if i = 5 ∧ 3 ≤ j ∧ j ≤ 5 then -1 else 0

/-- Ship 2 lies on row 2, columns 1 to 3: `(2, 2)` and `(2, 3)` are hit, `(2, 1)` is intact;
`(2, 4)` and everything else is water. -/
def pursuitTarget : Player :=
  ⟨fun i j => if i = 2 ∧ j = 1 then 2 else if i = 2 ∧ 2 ≤ j ∧ j ≤ 3 then -2 else 0, 0⟩

/-- The hard strategy hunting ship 2 of `pursuitTarget`: anchor `(2, 2)`, direction 4
(right), current `(2, 3)`, both cells in the shot history. -/
def pursuitState : AIState :=
  { idleState with anchorX := 2, anchorY := 2, currentX := 2, currentY := 3, direction := 4,
                   shots := fun i j => if i = 2 ∧ 2 ≤ j ∧ j ≤ 3 then 1 else 0 }

/-- What `enemyHard` returns from `pursuitTarget` and `pursuitState`. -/
def pursuitResult (seed : Nat) : Game :=
  ⟨⟨setCell pursuitTarget.grid 2 4 (-99), 0⟩,
    { pursuitState with shots := setCell pursuitState.shots 2 4 1, currentX := 2, currentY := 2,
                        direction := 0 }, seed⟩

/-- The search state `pursuitState` with the cell right of `current`, `(2, 4)`, already in the shot
history: the pursuit to the right is blocked. -/
def blockedState : AIState :=
  { pursuitState with shots := setCell pursuitState.shots 2 4 1 }

/-- What `enemyHard` returns from `pursuitTarget` and `blockedState`: the direction is
dropped and the probe around the anchor `(2, 2)` fires up, at `(1, 2)`, a miss. -/
def blockedResult (seed : Nat) : Game :=
  ⟨⟨setCell pursuitTarget.grid 1 2 (-99), 0⟩,
    { blockedState with shots := setCell blockedState.shots 1 2 1, currentX := 2, currentY := 2,
                        direction := 0 }, seed⟩

/-- Anchor `(2, 2)` with no direction; the cell above the anchor, `(1, 2)`, is already in the
shot history, the cell below, `(3, 2)`, is not. -/
def probeState : AIState :=
  { idleState with anchorX := 2, anchorY := 2, currentX := 2, currentY := 2,
                   shots := fun i j => if (i = 2 ∧ 2 ≤ j ∧ j ≤ 4) ∨ (i = 1 ∧ j = 2) then 1 else 0 }

/-- What `enemyHard` returns from `pursuitTarget` and `probeState`: a miss at `(3, 2)`. -/
def probeResult (seed : Nat) : Game :=
  ⟨⟨setCell pursuitTarget.grid 3 2 (-99), 0⟩,
    { probeState with shots := setCell probeState.shots 3 2 1 }, seed⟩

/-- Ship 1 of `shipRow5` with `(5, 4)` and `(5, 5)` hit and `(5, 3)` still intact. -/
def lastCellTarget : Player :=
  ⟨fun i j => if i = 5 ∧ j = 3 then 1 else if i = 5 ∧ 4 ≤ j ∧ j ≤ 5 then -1 else 0, 0⟩

/-- The two hits of `lastCellTarget` are in the shot history; no last hit, no anchor, no
direction. -/
def lastCellState : AIState :=
  { idleState with shots := fun i j => if i = 5 ∧ 4 ≤ j ∧ j ≤ 5 then 1 else 0 }

/-- What `enemyHard` returns from `lastCellTarget`, `lastCellState` and seed 5548972. -/
def lastCellHard : Game :=
  ⟨⟨setCell lastCellTarget.grid 5 3 (-1), 0⟩,
    { lastCellState with shots := setCell lastCellState.shots 5 3 1, anchorX := 5, anchorY := 3,
                         currentX := 5, currentY := 3 }, 3769890826⟩

/-- What `enemyMedium` returns from the same input. -/
def lastCellMedium : Game :=
  ⟨⟨markShipSunk (setCell lastCellTarget.grid 5 3 (-1)) 1, 0⟩,
    { lastCellState with shots := setCell lastCellState.shots 5 3 1 }, 3769890826⟩

/-- An exhausted anchor at `(0, 0)` (a hit cell whose two neighbours in the grid are misses)
and, at `(5, 5)`, a cell holding `-150`; water elsewhere. -/
def deepHitTarget : Player :=
  ⟨fun i j => if i = 0 ∧ j = 0 then -1
    else if (i = 1 ∧ j = 0) ∨ (i = 0 ∧ j = 1) then -99
    else if i = 5 ∧ j = 5 then -150 else 0, 0⟩

/-- Anchor and current cell `(0, 0)`, no direction; the shot history holds the anchor, its two
neighbours and `(5, 5)`. -/
def exhaustedState : AIState :=
  { idleState with anchorX := 0, anchorY := 0, currentX := 0, currentY := 0,
                   shots := fun i j =>
                     if (i = 0 ∧ j = 0) ∨ (i = 1 ∧ j = 0) ∨ (i = 0 ∧ j = 1) ∨ (i = 5 ∧ j = 5)
                     then 1 else 0 }

/-- What `enemyHard` returns from `deepHitTarget`, `exhaustedState` and seed 126 (first
samples 2, 2): a checkerboard shot at `(2, 2)`, a miss. -/
def deepHitResult : Game :=
  ⟨⟨setCell deepHitTarget.grid 2 2 (-99), 0⟩,
    { exhaustedState with shots := setCell exhaustedState.shots 2 2 1 }, 2682525228⟩

/-- The grid `deepHitTarget` with `-2`, a hit cell of ship 2, at `(5, 5)`. -/
def openHitTarget : Player :=
  ⟨fun i j => if i = 0 ∧ j = 0 then -1
    else if (i = 1 ∧ j = 0) ∨ (i = 0 ∧ j = 1) then -99
    else if i = 5 ∧ j = 5 then -2 else 0, 0⟩

/-- What `enemyHard` returns from `openHitTarget` and `exhaustedState`: the scan fires above
`(5, 5)`, at `(4, 5)`, a miss. -/
def openHitResult (seed : Nat) : Game :=
  ⟨⟨setCell openHitTarget.grid 4 5 (-99), 0⟩,
    { exhaustedState with shots := setCell exhaustedState.shots 4 5 1 }, seed⟩

/-- The grid `openHitTarget` with ship 2 on column 5, rows 3 to 5: `(5, 5)` is hit, `(3, 5)`
and `(4, 5)` are intact. -/
def openShipTarget : Player :=
  ⟨fun i j => if i = 0 ∧ j = 0 then -1
    else if (i = 1 ∧ j = 0) ∨ (i = 0 ∧ j = 1) then -99
    else if i = 5 ∧ j = 5 then -2
    else if (i = 3 ∨ i = 4) ∧ j = 5 then 2 else 0, 0⟩

/-- What `enemyHard` returns from `openShipTarget` and `exhaustedState`: the scan fires at
`(4, 5)`, a hit; the anchor moves to `(5, 5)`, with current cell `(4, 5)` and direction 1. -/
def openShipResult (seed : Nat) : Game :=
  ⟨⟨setCell openShipTarget.grid 4 5 (-2), 0⟩,
    { exhaustedState with shots := setCell exhaustedState.shots 4 5 1, anchorX := 5,
                          anchorY := 5, currentX := 4, currentY := 5, direction := 1 }, seed⟩

/-- Start of the miss scenario: the ship of `shipRow5`, the state `initAIState` produces, and
the seed the program is compiled with. -/
def missStart : Game := ⟨⟨shipRow5, 0⟩, initAIState idleState, 98765⟩

/-- The miss scenario after one `enemyHard` call: samples `(0, 11)`, `(10, 3)` are rejected
for their parity, `(11, 11)` is fired at and misses. -/
def missShot1 : Game :=
  ⟨⟨setCell shipRow5 11 11 (-99), 0⟩,
    { initAIState idleState with shots := setCell (initAIState idleState).shots 11 11 1 },
    3386836975⟩

/-- The miss scenario after two `enemyHard` calls: the second fires at `(0, 0)` and misses. -/
def missShot2 : Game :=
  ⟨⟨setCell missShot1.target.grid 0 0 (-99), 0⟩,
    { initAIState idleState with shots := setCell missShot1.ai.shots 0 0 1 }, 890897895⟩

/-- Ship 1 has one hit cell, `(0, 0)`, whose two neighbours in the grid are misses, and two
intact cells, `(7, 7)` and `(7, 8)`; water elsewhere. -/
def loneHitTarget : Player :=
  ⟨fun i j => if i = 0 ∧ j = 0 then -1
    else if (i = 1 ∧ j = 0) ∨ (i = 0 ∧ j = 1) then -99
    else if i = 7 ∧ (j = 7 ∨ j = 8) then 1 else 0, 0⟩

/-- Anchor and current cell `(0, 0)`, no direction; the shot history holds the anchor and its
two neighbours. -/
def loneHitState : AIState :=
  { idleState with anchorX := 0, anchorY := 0, currentX := 0, currentY := 0,
                   shots := fun i j =>
                     if (i = 0 ∧ j = 0) ∨ (i = 1 ∧ j = 0) ∨ (i = 0 ∧ j = 1) then 1 else 0 }

/-- What `enemyHard` returns from `loneHitTarget`, `loneHitState` and seed 126: a checkerboard
shot at `(2, 2)`, a miss. -/
def loneHitResult : Game :=
  ⟨⟨setCell loneHitTarget.grid 2 2 (-99), 0⟩,
    { loneHitState with shots := setCell loneHitState.shots 2 2 1 }, 2682525228⟩

/-- Ship 1 of `shipRow5` with `(5, 3)` hit; the cells above and left of it, `(4, 3)` and
`(5, 2)`, are misses. -/
def chaseTarget : Player :=
  ⟨fun i j => if i = 5 ∧ j = 3 then -1
    else if (i = 4 ∧ j = 3) ∨ (i = 5 ∧ j = 2) then -99
    else if i = 5 ∧ 4 ≤ j ∧ j ≤ 5 then 1 else 0, 0⟩

/-- Last hit `(5, 3)`; `(5, 3)`, `(4, 3)` and `(5, 2)` are in the shot history, `(6, 3)` and
`(5, 4)` are not. -/
def chaseState : AIState :=
  { idleState with lastHitX := 5, lastHitY := 3,
                   shots := fun i j =>
                     if (i = 5 ∧ j = 3) ∨ (i = 4 ∧ j = 3) ∨ (i = 5 ∧ j = 2) then 1 else 0 }

/-- What `enemyMedium` returns from `chaseTarget` and `chaseState`: a miss at `(6, 3)`. -/
def chaseResult (seed : Nat) : Game :=
  ⟨⟨setCell chaseTarget.grid 6 3 (-99), 0⟩,
    { chaseState with shots := setCell chaseState.shots 6 3 1 }, seed⟩

/-- What `enemyMedium` returns from the state `chaseResult` left: a hit at `(5, 4)`, which
becomes the last hit. -/
def chaseResult2 (seed : Nat) : Game :=
  ⟨⟨setCell (chaseResult seed).target.grid 5 4 (-1), 0⟩,
    { chaseState with shots := setCell (chaseResult seed).ai.shots 5 4 1, lastHitX := 5,
                      lastHitY := 4 }, seed⟩

/-- The search state `loneHitState` with last hit `(0, 0)`: none of its neighbours is untried. -/
def staleChaseState : AIState := { loneHitState with lastHitX := 0, lastHitY := 0 }

/-- What `enemyMedium` returns from `loneHitTarget`, `staleChaseState` and seed 126: the last
hit is dropped and the random shot at `(2, 2)` misses. -/
def staleChaseResult : Game :=
  ⟨⟨setCell loneHitTarget.grid 2 2 (-99), 0⟩,
    { loneHitState with shots := setCell loneHitState.shots 2 2 1, lastHitX := -1,
                        lastHitY := -1 }, 2682525228⟩

/-- A grid where every cell with `x + y` even is a miss and every other cell is water. -/
def evenTriedTarget : Player := ⟨fun i j => if (i + j) % 2 = 0 then -99 else 0, 0⟩

/-- No anchor, no direction; the shot history holds exactly the cells with `x + y` even, so
that every cell with `x + y` odd, such as `(0, 1)`, is untried. -/
def evenTriedState : AIState :=
  { idleState with shots := fun i j => if (i + j) % 2 = 0 then 1 else 0 }

/-- The grid `evenTriedTarget` with a ship: `(2, 0)` is a hit cell of ship 1 and `(1, 0)`, above
it, an intact one. -/
def oddProbeTarget : Player :=
  ⟨fun i j => if i = 2 ∧ j = 0 then -1 else if i = 1 ∧ j = 0 then 1
    else if (i + j) % 2 = 0 then -99 else 0, 0⟩

/-- The shot history of `evenTriedState` with anchor and current cell `(2, 0)`: only odd cells
are untried, among them `(1, 0)`, the cell above the anchor. -/
def oddProbeState : AIState :=
  { evenTriedState with anchorX := 2, anchorY := 0, currentX := 2, currentY := 0 }

/-- No last hit, no anchor, no direction, and every cell already in the shot history. -/
def allTriedState : AIState := { idleState with shots := fun _ _ => 1 }

theorem mem_indices (i : Int) : i ∈ indices ↔ 0 ≤ i ∧ i < GRID := by
  simp only [indices, GRID, List.mem_cons, List.mem_singleton, List.not_mem_nil, or_false]
  omega

theorem indices_nodup : indices.Nodup := by decide

theorem mem_cells (x y : Int) : (x, y) ∈ cells ↔ inGrid x y := by
  simp [cells, inGrid, and_assoc]

theorem setCell_same (g : Grid) (x y v : Int) : setCell g x y v x y = v := by
  simp [setCell]

theorem setCell_other (g : Grid) (x y v i j : Int) (h : ¬ (i = x ∧ j = y)) :
    setCell g x y v i j = g i j := by
  simp [setCell, h]

/-- The inner loop of `markShipSunk` on row `i`, cell by cell. -/
theorem markRow_apply (a b i : Int) (l : List Int) (hnd : l.Nodup) (g : Grid) (p q : Int) :
    (l.foldl (fun g j => if g i j = a then setCell g i j b else g) g) p q
      = if p = i ∧ q ∈ l ∧ g p q = a then b else g p q := by
  induction l generalizing g with
  | nil => simp
  | cons j l ih =>
    have hj : j ∉ l := (List.nodup_cons.mp hnd).1
    rw [List.foldl_cons, ih (List.nodup_cons.mp hnd).2]
    by_cases hpq : p = i ∧ q = j
    · obtain ⟨rfl, rfl⟩ := hpq
      by_cases hg : g p q = a
      · simp [hg, hj, setCell]
      · simp [hg, hj]
    · have hne : ¬ (p = i ∧ q = j) := hpq
      have hstep : (if g i j = a then setCell g i j b else g) p q = g p q := by
        split_ifs
        · exact setCell_other g i j b p q hne
        · rfl
      rw [hstep]
      by_cases hpi : p = i
      · have hqj : q ≠ j := fun h => hne ⟨hpi, h⟩
        simp [hpi, hqj]
      · simp [hpi]

/-- The two loops of `markShipSunk`, cell by cell. -/
theorem markRows_apply (a b : Int) (l : List Int) (hnd : l.Nodup) (g : Grid) (p q : Int) :
    (l.foldl (fun g i => indices.foldl
        (fun g j => if g i j = a then setCell g i j b else g) g) g) p q
      = if p ∈ l ∧ q ∈ indices ∧ g p q = a then b else g p q := by
  induction l generalizing g with
  | nil => simp
  | cons i l ih =>
    have hi : i ∉ l := (List.nodup_cons.mp hnd).1
    rw [List.foldl_cons, ih (List.nodup_cons.mp hnd).2, markRow_apply a b i indices indices_nodup]
    by_cases hpi : p = i
    · subst hpi
      by_cases hq : q ∈ indices ∧ g p q = a
      · simp [hq, hi]
      · simp [hq, hi]
    · simp [hpi]

/-- Cell-by-cell description of `markShipSunk`. -/
theorem markShipSunk_apply (g : Grid) (shipId p q : Int) :
    markShipSunk g shipId p q
      = if inGrid p q ∧ g p q = -shipId then -200 - shipId else g p q := by
  unfold markShipSunk
  rw [markRows_apply (-shipId) (-200 - shipId) indices indices_nodup]
  simp only [mem_indices, inGrid, and_assoc]

theorem isShipSunk_ne_zero_iff (g : Grid) (shipId : Int) :
    isShipSunk g shipId ≠ 0 ↔ ∀ i j, inGrid i j → g i j ≠ shipId := by
  unfold isShipSunk
  by_cases h : indices.any (fun i => indices.any (fun j => decide (g i j = shipId))) = true
  · rw [if_pos h]
    simp only [ne_eq, not_true_eq_false, false_iff, not_forall]
    simp only [List.any_eq_true, decide_eq_true_eq, mem_indices] at h
    obtain ⟨i, hi, j, hj, hg⟩ := h
    exact ⟨i, j, ⟨hi.1, hi.2, hj.1, hj.2⟩, fun hne => hne hg⟩
  · rw [if_neg h]
    simp only [ne_eq, one_ne_zero, not_false_eq_true, true_iff]
    intro i j hij hg
    apply h
    simp only [List.any_eq_true, decide_eq_true_eq, mem_indices]
    exact ⟨i, ⟨hij.1, hij.2.1⟩, j, ⟨hij.2.2.1, hij.2.2.2⟩, hg⟩

theorem isShipSunk_zero_or_one (g : Grid) (shipId : Int) :
    isShipSunk g shipId = 0 ∨ isShipSunk g shipId = 1 := by
  unfold isShipSunk
  split_ifs
  · exact Or.inl rfl
  · exact Or.inr rfl

theorem isShipSunk_eq_one_iff (g : Grid) (shipId : Int) :
    isShipSunk g shipId = 1 ↔ ∀ i j, inGrid i j → g i j ≠ shipId := by
  rw [← isShipSunk_ne_zero_iff]
  rcases isShipSunk_zero_or_one g shipId with h | h <;> simp [h]

theorem allDestroyed_eq_one_iff (g : Grid) :
    allDestroyed g = 1 ↔ ∀ i j, inGrid i j → ¬ g i j > 0 := by
  unfold allDestroyed
  by_cases h : indices.any (fun i => indices.any (fun j => decide (g i j > 0))) = true
  · rw [if_pos h]
    simp only [zero_ne_one, false_iff, not_forall]
    simp only [List.any_eq_true, decide_eq_true_eq, mem_indices] at h
    obtain ⟨i, hi, j, hj, hg⟩ := h
    exact ⟨i, j, ⟨hi.1, hi.2, hj.1, hj.2⟩, fun hne => hne hg⟩
  · rw [if_neg h]
    simp only [true_iff]
    intro i j hij hg
    apply h
    simp only [List.any_eq_true, decide_eq_true_eq, mem_indices]
    exact ⟨i, ⟨hij.1, hij.2.1⟩, j, ⟨hij.2.2.1, hij.2.2.2⟩, hg⟩

/-- A cell accepted by a sampling loop lies in the grid and fails the loop condition. -/
theorem sampleWhile_spec (again : Int → Int → Bool) (fuel seed : Nat) (x y : Int) (seed' : Nat)
    (h : sampleWhile again fuel seed = some (x, y, seed')) :
    inGrid x y ∧ again x y = false := by
  induction fuel generalizing seed with
  | zero => simp [sampleWhile] at h
  | succ n ih =>
    simp only [sampleWhile] at h
    split_ifs at h with hc
    · exact ih _ h
    · simp only [Option.some.injEq, Prod.mk.injEq] at h
      obtain ⟨hx, hy, -⟩ := h
      subst hx hy
      refine ⟨⟨?_, ?_, ?_, ?_⟩, by simpa using hc⟩
      · exact Int.emod_nonneg _ (by decide)
      · exact Int.emod_lt_of_pos _ (by decide)
      · exact Int.emod_nonneg _ (by decide)
      · exact Int.emod_lt_of_pos _ (by decide)

/-- What a direction loop returns: a direction of the list, its neighbour of `(cx, cy)`, in
the grid and untried. -/
theorem firstFree_spec (ddx ddy : Int → Int) (shots : Grid) (cx cy : Int) (ds : List Int)
    (d x y : Int) (h : firstFree ddx ddy shots cx cy ds = some (d, x, y)) :
    d ∈ ds ∧ x = cx + ddx d ∧ y = cy + ddy d ∧ inGrid x y ∧ shots x y = 0 := by
  induction ds with
  | nil => simp [firstFree] at h
  | cons e es ih =>
    simp only [firstFree] at h
    split_ifs at h with hc
    · simp only [Option.some.injEq, Prod.mk.injEq] at h
      obtain ⟨rfl, rfl, rfl⟩ := h
      exact ⟨List.mem_cons_self _ _, rfl, rfl, ⟨hc.1, hc.2.1, hc.2.2.1, hc.2.2.2.1⟩, hc.2.2.2.2⟩
    · obtain ⟨h1, h2⟩ := ih h
      exact ⟨List.mem_cons_of_mem _ h1, h2⟩

theorem scanRow_spec (grid shots : Grid) (i : Int) (js : List Int) (j dir x y : Int)
    (h : scanRow grid shots i js = some (j, dir, x, y)) :
    j ∈ js ∧ (grid i j < 0 ∧ grid i j > -99) ∧
      firstFree dx dy shots i j [1, 2, 3, 4] = some (dir, x, y) := by
  induction js with
  | nil => simp [scanRow] at h
  | cons e es ih =>
    simp only [scanRow] at h
    split_ifs at h with hc
    · cases hf : firstFree dx dy shots i e [1, 2, 3, 4] with
      | none =>
        rw [hf] at h
        obtain ⟨h1, h2⟩ := ih h
        exact ⟨List.mem_cons_of_mem _ h1, h2⟩
      | some r =>
        obtain ⟨d', x', y'⟩ := r
        rw [hf] at h
        simp only [Option.some.injEq, Prod.mk.injEq] at h
        obtain ⟨rfl, rfl, rfl, rfl⟩ := h
        exact ⟨List.mem_cons_self _ _, hc, hf⟩
    · obtain ⟨h1, h2⟩ := ih h
      exact ⟨List.mem_cons_of_mem _ h1, h2⟩

theorem scanGrid_spec (grid shots : Grid) (is : List Int) (i j dir x y : Int)
    (h : scanGrid grid shots is = some (i, j, dir, x, y)) :
    i ∈ is ∧ scanRow grid shots i indices = some (j, dir, x, y) := by
  induction is with
  | nil => simp [scanGrid] at h
  | cons e es ih =>
    simp only [scanGrid] at h
    cases hr : scanRow grid shots e indices with
    | none =>
      rw [hr] at h
      obtain ⟨h1, h2⟩ := ih h
      exact ⟨List.mem_cons_of_mem _ h1, h2⟩
    | some r =>
      rw [hr] at h
      simp only [Option.some.injEq, Prod.mk.injEq] at h
      obtain ⟨rfl, rfl⟩ := h
      exact ⟨List.mem_cons_self _ _, hr⟩

/-- Marking an untried cell of the grid adds exactly one to the number of marked cells. -/
theorem countShots_setCell (shots : Grid) (x y : Int) (hin : inGrid x y) (h0 : shots x y = 0) :
    countShots (setCell shots x y 1) = countShots shots + 1 := by
  unfold countShots
  have hset : cells.filter (fun c => setCell shots x y 1 c.1 c.2 = 1)
      = insert (x, y) (cells.filter (fun c => shots c.1 c.2 = 1)) := by
    ext ⟨i, j⟩
    simp only [Finset.mem_filter, Finset.mem_insert, Prod.mk.injEq, mem_cells]
    by_cases hij : i = x ∧ j = y
    · obtain ⟨rfl, rfl⟩ := hij
      simp [setCell_same, hin]
    · simp [setCell_other _ _ _ _ _ _ hij, hij]
  rw [hset, Finset.card_insert_of_not_mem]
  simp [h0]

/-! ## Every returning call fires at one untried cell of the grid -/

theorem enemyEasy_fires (fuel : Nat) (target : Player) (ai : AIState) (seed : Nat) (r : Game)
    (h : enemyEasy fuel target ai seed = some r) : ∃ x y, FiresAt ai r x y := by
  unfold enemyEasy at h
  cases hs : sampleWhile (fun x y => decide (ai.shots x y ≠ 0)) fuel seed with
  | none => rw [hs] at h; simp at h
  | some c =>
    obtain ⟨x, y, s'⟩ := c
    rw [hs] at h
    obtain ⟨hin, hag⟩ := sampleWhile_spec _ _ _ _ _ _ hs
    have h0 : ai.shots x y = 0 := by simpa using hag
    refine ⟨x, y, hin, h0, ?_⟩
    simp only at h
    split_ifs at h <;> (simp only [Option.some.injEq] at h; subst h; rfl)

theorem mediumSearch_fires (fuel : Nat) (target : Player) (ai : AIState) (seed : Nat) (r : Game)
    (h : mediumSearch fuel target ai seed = some r) : ∃ x y, FiresAt ai r x y := by
  unfold mediumSearch at h
  cases hs : sampleWhile (fun x y => decide (ai.shots x y ≠ 0)) fuel seed with
  | none => rw [hs] at h; simp at h
  | some c =>
    obtain ⟨x, y, s'⟩ := c
    rw [hs] at h
    obtain ⟨hin, hag⟩ := sampleWhile_spec _ _ _ _ _ _ hs
    have h0 : ai.shots x y = 0 := by simpa using hag
    refine ⟨x, y, hin, h0, ?_⟩
    simp only at h
    split_ifs at h <;> (simp only [Option.some.injEq] at h; subst h; rfl)

theorem enemyMedium_fires (fuel : Nat) (target : Player) (ai : AIState) (seed : Nat) (r : Game)
    (h : enemyMedium fuel target ai seed = some r) : ∃ x y, FiresAt ai r x y := by
  unfold enemyMedium at h
  split_ifs at h with hl
  · cases hf : firstFree dx4 dy4 ai.shots ai.lastHitX ai.lastHitY [0, 1, 2, 3] with
    | none =>
      rw [hf] at h
      simp only at h
      have hm := mediumSearch_fires _ _ _ _ _ h
      exact hm
    | some c =>
      obtain ⟨d, x, y⟩ := c
      rw [hf] at h
      obtain ⟨-, -, -, hin, h0⟩ := firstFree_spec _ _ _ _ _ _ _ _ _ hf
      refine ⟨x, y, hin, h0, ?_⟩
      simp only at h
      split_ifs at h <;> (simp only [Option.some.injEq] at h; subst h; rfl)
  · exact mediumSearch_fires fuel target ai seed r h

theorem hardStep3_fires (fuel : Nat) (target : Player) (ai : AIState) (seed : Nat) (r : Game)
    (h : hardStep3 fuel target ai seed = some r) : ∃ x y, FiresAt ai r x y := by
  unfold hardStep3 at h
  cases hs : sampleWhile
      (fun x y => decide (ai.shots x y ≠ 0) || decide ((x + y) % 2 ≠ 0)) fuel seed with
  | none => rw [hs] at h; simp at h
  | some c =>
    obtain ⟨x, y, s'⟩ := c
    rw [hs] at h
    obtain ⟨hin, hag⟩ := sampleWhile_spec _ _ _ _ _ _ hs
    have h0 : ai.shots x y = 0 := by
      simp only [Bool.or_eq_false_iff, decide_eq_false_iff_not, ne_eq, not_not] at hag
      exact hag.1
    refine ⟨x, y, hin, h0, ?_⟩
    simp only at h
    split_ifs at h <;> (simp only [Option.some.injEq] at h; subst h; rfl)

theorem hardStep2_fires (fuel : Nat) (target : Player) (ai : AIState) (seed : Nat) (r : Game)
    (h : hardStep2 fuel target ai seed = some r) : ∃ x y, FiresAt ai r x y := by
  unfold hardStep2 at h
  split_ifs at h with ha
  · cases hf : firstFree dx dy ai.shots ai.anchorX ai.anchorY [1, 2, 3, 4] with
    | none =>
      rw [hf] at h
      simp only at h
      cases hg : scanGrid target.grid ai.shots indices with
      | none =>
        rw [hg] at h
        exact hardStep3_fires fuel target ai seed r h
      | some c =>
        obtain ⟨i, j, d, x, y⟩ := c
        rw [hg] at h
        obtain ⟨-, hrow⟩ := scanGrid_spec _ _ _ _ _ _ _ _ hg
        obtain ⟨-, -, hff⟩ := scanRow_spec _ _ _ _ _ _ _ _ hrow
        obtain ⟨-, -, -, hin, h0⟩ := firstFree_spec _ _ _ _ _ _ _ _ _ hff
        refine ⟨x, y, hin, h0, ?_⟩
        simp only at h
        split_ifs at h <;> (simp only [Option.some.injEq] at h; subst h; rfl)
    | some c =>
      obtain ⟨d, x, y⟩ := c
      rw [hf] at h
      obtain ⟨-, -, -, hin, h0⟩ := firstFree_spec _ _ _ _ _ _ _ _ _ hf
      refine ⟨x, y, hin, h0, ?_⟩
      simp only at h
      split_ifs at h <;> (simp only [Option.some.injEq] at h; subst h; rfl)
  · exact hardStep3_fires fuel target ai seed r h

theorem enemyHard_fires (fuel : Nat) (target : Player) (ai : AIState) (seed : Nat) (r : Game)
    (h : enemyHard fuel target ai seed = some r) : ∃ x y, FiresAt ai r x y := by
  unfold enemyHard at h
  by_cases hd : ai.direction ≠ 0
  · rw [if_pos hd] at h
    simp only at h
    by_cases hc : 0 ≤ ai.currentX + dx ai.direction ∧ ai.currentX + dx ai.direction < GRID ∧
        0 ≤ ai.currentY + dy ai.direction ∧ ai.currentY + dy ai.direction < GRID ∧
        ai.shots (ai.currentX + dx ai.direction) (ai.currentY + dy ai.direction) = 0
    · rw [if_pos hc] at h
      refine ⟨_, _, ⟨hc.1, hc.2.1, hc.2.2.1, hc.2.2.2.1⟩, hc.2.2.2.2, ?_⟩
      split_ifs at h <;> (simp only [Option.some.injEq] at h; subst h; rfl)
    · rw [if_neg hc] at h
      have hm := hardStep2_fires _ _ _ _ _ h
      exact hm
  · rw [if_neg hd] at h
    exact hardStep2_fires fuel target ai seed r h


/-- The grid a returning `enemyEasy` call leaves, in terms of the cell it fired at. -/
theorem enemyEasy_grid (fuel : Nat) (target : Player) (ai : AIState) (seed : Nat) (r : Game)
    (h : enemyEasy fuel target ai seed = some r) :
    ∃ x y, FiresAt ai r x y ∧
      (target.grid x y > 0 →
        r.target.grid =
          if isShipSunk (setCell target.grid x y (-target.grid x y)) (target.grid x y) ≠ 0
          then markShipSunk (setCell target.grid x y (-target.grid x y)) (target.grid x y)
          else setCell target.grid x y (-target.grid x y)) ∧
      (target.grid x y = 0 → r.target.grid = setCell target.grid x y (-99)) ∧
      (target.grid x y < 0 → r.target.grid = target.grid) := by
  unfold enemyEasy at h
  cases hs : sampleWhile (fun x y => decide (ai.shots x y ≠ 0)) fuel seed with
  | none => rw [hs] at h; simp at h
  | some c =>
    obtain ⟨x, y, s'⟩ := c
    rw [hs] at h
    obtain ⟨hin, hag⟩ := sampleWhile_spec _ _ _ _ _ _ hs
    have h0 : ai.shots x y = 0 := by simpa using hag
    refine ⟨x, y, ?_, ?_⟩
    · refine ⟨hin, h0, ?_⟩
      simp only at h
      split_ifs at h <;> (simp only [Option.some.injEq] at h; subst h; rfl)
    · simp only at h
      split_ifs at h with hpos hsunk hzero
      · simp only [Option.some.injEq] at h; subst h
        exact ⟨fun _ => by rw [if_pos hsunk], fun hz => by omega, fun hn => by omega⟩
      · simp only [Option.some.injEq] at h; subst h
        exact ⟨fun _ => by rw [if_neg hsunk], fun hz => by omega, fun hn => by omega⟩
      · simp only [Option.some.injEq] at h; subst h
        exact ⟨fun hp => absurd hp hpos, fun _ => rfl, fun hn => by omega⟩
      · simp only [Option.some.injEq] at h; subst h
        exact ⟨fun hp => absurd hp hpos, fun hz => absurd hz hzero, fun _ => rfl⟩

/-- The cell a call fired at is the one whose `shots` entry went from 0 to 1. -/
theorem FiresAt.unique {ai : AIState} {r : Game} {x y x' y' : Int} (hf : FiresAt ai r x y)
    (h0 : ai.shots x' y' = 0) (h1 : r.ai.shots x' y' = 1) : x' = x ∧ y' = y := by
  by_contra hne
  rw [hf.2.2, setCell_other _ _ _ _ _ _ hne, h0] at h1
  exact absurd h1 (by decide)

/-- After a hit on ship `k > 0` at `(x, y)`, `isShipSunk` answers "sunk" exactly when no other
cell of the grid holds `k`. -/
theorem isShipSunk_after_hit (g : Grid) (x y k : Int) (hk : 0 < k) :
    isShipSunk (setCell g x y (-k)) k ≠ 0 ↔
      ∀ i j, inGrid i j → ¬ (i = x ∧ j = y) → g i j ≠ k := by
  rw [isShipSunk_ne_zero_iff]
  constructor
  · intro h i j hin hij
    have := h i j hin
    rwa [setCell_other _ _ _ _ _ _ hij] at this
  · intro h i j hin
    by_cases hij : i = x ∧ j = y
    · rw [hij.1, hij.2, setCell_same]; omega
    · rw [setCell_other _ _ _ _ _ _ hij]; exact h i j hin hij

/-- After a hit on ship `k > 0` at the grid cell `(x, y)`, `markShipSunk` leaves `-200 - k` at
`(x, y)` and at every cell that held `-k`. -/
theorem markShipSunk_after_hit (g : Grid) (x y k : Int) (hin : inGrid x y) :
    markShipSunk (setCell g x y (-k)) k x y = -200 - k ∧
      ∀ i j, inGrid i j → g i j = -k → markShipSunk (setCell g x y (-k)) k i j = -200 - k := by
  refine ⟨?_, fun i j hij hg => ?_⟩
  · rw [markShipSunk_apply, setCell_same, if_pos ⟨hin, rfl⟩]
  · rw [markShipSunk_apply]
    by_cases hc : i = x ∧ j = y
    · rw [hc.1, hc.2, setCell_same, if_pos ⟨hin, rfl⟩]
    · rw [setCell_other _ _ _ _ _ _ hc, if_pos ⟨hij, hg⟩]

/-- Step 1 of `enemyHard` when the stepped cell passes the test: the call returns, without
sampling, the state written by the hit or the miss branch. -/
theorem enemyHard_step1_eq (fuel : Nat) (target : Player) (ai : AIState) (seed : Nat)
    (hd : ai.direction ≠ 0)
    (hc : Untried ai.shots (ai.currentX + dx ai.direction) (ai.currentY + dy ai.direction)) :
    enemyHard fuel target ai seed =
      (let x := ai.currentX + dx ai.direction
       let y := ai.currentY + dy ai.direction
       if target.grid x y > 0 then
         if isShipSunk (setCell target.grid x y (-target.grid x y)) (target.grid x y) ≠ 0 then
           some ⟨{ target with
                    grid := markShipSunk (setCell target.grid x y (-target.grid x y))
                      (target.grid x y) },
                 { ai with shots := setCell ai.shots x y 1, anchorX := -1, anchorY := -1,
                           currentX := -1, currentY := -1, direction := 0 }, seed⟩
         else
           some ⟨{ target with grid := setCell target.grid x y (-target.grid x y) },
                 { ai with shots := setCell ai.shots x y 1, currentX := x, currentY := y }, seed⟩
       else
         some ⟨{ target with grid := setCell target.grid x y (-99) },
               { ai with shots := setCell ai.shots x y 1, currentX := ai.anchorX,
                         currentY := ai.anchorY, direction := 0 }, seed⟩) := by
  have hc' : 0 ≤ ai.currentX + dx ai.direction ∧ ai.currentX + dx ai.direction < GRID ∧
      0 ≤ ai.currentY + dy ai.direction ∧ ai.currentY + dy ai.direction < GRID ∧
      ai.shots (ai.currentX + dx ai.direction) (ai.currentY + dy ai.direction) = 0 :=
    ⟨hc.1.1, hc.1.2.1, hc.1.2.2.1, hc.1.2.2.2, hc.2⟩
  unfold enemyHard
  rw [if_pos hd]
  simp only
  rw [if_pos hc']

/-- Step 1 of `enemyHard` when the stepped cell fails the test: the direction is dropped and
the call continues with `hardStep2`. -/
theorem enemyHard_blocked_eq (fuel : Nat) (target : Player) (ai : AIState) (seed : Nat)
    (hd : ai.direction ≠ 0)
    (hc : ¬ Untried ai.shots (ai.currentX + dx ai.direction) (ai.currentY + dy ai.direction)) :
    enemyHard fuel target ai seed = hardStep2 fuel target
      { ai with currentX := ai.anchorX, currentY := ai.anchorY, direction := 0 } seed := by
  have hc' : ¬ (0 ≤ ai.currentX + dx ai.direction ∧ ai.currentX + dx ai.direction < GRID ∧
      0 ≤ ai.currentY + dy ai.direction ∧ ai.currentY + dy ai.direction < GRID ∧
      ai.shots (ai.currentX + dx ai.direction) (ai.currentY + dy ai.direction) = 0) :=
    fun h => hc ⟨⟨h.1, h.2.1, h.2.2.1, h.2.2.2.1⟩, h.2.2.2.2⟩
  unfold enemyHard
  rw [if_pos hd]
  simp only
  rw [if_neg hc']

theorem enemyHard_idle_eq (fuel : Nat) (target : Player) (ai : AIState) (seed : Nat)
    (hd : ai.direction = 0) : enemyHard fuel target ai seed = hardStep2 fuel target ai seed := by
  unfold enemyHard
  rw [if_neg (fun h => h hd)]

/-- The direction table of `enemyHard`: 1 is up `(x - 1, y)`, 2 is down `(x + 1, y)`, 3 is left
`(x, y - 1)`, 4 is right `(x, y + 1)`. -/
theorem step_of_direction (dir cx cy nx ny : Int)
    (h : (dir = 1 ∧ nx = cx - 1 ∧ ny = cy) ∨ (dir = 2 ∧ nx = cx + 1 ∧ ny = cy) ∨
      (dir = 3 ∧ nx = cx ∧ ny = cy - 1) ∨ (dir = 4 ∧ nx = cx ∧ ny = cy + 1)) :
    dir ≠ 0 ∧ nx = cx + dx dir ∧ ny = cy + dy dir := by
  rcases h with ⟨rfl, rfl, rfl⟩ | ⟨rfl, rfl, rfl⟩ | ⟨rfl, rfl, rfl⟩ | ⟨rfl, rfl, rfl⟩ <;>
    simp [dx, dy] <;> omega

theorem firstFree_cons (ddx ddy : Int → Int) (shots : Grid) (cx cy d : Int) (ds : List Int) :
    firstFree ddx ddy shots cx cy (d :: ds) =
      if Untried shots (cx + ddx d) (cy + ddy d) then some (d, cx + ddx d, cy + ddy d)
      else firstFree ddx ddy shots cx cy ds := by
  simp only [firstFree, Untried, inGrid, and_assoc]

theorem neighbour_up (x y : Int) : x + dx 1 = x - 1 ∧ y + dy 1 = y := by
  simp [dx, dy]; omega

theorem neighbour_down (x y : Int) : x + dx 2 = x + 1 ∧ y + dy 2 = y := by
  simp [dx, dy]

theorem neighbour_left (x y : Int) : x + dx 3 = x ∧ y + dy 3 = y - 1 := by
  simp [dx, dy]; omega

theorem neighbour_right (x y : Int) : x + dx 4 = x ∧ y + dy 4 = y + 1 := by
  simp [dx, dy]

/-- The probe loop of `enemyHard` around `(cx, cy)` returns the first untried neighbour in the
order up, down, left, right. -/
theorem firstFree_first (shots : Grid) (cx cy dir nx ny : Int)
    (hfirst : (dir = 1 ∧ nx = cx - 1 ∧ ny = cy) ∨
      (dir = 2 ∧ nx = cx + 1 ∧ ny = cy ∧ ¬ Untried shots (cx - 1) cy) ∨
      (dir = 3 ∧ nx = cx ∧ ny = cy - 1 ∧ ¬ Untried shots (cx - 1) cy ∧
        ¬ Untried shots (cx + 1) cy) ∨
      (dir = 4 ∧ nx = cx ∧ ny = cy + 1 ∧ ¬ Untried shots (cx - 1) cy ∧
        ¬ Untried shots (cx + 1) cy ∧ ¬ Untried shots cx (cy - 1)))
    (hfree : Untried shots nx ny) :
    firstFree dx dy shots cx cy [1, 2, 3, 4] = some (dir, nx, ny) := by
  simp only [firstFree_cons, (neighbour_up cx cy).1, (neighbour_up cx cy).2,
    (neighbour_down cx cy).1, (neighbour_down cx cy).2, (neighbour_left cx cy).1,
    (neighbour_left cx cy).2, (neighbour_right cx cy).1, (neighbour_right cx cy).2]
  rcases hfirst with ⟨rfl, rfl, rfl⟩ | ⟨rfl, rfl, rfl, h1⟩ | ⟨rfl, rfl, rfl, h1, h2⟩ |
    ⟨rfl, rfl, rfl, h1, h2, h3⟩
  · rw [if_pos hfree]
  · rw [if_neg h1, if_pos hfree]
  · rw [if_neg h1, if_neg h2, if_pos hfree]
  · rw [if_neg h1, if_neg h2, if_neg h3, if_pos hfree]

/-- Step 2 of `enemyHard` when the probe around the anchor finds a cell: the call returns,
without sampling, the state written by the hit or the miss branch. -/
theorem hardStep2_probe_eq (fuel : Nat) (target : Player) (ai : AIState) (seed : Nat)
    (dir x y : Int) (ha : ai.anchorX ≠ -1)
    (hf : firstFree dx dy ai.shots ai.anchorX ai.anchorY [1, 2, 3, 4] = some (dir, x, y)) :
    hardStep2 fuel target ai seed =
      if target.grid x y > 0 then
        if isShipSunk (setCell target.grid x y (-target.grid x y)) (target.grid x y) ≠ 0 then
          some ⟨{ target with
                   grid := markShipSunk (setCell target.grid x y (-target.grid x y))
                     (target.grid x y) },
                { ai with shots := setCell ai.shots x y 1, anchorX := -1, anchorY := -1,
                          currentX := -1, currentY := -1, direction := 0 }, seed⟩
        else
          some ⟨{ target with grid := setCell target.grid x y (-target.grid x y) },
                { ai with shots := setCell ai.shots x y 1, direction := dir, currentX := x,
                          currentY := y }, seed⟩
      else
        some ⟨{ target with grid := setCell target.grid x y (-99) },
              { ai with shots := setCell ai.shots x y 1 }, seed⟩ := by
  unfold hardStep2
  rw [if_pos ha, hf]

/-! ## Shot history -/

/-- C1. For `enemyEasy`, `enemyMedium` and `enemyHard`, from a state whose `shots` entries are
all 0 or 1 (and, for `enemyHard`, with `direction` in `0 .. 4`), a call that returns leaves
the number of `shots` entries equal to 1 exactly one greater than before. The proof needs
neither restriction on the state. -/
theorem strategies_fire_exactly_once (fuel : Nat) (target : Player) (ai : AIState) (seed : Nat)
    (r : Game) (_hshots : ∀ i j, inGrid i j → ai.shots i j = 0 ∨ ai.shots i j = 1) :
    (enemyEasy fuel target ai seed = some r →
      countShots r.ai.shots = countShots ai.shots + 1) ∧
    (enemyMedium fuel target ai seed = some r →
      countShots r.ai.shots = countShots ai.shots + 1) ∧
    (0 ≤ ai.direction ∧ ai.direction ≤ 4 → enemyHard fuel target ai seed = some r →
      countShots r.ai.shots = countShots ai.shots + 1) := by
  refine ⟨fun h => ?_, fun h => ?_, fun _ h => ?_⟩
  · obtain ⟨x, y, hin, h0, hs⟩ := enemyEasy_fires _ _ _ _ _ h
    rw [hs, countShots_setCell _ _ _ hin h0]
  · obtain ⟨x, y, hin, h0, hs⟩ := enemyMedium_fires _ _ _ _ _ h
    rw [hs, countShots_setCell _ _ _ hin h0]
  · obtain ⟨x, y, hin, h0, hs⟩ := enemyHard_fires _ _ _ _ _ h
    rw [hs, countShots_setCell _ _ _ hin h0]

/-- The three strategies called on `easyStart` (no shot fired yet, `direction` 0): each returns
and each leaves exactly one more marked cell. -/
theorem strategies_fire_exactly_once_witness :
    (∀ i j, inGrid i j → idleState.shots i j = 0 ∨ idleState.shots i j = 1) ∧
    (enemyEasy 1 easyStart.target idleState easyStart.seed = some easyShot1 ∧
      countShots easyShot1.ai.shots = countShots idleState.shots + 1) ∧
    (enemyMedium 1 easyStart.target idleState easyStart.seed = some mediumShot1 ∧
      countShots mediumShot1.ai.shots = countShots idleState.shots + 1) ∧
    ((0 ≤ idleState.direction ∧ idleState.direction ≤ 4) ∧
      enemyHard 1 easyStart.target idleState easyStart.seed = some hardShot1 ∧
      countShots hardShot1.ai.shots = countShots idleState.shots + 1) :=
  ⟨fun _ _ _ => Or.inl rfl,
   ⟨rfl, (strategies_fire_exactly_once 1 easyStart.target idleState easyStart.seed easyShot1
      (fun _ _ _ => Or.inl rfl)).1 rfl⟩,
   ⟨rfl, (strategies_fire_exactly_once 1 easyStart.target idleState easyStart.seed mediumShot1
      (fun _ _ _ => Or.inl rfl)).2.1 rfl⟩,
   ⟨by decide, rfl,
    (strategies_fire_exactly_once 1 easyStart.target idleState easyStart.seed hardShot1
      (fun _ _ _ => Or.inl rfl)).2.2 (by decide) rfl⟩⟩

/-- C2. In every returning call of `enemyEasy`, `enemyMedium` or `enemyHard`, no `shots` entry
goes from 1 to 0, and exactly one entry is written: it is set to 1, at a cell `(x, y)` with
`0 ≤ x < 14` and `0 ≤ y < 14` whose entry was 0 before the call. For `enemyHard` the proof
rests on the bounds and `shots` tests alone, not on the values of the direction table. -/
theorem strategies_shots_monotone (fuel : Nat) (target : Player) (ai : AIState) (seed : Nat)
    (r : Game)
    (h : enemyEasy fuel target ai seed = some r ∨ enemyMedium fuel target ai seed = some r ∨
      enemyHard fuel target ai seed = some r) :
    (∀ i j, ai.shots i j = 1 → r.ai.shots i j = 1) ∧
    ∃ x y, (0 ≤ x ∧ x < 14 ∧ 0 ≤ y ∧ y < 14) ∧ ai.shots x y = 0 ∧ r.ai.shots x y = 1 ∧
      ∀ i j, ¬ (i = x ∧ j = y) → r.ai.shots i j = ai.shots i j := by
  have hf : ∃ x y, FiresAt ai r x y := by
    rcases h with h | h | h
    · exact enemyEasy_fires _ _ _ _ _ h
    · exact enemyMedium_fires _ _ _ _ _ h
    · exact enemyHard_fires _ _ _ _ _ h
  obtain ⟨x, y, hin, h0, hs⟩ := hf
  refine ⟨fun i j h1 => ?_, x, y, hin, h0, ?_, fun i j hij => ?_⟩
  · rw [hs]
    by_cases hij : i = x ∧ j = y
    · rw [hij.1, hij.2, setCell_same]
    · rw [setCell_other _ _ _ _ _ _ hij, h1]
  · rw [hs, setCell_same]
  · rw [hs, setCell_other _ _ _ _ _ _ hij]

/-- The call `enemyMedium` on `easyStart` returns `mediumShot1`, whose only new mark is at
`(5, 3)`. -/
theorem strategies_shots_monotone_witness :
    enemyMedium 1 easyStart.target idleState easyStart.seed = some mediumShot1 ∧
    ((∀ i j, idleState.shots i j = 1 → mediumShot1.ai.shots i j = 1) ∧
     ∃ x y, (0 ≤ x ∧ x < 14 ∧ 0 ≤ y ∧ y < 14) ∧ idleState.shots x y = 0 ∧
      mediumShot1.ai.shots x y = 1 ∧
      ∀ i j, ¬ (i = x ∧ j = y) → mediumShot1.ai.shots i j = idleState.shots i j) :=
  ⟨rfl, strategies_shots_monotone 1 easyStart.target idleState easyStart.seed mediumShot1
    (Or.inr (Or.inl rfl))⟩

/-! ## Applying a shot -/

/-- C3. When a returning `enemyEasy` call selects the untried cell `(x, y)` (its `shots`
entry goes from 0 to 1) holding `v`: if `v = 0` the cell becomes `-99` and no other grid cell
changes; if `v = k > 0` and some other cell still equals `k`, the cell becomes `-k` and no
other cell changes; if `v = k > 0` and no other cell equals `k`, then the cell and every cell
that held `-k` hold `-200 - k`. -/
theorem enemyEasy_shot_outcome (fuel : Nat) (target : Player) (ai : AIState) (seed : Nat)
    (r : Game) (x y : Int) (hret : enemyEasy fuel target ai seed = some r)
    (h0 : ai.shots x y = 0) (h1 : r.ai.shots x y = 1) :
    (target.grid x y = 0 → r.target.grid = setCell target.grid x y (-99)) ∧
    (∀ k, target.grid x y = k → 0 < k →
      (∃ i j, inGrid i j ∧ ¬ (i = x ∧ j = y) ∧ target.grid i j = k) →
      r.target.grid = setCell target.grid x y (-k)) ∧
    (∀ k, target.grid x y = k → 0 < k →
      (¬ ∃ i j, inGrid i j ∧ ¬ (i = x ∧ j = y) ∧ target.grid i j = k) →
      r.target.grid x y = -200 - k ∧
        ∀ i j, inGrid i j → target.grid i j = -k → r.target.grid i j = -200 - k) := by
  obtain ⟨x', y', hf, hpos, hzero, -⟩ := enemyEasy_grid _ _ _ _ _ hret
  obtain ⟨rfl, rfl⟩ := hf.unique h0 h1
  refine ⟨hzero, ?_, ?_⟩
  · rintro k rfl hk ⟨i, j, hin, hij, hg⟩
    rw [hpos hk, if_neg]
    rw [isShipSunk_after_hit _ _ _ _ hk]
    exact fun hall => hall i j hin hij hg
  · rintro k rfl hk hnone
    rw [hpos hk, if_pos]
    · exact markShipSunk_after_hit _ _ _ _ hf.1
    · rw [isShipSunk_after_hit _ _ _ _ hk]
      exact fun i j hin hij hg => hnone ⟨i, j, hin, hij, hg⟩

/-- The scenario of a size-3 ship (id 1) on row 5, columns 3 to 5, fired at `(5, 3)`,
`(5, 4)`, `(5, 5)` by three successive `enemyEasy` calls: after the first shot
`grid[5][3] = -1`; after the third all three cells hold `-201`. -/
theorem enemyEasy_shot_outcome_witness :
    enemyEasy 1 easyStart.target easyStart.ai easyStart.seed = some easyShot1 ∧
    enemyEasy 1 easyShot1.target easyShot1.ai easyShot1.seed = some easyShot2 ∧
    easyShot1.ai.shots 5 3 = 1 ∧ easyShot2.ai.shots 5 4 = 1 ∧
    easyShot1.target.grid 5 3 = -1 ∧
    easyShot1.target.grid = setCell shipRow5 5 3 (-1) ∧
    ∃ r, enemyEasy 1 easyShot2.target easyShot2.ai easyShot2.seed = some r ∧
      r.ai.shots 5 5 = 1 ∧ r.target.grid 5 3 = -201 ∧ r.target.grid 5 4 = -201 ∧
      r.target.grid 5 5 = -201 := by
  refine ⟨rfl, rfl, by decide, by decide, by decide, ?_, ?_⟩
  · exact (enemyEasy_shot_outcome 1 easyStart.target easyStart.ai easyStart.seed easyShot1 5 3
      rfl (by decide) (by decide)).2.1 1 (by decide) (by decide) ⟨5, 4, by decide⟩
  · cases h : enemyEasy 1 easyShot2.target easyShot2.ai easyShot2.seed with
    | none =>
      have hsome : (enemyEasy 1 easyShot2.target easyShot2.ai easyShot2.seed).isSome = true := by
        decide
      rw [h] at hsome
      exact absurd hsome (by decide)
    | some r =>
      have hshot : ((enemyEasy 1 easyShot2.target easyShot2.ai easyShot2.seed).map
          fun r => r.ai.shots 5 5) = some 1 := by decide
      rw [h] at hshot
      have h1 : r.ai.shots 5 5 = 1 := by simpa using hshot
      have hsunk := (enemyEasy_shot_outcome 1 easyShot2.target easyShot2.ai easyShot2.seed r 5 5
        h (by decide) h1).2.2 1 (by decide) (by decide) (by
          rintro ⟨i, j, -, hij, hg⟩
          simp only [easyShot2, easyShot1, setCell, shipRow5] at hg
          split_ifs at hg <;> omega)
      exact ⟨r, rfl, h1, hsunk.2 5 3 (by decide) (by decide), hsunk.2 5 4 (by decide) (by decide),
        hsunk.1⟩

/-! ## Grid queries -/

/-- C4. For every grid `g` and every ship id `k`, after `markShipSunk(g, k)` no cell of the
grid equals `-k`, and every cell that equalled `-k` before the call equals `-200 - k`. -/
theorem markShipSunk_converts_hits (g : Grid) (k : Int) :
    (∀ i j, inGrid i j → markShipSunk g k i j ≠ -k) ∧
    (∀ i j, inGrid i j → g i j = -k → markShipSunk g k i j = -200 - k) := by
  refine ⟨fun i j hin => ?_, fun i j hin hg => ?_⟩
  · rw [markShipSunk_apply]
    by_cases hg : g i j = -k
    · rw [if_pos ⟨hin, hg⟩]; omega
    · rw [if_neg (fun h => hg h.2)]; exact hg
  · rw [markShipSunk_apply, if_pos ⟨hin, hg⟩]

/-- On `hitRow5` (ship 1 hit on its three cells), `markShipSunk` turns the cell `(5, 4)` from
`-1` into `-201`. -/
theorem markShipSunk_converts_hits_witness :
    inGrid 5 4 ∧ hitRow5 5 4 = -1 ∧ markShipSunk hitRow5 1 5 4 ≠ -1 ∧
      markShipSunk hitRow5 1 5 4 = -200 - 1 :=
  ⟨by decide, by decide, (markShipSunk_converts_hits hitRow5 1).1 5 4 (by decide),
    (markShipSunk_converts_hits hitRow5 1).2 5 4 (by decide) (by decide)⟩

/-- C5, as amended. For every grid `g` and every integer `shipId`, `isShipSunk(g, shipId)`
returns 1 if and only if no cell of the grid equals `shipId`; and when `shipId` is neither 0
nor -100, cells equal to `-shipId` or `-200 - shipId` have no influence: two grids that differ
only in such cells give the same result. -/
theorem isShipSunk_checks_intact_cells (g : Grid) (shipId : Int) :
    (isShipSunk g shipId = 1 ↔ ∀ i j, inGrid i j → g i j ≠ shipId) ∧
    (shipId ≠ 0 → shipId ≠ -100 → ∀ g', SameUpToHitCells g g' shipId →
      isShipSunk g' shipId = isShipSunk g shipId) := by
  refine ⟨isShipSunk_eq_one_iff g shipId, fun h0 h100 g' hsame => ?_⟩
  have hiff : (∀ i j, inGrid i j → g' i j ≠ shipId) ↔ (∀ i j, inGrid i j → g i j ≠ shipId) := by
    constructor
    · intro h i j hin hg
      rcases hsame i j hin with he | ⟨hl, -⟩
      · exact h i j hin (he.trans hg)
      · omega
    · intro h i j hin hg
      rcases hsame i j hin with he | ⟨-, hr⟩
      · exact h i j hin (he.symm.trans hg)
      · omega
  rcases isShipSunk_zero_or_one g shipId with hz | ho
  · rcases isShipSunk_zero_or_one g' shipId with hz' | ho'
    · rw [hz, hz']
    · have := (isShipSunk_eq_one_iff g shipId).mpr (hiff.mp ((isShipSunk_eq_one_iff g' shipId).mp ho'))
      omega
  · rw [ho]
    exact (isShipSunk_eq_one_iff g' shipId).mpr (hiff.mpr ((isShipSunk_eq_one_iff g shipId).mp ho))

/-- For ship 1, `hitRow5` (three hit cells) and its conversion by `markShipSunk` (three sunk
cells) differ only in hit or sunk cells of ship 1, and `isShipSunk` answers the same on both. -/
theorem isShipSunk_checks_intact_cells_witness :
    (1 : Int) ≠ 0 ∧ (1 : Int) ≠ -100 ∧ SameUpToHitCells hitRow5 (markShipSunk hitRow5 1) 1 ∧
      isShipSunk (markShipSunk hitRow5 1) 1 = isShipSunk hitRow5 1 := by
  have hsame : SameUpToHitCells hitRow5 (markShipSunk hitRow5 1) 1 := by
    intro i j hin
    rw [markShipSunk_apply]
    by_cases hg : hitRow5 i j = -1
    · exact Or.inr ⟨Or.inl hg, Or.inr (by rw [if_pos ⟨hin, hg⟩])⟩
    · exact Or.inl (by rw [if_neg (fun h => hg h.2)])
  exact ⟨by decide, by decide, hsame,
    (isShipSunk_checks_intact_cells hitRow5 1).2 (by decide) (by decide) _ hsame⟩

/-- C5 fails at `shipId = 0`: in the all-water grid every cell equals `-shipId`, in the grid
filled with `-200` every cell equals `-200 - shipId`, so the two grids differ only in such
cells, yet `isShipSunk` returns 0 on the first and 1 on the second. -/
theorem isShipSunk_checks_intact_cells_counterexample :
    SameUpToHitCells (fun _ _ => -0) (fun _ _ => -200 - 0) 0 ∧
      isShipSunk (fun _ _ => -0) 0 = 0 ∧ isShipSunk (fun _ _ => -200 - 0) 0 = 1 :=
  ⟨fun _ _ _ => Or.inr ⟨Or.inl rfl, Or.inr rfl⟩, by decide, by decide⟩

/-- C6. For every grid `g`, `allDestroyed(g)` returns 1 if and only if no cell of the grid
holds a value greater than 0. -/
theorem allDestroyed_iff_no_positive_cell (g : Grid) :
    allDestroyed g = 1 ↔ ∀ i j, inGrid i j → ¬ g i j > 0 :=
  allDestroyed_eq_one_iff g

/-- On `hitRow5` no cell is positive and `allDestroyed` returns 1; on `shipRow5` the cell
`(5, 3)` is positive and it does not. -/
theorem allDestroyed_iff_no_positive_cell_witness :
    allDestroyed hitRow5 = 1 ∧ (∀ i j, inGrid i j → ¬ hitRow5 i j > 0) ∧
      allDestroyed shipRow5 ≠ 1 ∧ inGrid 5 3 ∧ shipRow5 5 3 > 0 :=
  ⟨by decide, (allDestroyed_iff_no_positive_cell hitRow5).mp (by decide),
    fun h => (allDestroyed_iff_no_positive_cell shipRow5).mp h 5 3 (by decide) (by decide),
    by decide, by decide⟩

/-! ## The hard strategy -/

/-- Step 3 of `enemyHard` runs no sink check. Outside the states a game reaches this shows:
in `lastCellState` ship 1 has two hit cells and one intact cell, `(5, 3)`, but no anchor, a
combination no game produces (while a ship is hit and not sunk the anchor is present, so the
state is outside `HardInv`); there the fallback hits `(5, 3)` and the three cells keep `-1`,
with anchor and current cell `(5, 3)`, where `enemyMedium`, whose random branch runs the
check, leaves `-201`. -/
theorem hardStep3_without_sink_check :
    enemyHard 1 lastCellTarget lastCellState 5548972 = some lastCellHard ∧
    isShipSunk lastCellHard.target.grid 1 = 1 ∧
    lastCellHard.target.grid 5 3 = -1 ∧ lastCellHard.target.grid 5 4 = -1 ∧
    lastCellHard.target.grid 5 5 = -1 ∧
    lastCellHard.ai.anchorX = 5 ∧ lastCellHard.ai.anchorY = 3 ∧
    lastCellHard.ai.currentX = 5 ∧ lastCellHard.ai.currentY = 3 ∧
    enemyMedium 1 lastCellTarget lastCellState 5548972 = some lastCellMedium ∧
    lastCellMedium.target.grid 5 3 = -201 ∧ lastCellMedium.target.grid 5 4 = -201 ∧
    lastCellMedium.target.grid 5 5 = -201 ∧
    lastCellMedium.ai.lastHitX = -1 ∧ lastCellMedium.ai.lastHitY = -1 ∧
    (HitCell lastCellTarget.grid 5 4 ∧ lastCellState.anchorX = -1) ∧
    ∀ g0, ¬ HardInv g0 lastCellTarget lastCellState := by
  have hgrid : lastCellMedium.target.grid
      = markShipSunk (setCell lastCellTarget.grid 5 3 (-1)) 1 := by simp only [lastCellMedium]
  refine ⟨rfl, by decide, by decide, by decide, by decide, rfl, rfl, rfl, rfl, rfl, ?_, ?_, ?_,
    rfl, rfl, ⟨by decide, rfl⟩, fun g0 hinv => hinv.2.2.1 ⟨5, 4, by decide⟩ rfl⟩
  · rw [hgrid, (markShipSunk_after_hit lastCellTarget.grid 5 3 1 (by decide)).1]; rfl
  · rw [hgrid, (markShipSunk_after_hit lastCellTarget.grid 5 3 1 (by decide)).2 5 4 (by decide)
      (by decide)]; rfl
  · rw [hgrid, (markShipSunk_after_hit lastCellTarget.grid 5 3 1 (by decide)).2 5 5 (by decide)
      (by decide)]; rfl

/-- C8. In `enemyHard` with `direction` in `1 .. 4` (1 up `(x-1, y)`, 2 down `(x+1, y)`, 3 left
`(x, y-1)`, 4 right `(x, y+1)`), if the cell `n = (nx, ny)` one step from `current` in that
direction is in the grid and untried, the call returns having fired exactly at `n`. If `n`
held an intact cell of a ship `k` that still has another intact cell, afterwards
`current = n` and `direction` and `anchor` are unchanged; if `n` held no intact ship cell,
`n` becomes `-99`, `current` is reset to `anchor` and `direction` becomes 0. -/
theorem enemyHard_pursuit (fuel : Nat) (target : Player) (ai : AIState) (seed : Nat)
    (nx ny : Int)
    (hstep : (ai.direction = 1 ∧ nx = ai.currentX - 1 ∧ ny = ai.currentY) ∨
      (ai.direction = 2 ∧ nx = ai.currentX + 1 ∧ ny = ai.currentY) ∨
      (ai.direction = 3 ∧ nx = ai.currentX ∧ ny = ai.currentY - 1) ∨
      (ai.direction = 4 ∧ nx = ai.currentX ∧ ny = ai.currentY + 1))
    (hfree : Untried ai.shots nx ny) :
    ∃ r, enemyHard fuel target ai seed = some r ∧ r.ai.shots = setCell ai.shots nx ny 1 ∧
      (∀ k, target.grid nx ny = k → 0 < k →
        (∃ i j, inGrid i j ∧ ¬ (i = nx ∧ j = ny) ∧ target.grid i j = k) →
        r.ai.currentX = nx ∧ r.ai.currentY = ny ∧ r.ai.direction = ai.direction ∧
          r.ai.anchorX = ai.anchorX ∧ r.ai.anchorY = ai.anchorY) ∧
      (¬ 0 < target.grid nx ny →
        r.target.grid nx ny = -99 ∧ r.ai.currentX = ai.anchorX ∧ r.ai.currentY = ai.anchorY ∧
          r.ai.direction = 0) := by
  obtain ⟨hd, rfl, rfl⟩ := step_of_direction _ _ _ _ _ hstep
  rw [enemyHard_step1_eq fuel target ai seed hd hfree]
  simp only
  by_cases hpos : target.grid (ai.currentX + dx ai.direction) (ai.currentY + dy ai.direction) > 0
  · rw [if_pos hpos]
    by_cases hs : isShipSunk (setCell target.grid (ai.currentX + dx ai.direction)
        (ai.currentY + dy ai.direction)
        (-target.grid (ai.currentX + dx ai.direction) (ai.currentY + dy ai.direction)))
        (target.grid (ai.currentX + dx ai.direction) (ai.currentY + dy ai.direction)) ≠ 0
    · rw [if_pos hs]
      refine ⟨_, rfl, rfl, ?_, fun hn => absurd hpos hn⟩
      rintro k rfl hk ⟨i, j, hin, hij, hg⟩
      exact absurd hg ((isShipSunk_after_hit _ _ _ _ hk).mp hs i j hin hij)
    · rw [if_neg hs]
      exact ⟨_, rfl, rfl, fun _ _ _ _ => ⟨rfl, rfl, rfl, rfl, rfl⟩, fun hn => absurd hpos hn⟩
  · rw [if_neg hpos]
    refine ⟨_, rfl, rfl, ?_, fun _ => ⟨setCell_same _ _ _ _, rfl, rfl, rfl⟩⟩
    rintro k rfl hk -
    exact absurd hk hpos

/-- The scenario anchor `(2, 2)`, direction 4 (right), current `(2, 3)`, `grid[2][4] = 0`: the
call fires at `(2, 4)`, a miss, and leaves current `(2, 2)` and direction 0. -/
theorem enemyHard_pursuit_witness :
    pursuitState.direction = 4 ∧ pursuitState.currentX = 2 ∧ pursuitState.currentY = 3 ∧
    pursuitState.anchorX = 2 ∧ pursuitState.anchorY = 2 ∧ pursuitTarget.grid 2 4 = 0 ∧
    Untried pursuitState.shots 2 4 ∧
    enemyHard 0 pursuitTarget pursuitState 98765 = some (pursuitResult 98765) ∧
    (pursuitResult 98765).ai.shots = setCell pursuitState.shots 2 4 1 ∧
    (pursuitResult 98765).target.grid 2 4 = -99 ∧
    (pursuitResult 98765).ai.currentX = 2 ∧ (pursuitResult 98765).ai.currentY = 2 ∧
    (pursuitResult 98765).ai.direction = 0 := by
  obtain ⟨r, hr, hshots, -, hmiss⟩ := enemyHard_pursuit 0 pursuitTarget pursuitState 98765 2 4
    (Or.inr (Or.inr (Or.inr ⟨rfl, rfl, rfl⟩))) (by decide)
  have hres : enemyHard 0 pursuitTarget pursuitState 98765 = some (pursuitResult 98765) := rfl
  obtain rfl : pursuitResult 98765 = r := Option.some.inj (hres.symm.trans hr)
  obtain ⟨h1, h2, h3, h4⟩ := hmiss (by decide)
  exact ⟨rfl, rfl, rfl, rfl, rfl, rfl, by decide, hres, hshots, h1, h2, h3, h4⟩

/-- C9. In `enemyHard` with `direction` in `1 .. 4`, if the cell `n = (nx, ny)` one step from
`current` in that direction is outside the grid or already tried, the whole result of the call
(grid, shots, anchor, current, direction, seed) is the result of `enemyHard` on the same grid
with `current` replaced by `anchor` and `direction` replaced by 0, and a call that returns
did not fire at `n`: its `shots` entry is unchanged. -/
theorem enemyHard_blocked_direction (fuel : Nat) (target : Player) (ai : AIState) (seed : Nat)
    (nx ny : Int)
    (hstep : (ai.direction = 1 ∧ nx = ai.currentX - 1 ∧ ny = ai.currentY) ∨
      (ai.direction = 2 ∧ nx = ai.currentX + 1 ∧ ny = ai.currentY) ∨
      (ai.direction = 3 ∧ nx = ai.currentX ∧ ny = ai.currentY - 1) ∨
      (ai.direction = 4 ∧ nx = ai.currentX ∧ ny = ai.currentY + 1))
    (hblocked : ¬ inGrid nx ny ∨ ai.shots nx ny ≠ 0) :
    enemyHard fuel target ai seed =
      enemyHard fuel target
        { ai with currentX := ai.anchorX, currentY := ai.anchorY, direction := 0 } seed ∧
    ∀ r, enemyHard fuel target ai seed = some r → r.ai.shots nx ny = ai.shots nx ny := by
  obtain ⟨hd, rfl, rfl⟩ := step_of_direction _ _ _ _ _ hstep
  have hc : ¬ Untried ai.shots (ai.currentX + dx ai.direction) (ai.currentY + dy ai.direction) :=
    fun h => hblocked.elim (fun hout => hout h.1) (fun htried => htried h.2)
  refine ⟨?_, fun r hr => ?_⟩
  · rw [enemyHard_blocked_eq fuel target ai seed hd hc, enemyHard_idle_eq _ _ _ _ rfl]
  · obtain ⟨x, y, hin, h0, hs⟩ := enemyHard_fires _ _ _ _ _ hr
    rw [hs, setCell_other]
    rintro ⟨hx, hy⟩
    rw [hx, hy] at hc
    exact hc ⟨hin, h0⟩

/-- On `blockedState` (direction right, current `(2, 3)`, `(2, 4)` already tried) the call
gives what it gives from anchor `(2, 2)` with no direction: a shot at `(1, 2)`, above the
anchor; the entry of `(2, 4)` is untouched. -/
theorem enemyHard_blocked_direction_witness :
    blockedState.direction = 4 ∧ blockedState.currentX = 2 ∧ blockedState.currentY = 3 ∧
    blockedState.shots 2 4 ≠ 0 ∧
    enemyHard 0 pursuitTarget blockedState 98765 = some (blockedResult 98765) ∧
    enemyHard 0 pursuitTarget
      { blockedState with currentX := blockedState.anchorX, currentY := blockedState.anchorY,
                          direction := 0 } 98765 = some (blockedResult 98765) ∧
    (blockedResult 98765).ai.shots 2 4 = blockedState.shots 2 4 := by
  obtain ⟨heq, hsame⟩ := enemyHard_blocked_direction 0 pursuitTarget blockedState 98765 2 4
    (Or.inr (Or.inr (Or.inr ⟨rfl, rfl, rfl⟩))) (Or.inr (by decide))
  have hres : enemyHard 0 pursuitTarget blockedState 98765 = some (blockedResult 98765) := rfl
  exact ⟨rfl, rfl, rfl, by decide, hres, heq ▸ hres, hsame _ hres⟩

/-- C10. In `enemyHard` with `direction` 0 and an anchor (`anchorX ≠ -1`), if `n = (nx, ny)` is
the first neighbour of the anchor, in the order up, down, left, right, that is in the grid and
untried, the call returns having fired exactly at `n`, whatever the grid holds. If `n` held an
intact cell of a ship `k` that still has another intact cell, afterwards `direction` is the
probing direction `dir`, `current = n` and `anchor` is unchanged; if `n` held no intact ship
cell, `n` becomes `-99` and `anchor`, `current` and `direction` are unchanged. -/
theorem enemyHard_anchor_probe (fuel : Nat) (target : Player) (ai : AIState) (seed : Nat)
    (dir nx ny : Int) (hnone : ai.direction = 0) (hanchor : ai.anchorX ≠ -1)
    (hfirst : (dir = 1 ∧ nx = ai.anchorX - 1 ∧ ny = ai.anchorY) ∨
      (dir = 2 ∧ nx = ai.anchorX + 1 ∧ ny = ai.anchorY ∧
        ¬ Untried ai.shots (ai.anchorX - 1) ai.anchorY) ∨
      (dir = 3 ∧ nx = ai.anchorX ∧ ny = ai.anchorY - 1 ∧
        ¬ Untried ai.shots (ai.anchorX - 1) ai.anchorY ∧
        ¬ Untried ai.shots (ai.anchorX + 1) ai.anchorY) ∨
      (dir = 4 ∧ nx = ai.anchorX ∧ ny = ai.anchorY + 1 ∧
        ¬ Untried ai.shots (ai.anchorX - 1) ai.anchorY ∧
        ¬ Untried ai.shots (ai.anchorX + 1) ai.anchorY ∧
        ¬ Untried ai.shots ai.anchorX (ai.anchorY - 1)))
    (hfree : Untried ai.shots nx ny) :
    ∃ r, enemyHard fuel target ai seed = some r ∧ r.ai.shots = setCell ai.shots nx ny 1 ∧
      (∀ k, target.grid nx ny = k → 0 < k →
        (∃ i j, inGrid i j ∧ ¬ (i = nx ∧ j = ny) ∧ target.grid i j = k) →
        r.ai.direction = dir ∧ r.ai.currentX = nx ∧ r.ai.currentY = ny ∧
          r.ai.anchorX = ai.anchorX ∧ r.ai.anchorY = ai.anchorY) ∧
      (¬ 0 < target.grid nx ny →
        r.target.grid nx ny = -99 ∧ r.ai.anchorX = ai.anchorX ∧ r.ai.anchorY = ai.anchorY ∧
          r.ai.currentX = ai.currentX ∧ r.ai.currentY = ai.currentY ∧
          r.ai.direction = ai.direction) := by
  rw [enemyHard_idle_eq _ _ _ _ hnone,
    hardStep2_probe_eq fuel target ai seed dir nx ny hanchor
      (firstFree_first _ _ _ _ _ _ hfirst hfree)]
  by_cases hpos : target.grid nx ny > 0
  · rw [if_pos hpos]
    by_cases hs : isShipSunk (setCell target.grid nx ny (-target.grid nx ny))
        (target.grid nx ny) ≠ 0
    · rw [if_pos hs]
      refine ⟨_, rfl, rfl, ?_, fun hn => absurd hpos hn⟩
      rintro k rfl hk ⟨i, j, hin, hij, hg⟩
      exact absurd hg ((isShipSunk_after_hit _ _ _ _ hk).mp hs i j hin hij)
    · rw [if_neg hs]
      exact ⟨_, rfl, rfl, fun _ _ _ _ => ⟨rfl, rfl, rfl, rfl, rfl⟩, fun hn => absurd hpos hn⟩
  · rw [if_neg hpos]
    refine ⟨_, rfl, rfl, ?_, fun _ => ⟨setCell_same _ _ _ _, rfl, rfl, rfl, rfl, rfl⟩⟩
    rintro k rfl hk -
    exact absurd hk hpos

/-- On `probeState` (anchor `(2, 2)`, the cell above already tried) the call fires below the
anchor, at `(3, 2)`: a miss, which leaves anchor, current and direction as they were. -/
theorem enemyHard_anchor_probe_witness :
    probeState.direction = 0 ∧ probeState.anchorX ≠ -1 ∧
    ¬ Untried probeState.shots (probeState.anchorX - 1) probeState.anchorY ∧
    Untried probeState.shots 3 2 ∧
    enemyHard 0 pursuitTarget probeState 98765 = some (probeResult 98765) ∧
    (probeResult 98765).ai.shots = setCell probeState.shots 3 2 1 ∧
    (probeResult 98765).target.grid 3 2 = -99 ∧
    (probeResult 98765).ai.anchorX = 2 ∧ (probeResult 98765).ai.anchorY = 2 ∧
    (probeResult 98765).ai.currentX = 2 ∧ (probeResult 98765).ai.currentY = 2 ∧
    (probeResult 98765).ai.direction = 0 := by
  obtain ⟨r, hr, hshots, -, hmiss⟩ := enemyHard_anchor_probe 0 pursuitTarget probeState 98765
    2 3 2 rfl (by decide) (Or.inr (Or.inl ⟨rfl, rfl, rfl, by decide⟩)) (by decide)
  have hres : enemyHard 0 pursuitTarget probeState 98765 = some (probeResult 98765) := rfl
  obtain rfl : probeResult 98765 = r := Option.some.inj (hres.symm.trans hr)
  obtain ⟨h1, h2, h3, h4, h5, h6⟩ := hmiss (by decide)
  exact ⟨rfl, by decide, by decide, by decide, hres, hshots, h1, h2, h3, h4, h5, h6⟩

/-! ## The probe and scan loops against their description -/

theorem clearRow_apply (i : Int) (l : List Int) (g : Grid) (p q : Int) :
    (l.foldl (fun g j => setCell g i j 0) g) p q = if p = i ∧ q ∈ l then 0 else g p q := by
  induction l generalizing g with
  | nil => simp
  | cons j l ih =>
    rw [List.foldl_cons, ih]
    by_cases hpq : p = i ∧ q = j
    · obtain ⟨rfl, rfl⟩ := hpq
      simp [setCell]
    · rw [setCell_other _ _ _ _ _ _ hpq]
      by_cases hpi : p = i
      · have hqj : q ≠ j := fun h => hpq ⟨hpi, h⟩
        simp [hpi, hqj]
      · simp [hpi]

theorem clearRows_apply (l : List Int) (g : Grid) (p q : Int) :
    (l.foldl (fun g i => indices.foldl (fun g j => setCell g i j 0) g) g) p q
      = if p ∈ l ∧ q ∈ indices then 0 else g p q := by
  induction l generalizing g with
  | nil => simp
  | cons i l ih =>
    rw [List.foldl_cons, ih, clearRow_apply]
    by_cases hpi : p = i
    · subst hpi
      by_cases hq : q ∈ indices
      · simp [hq]
      · simp [hq]
    · simp [hpi]

/-- Cell-by-cell description of `clearGrid`. -/
theorem clearGrid_apply (g : Grid) (p q : Int) :
    clearGrid g p q = if inGrid p q then 0 else g p q := by
  unfold clearGrid
  rw [clearRows_apply]
  simp only [mem_indices, inGrid, and_assoc]

theorem firstFree_nil (ddx ddy : Int → Int) (shots : Grid) (cx cy : Int) :
    firstFree ddx ddy shots cx cy [] = none := rfl

/-- The probe loop of `enemyHard` around `(cx, cy)`, unfolded over its four directions. -/
theorem firstFree_four (shots : Grid) (cx cy : Int) :
    firstFree dx dy shots cx cy [1, 2, 3, 4] =
      if Untried shots (cx - 1) cy then some (1, cx - 1, cy)
      else if Untried shots (cx + 1) cy then some (2, cx + 1, cy)
      else if Untried shots cx (cy - 1) then some (3, cx, cy - 1)
      else if Untried shots cx (cy + 1) then some (4, cx, cy + 1)
      else none := by
  simp only [firstFree_cons, firstFree_nil, (neighbour_up cx cy).1, (neighbour_up cx cy).2,
    (neighbour_down cx cy).1, (neighbour_down cx cy).2, (neighbour_left cx cy).1,
    (neighbour_left cx cy).2, (neighbour_right cx cy).1, (neighbour_right cx cy).2]

theorem firstFree_eq_none_iff (shots : Grid) (cx cy : Int) :
    firstFree dx dy shots cx cy [1, 2, 3, 4] = none ↔ ¬ HasUntriedNeighbour shots cx cy := by
  rw [firstFree_four]
  unfold HasUntriedNeighbour
  split_ifs with h1 h2 h3 h4 <;> simp [*]

theorem firstFree_eq_some_iff (shots : Grid) (cx cy dir nx ny : Int) :
    firstFree dx dy shots cx cy [1, 2, 3, 4] = some (dir, nx, ny) ↔
      FirstNeighbour shots cx cy dir nx ny := by
  constructor
  · intro h
    rw [firstFree_four] at h
    unfold FirstNeighbour
    split_ifs at h with h1 h2 h3 h4
    · simp only [Option.some.injEq, Prod.mk.injEq] at h
      obtain ⟨rfl, rfl, rfl⟩ := h
      exact ⟨Or.inl ⟨rfl, rfl, rfl⟩, h1⟩
    · simp only [Option.some.injEq, Prod.mk.injEq] at h
      obtain ⟨rfl, rfl, rfl⟩ := h
      exact ⟨Or.inr (Or.inl ⟨rfl, rfl, rfl, h1⟩), h2⟩
    · simp only [Option.some.injEq, Prod.mk.injEq] at h
      obtain ⟨rfl, rfl, rfl⟩ := h
      exact ⟨Or.inr (Or.inr (Or.inl ⟨rfl, rfl, rfl, h1, h2⟩)), h3⟩
    · simp only [Option.some.injEq, Prod.mk.injEq] at h
      obtain ⟨rfl, rfl, rfl⟩ := h
      exact ⟨Or.inr (Or.inr (Or.inr ⟨rfl, rfl, rfl, h1, h2, h3⟩)), h4⟩
  · intro h
    exact firstFree_first shots cx cy dir nx ny h.1 h.2

/-- The first untried neighbour exists as soon as some neighbour is untried. -/
theorem exists_firstNeighbour (shots : Grid) (cx cy : Int)
    (h : HasUntriedNeighbour shots cx cy) : ∃ dir nx ny, FirstNeighbour shots cx cy dir nx ny := by
  cases hf : firstFree dx dy shots cx cy [1, 2, 3, 4] with
  | none => exact absurd h ((firstFree_eq_none_iff shots cx cy).mp hf)
  | some c =>
    obtain ⟨dir, nx, ny⟩ := c
    exact ⟨dir, nx, ny, (firstFree_eq_some_iff shots cx cy dir nx ny).mp hf⟩

theorem FirstNeighbour.hasUntried {shots : Grid} {cx cy dir nx ny : Int}
    (h : FirstNeighbour shots cx cy dir nx ny) : HasUntriedNeighbour shots cx cy := by
  by_contra hno
  have hnone := (firstFree_eq_none_iff shots cx cy).mpr hno
  rw [(firstFree_eq_some_iff shots cx cy dir nx ny).mpr h] at hnone
  exact absurd hnone (by simp)

theorem indices_sorted : indices.Pairwise (· < ·) := by decide

/-- The scan test `grid[i][j] < 0 && grid[i][j] > -99` selects the values `-98 .. -1`. -/
theorem scan_test_iff (v : Int) : (v < 0 ∧ v > -99) ↔ (-98 ≤ v ∧ v ≤ -1) := by
  constructor <;> intro h <;> omega

theorem scanRow_cons_of_target (grid shots : Grid) (i e : Int) (es : List Int) (dir x y : Int)
    (hv : -98 ≤ grid i e ∧ grid i e ≤ -1) (hf : FirstNeighbour shots i e dir x y) :
    scanRow grid shots i (e :: es) = some (e, dir, x, y) := by
  simp only [scanRow]
  rw [if_pos ((scan_test_iff _).mpr hv), (firstFree_eq_some_iff shots i e dir x y).mpr hf]

theorem scanRow_cons_of_not (grid shots : Grid) (i e : Int) (es : List Int)
    (h : ¬ ((-98 ≤ grid i e ∧ grid i e ≤ -1) ∧ HasUntriedNeighbour shots i e)) :
    scanRow grid shots i (e :: es) = scanRow grid shots i es := by
  simp only [scanRow]
  by_cases hv : grid i e < 0 ∧ grid i e > -99
  · rw [if_pos hv]
    have hno : ¬ HasUntriedNeighbour shots i e := fun hu => h ⟨(scan_test_iff _).mp hv, hu⟩
    rw [(firstFree_eq_none_iff shots i e).mpr hno]
  · rw [if_neg hv]

theorem scanRow_eq_none_iff (grid shots : Grid) (i : Int) (js : List Int) :
    scanRow grid shots i js = none ↔
      ∀ j ∈ js, ¬ ((-98 ≤ grid i j ∧ grid i j ≤ -1) ∧ HasUntriedNeighbour shots i j) := by
  induction js with
  | nil => simp [scanRow]
  | cons e es ih =>
    by_cases hc : (-98 ≤ grid i e ∧ grid i e ≤ -1) ∧ HasUntriedNeighbour shots i e
    · obtain ⟨dir, x, y, hf⟩ := exists_firstNeighbour shots i e hc.2
      rw [scanRow_cons_of_target grid shots i e es dir x y hc.1 hf]
      constructor
      · intro h; exact absurd h (by simp)
      · intro h; exact absurd hc (h e (List.mem_cons_self _ _))
    · rw [scanRow_cons_of_not grid shots i e es hc, ih]
      constructor
      · intro h j hj
        rcases List.mem_cons.mp hj with rfl | hj'
        · exact hc
        · exact h j hj'
      · intro h j hj
        exact h j (List.mem_cons_of_mem _ hj)

theorem scanRow_eq_some_iff (grid shots : Grid) (i : Int) (js : List Int)
    (hs : js.Pairwise (· < ·)) (j dir x y : Int) :
    scanRow grid shots i js = some (j, dir, x, y) ↔
      j ∈ js ∧ (-98 ≤ grid i j ∧ grid i j ≤ -1) ∧ FirstNeighbour shots i j dir x y ∧
        ∀ j' ∈ js, j' < j →
          ¬ ((-98 ≤ grid i j' ∧ grid i j' ≤ -1) ∧ HasUntriedNeighbour shots i j') := by
  induction js with
  | nil => simp [scanRow]
  | cons e es ih =>
    have hlt : ∀ a ∈ es, e < a := (List.pairwise_cons.mp hs).1
    have ih' := ih (List.pairwise_cons.mp hs).2
    by_cases hc : (-98 ≤ grid i e ∧ grid i e ≤ -1) ∧ HasUntriedNeighbour shots i e
    · obtain ⟨d', x', y', hf⟩ := exists_firstNeighbour shots i e hc.2
      rw [scanRow_cons_of_target grid shots i e es d' x' y' hc.1 hf]
      constructor
      · intro h
        simp only [Option.some.injEq, Prod.mk.injEq] at h
        obtain ⟨rfl, rfl, rfl, rfl⟩ := h
        refine ⟨List.mem_cons_self _ _, hc.1, hf, fun j' hj' hlt' => ?_⟩
        rcases List.mem_cons.mp hj' with rfl | hj''
        · exact absurd hlt' (lt_irrefl _)
        · exact absurd (lt_trans hlt' (hlt j' hj'')) (lt_irrefl _)
      · rintro ⟨hj, -, hfn, hbefore⟩
        rcases List.mem_cons.mp hj with rfl | hj'
        · have h1 := (firstFree_eq_some_iff shots i j d' x' y').mpr hf
          rw [(firstFree_eq_some_iff shots i j dir x y).mpr hfn] at h1
          simp only [Option.some.injEq, Prod.mk.injEq] at h1
          obtain ⟨rfl, rfl, rfl⟩ := h1
          rfl
        · exact absurd hc (hbefore e (List.mem_cons_self _ _) (hlt j hj'))
    · rw [scanRow_cons_of_not grid shots i e es hc, ih']
      constructor
      · rintro ⟨hj, hv, hfn, hbefore⟩
        refine ⟨List.mem_cons_of_mem _ hj, hv, hfn, fun j' hj' hlt' => ?_⟩
        rcases List.mem_cons.mp hj' with rfl | hj''
        · exact hc
        · exact hbefore j' hj'' hlt'
      · rintro ⟨hj, hv, hfn, hbefore⟩
        rcases List.mem_cons.mp hj with rfl | hj'
        · exact absurd ⟨hv, hfn.hasUntried⟩ hc
        · exact ⟨hj', hv, hfn, fun j' hj'' hlt' => hbefore j' (List.mem_cons_of_mem _ hj'') hlt'⟩

theorem scanGrid_eq_none_iff (grid shots : Grid) (is : List Int) :
    scanGrid grid shots is = none ↔ ∀ i ∈ is, scanRow grid shots i indices = none := by
  induction is with
  | nil => simp [scanGrid]
  | cons e es ih =>
    simp only [scanGrid]
    cases hr : scanRow grid shots e indices with
    | none =>
      simp only [ih, List.mem_cons, forall_eq_or_imp, hr, true_and]
    | some r =>
      simp only [List.mem_cons, forall_eq_or_imp, hr]
      simp

theorem scanGrid_eq_some_iff (grid shots : Grid) (is : List Int) (hs : is.Pairwise (· < ·))
    (i : Int) (r : Int × Int × Int × Int) :
    scanGrid grid shots is = some (i, r) ↔
      i ∈ is ∧ scanRow grid shots i indices = some r ∧
        ∀ i' ∈ is, i' < i → scanRow grid shots i' indices = none := by
  induction is with
  | nil => simp [scanGrid]
  | cons e es ih =>
    have hlt : ∀ a ∈ es, e < a := (List.pairwise_cons.mp hs).1
    have ih' := ih (List.pairwise_cons.mp hs).2
    simp only [scanGrid]
    cases hr : scanRow grid shots e indices with
    | none =>
      simp only
      rw [ih']
      constructor
      · rintro ⟨hi, hrow, hbefore⟩
        refine ⟨List.mem_cons_of_mem _ hi, hrow, fun i' hi' hlt' => ?_⟩
        rcases List.mem_cons.mp hi' with rfl | hi''
        · exact hr
        · exact hbefore i' hi'' hlt'
      · rintro ⟨hi, hrow, hbefore⟩
        rcases List.mem_cons.mp hi with rfl | hi'
        · rw [hr] at hrow; exact absurd hrow (by simp)
        · exact ⟨hi', hrow, fun i' hi'' hlt' => hbefore i' (List.mem_cons_of_mem _ hi'') hlt'⟩
    | some r' =>
      simp only [Option.some.injEq, Prod.mk.injEq]
      constructor
      · rintro ⟨rfl, rfl⟩
        refine ⟨List.mem_cons_self _ _, hr, fun i' hi' hlt' => ?_⟩
        rcases List.mem_cons.mp hi' with rfl | hi''
        · exact absurd hlt' (lt_irrefl _)
        · exact absurd (lt_trans hlt' (hlt i' hi'')) (lt_irrefl _)
      · rintro ⟨hi, hrow, hbefore⟩
        rcases List.mem_cons.mp hi with rfl | hi'
        · rw [hr] at hrow
          exact ⟨rfl, Option.some.inj hrow⟩
        · have := hbefore e (List.mem_cons_self _ _) (hlt i hi')
          rw [hr] at this
          exact absurd this (by simp)

/-- The grid-wide scan finds nothing exactly when no cell holding a value in `-98 .. -1` has an
untried neighbour. -/
theorem scanGrid_none_iff_noScanTarget (grid shots : Grid) :
    scanGrid grid shots indices = none ↔ NoScanTarget grid shots := by
  rw [scanGrid_eq_none_iff]
  unfold NoScanTarget
  constructor
  · intro h i j hin
    exact (scanRow_eq_none_iff grid shots i indices).mp (h i ((mem_indices i).mpr ⟨hin.1, hin.2.1⟩))
      j ((mem_indices j).mpr ⟨hin.2.2.1, hin.2.2.2⟩)
  · intro h i hi
    rw [scanRow_eq_none_iff]
    intro j hj
    exact h i j ⟨((mem_indices i).mp hi).1, ((mem_indices i).mp hi).2, ((mem_indices j).mp hj).1,
      ((mem_indices j).mp hj).2⟩

/-- The grid-wide scan returns the first cell, in row-major order, holding a value in
`-98 .. -1` with an untried neighbour, and the first such neighbour. -/
theorem scanGrid_some_iff_scanTarget (grid shots : Grid) (i j dir x y : Int) :
    scanGrid grid shots indices = some (i, j, dir, x, y) ↔ ScanTarget grid shots i j dir x y := by
  rw [scanGrid_eq_some_iff grid shots indices indices_sorted,
    scanRow_eq_some_iff grid shots i indices indices_sorted]
  unfold ScanTarget
  constructor
  · rintro ⟨hi, ⟨hj, hv, hfn, hrow⟩, hrows⟩
    have hi' := (mem_indices i).mp hi
    have hj' := (mem_indices j).mp hj
    refine ⟨⟨hi'.1, hi'.2, hj'.1, hj'.2⟩, hv, hfn, fun i' j' hin hbefore => ?_⟩
    have hmi : i' ∈ indices := (mem_indices i').mpr ⟨hin.1, hin.2.1⟩
    have hmj : j' ∈ indices := (mem_indices j').mpr ⟨hin.2.2.1, hin.2.2.2⟩
    rcases hbefore with hlt | ⟨rfl, hlt⟩
    · exact (scanRow_eq_none_iff grid shots i' indices).mp (hrows i' hmi hlt) j' hmj
    · exact hrow j' hmj hlt
  · rintro ⟨hin, hv, hfn, hbefore⟩
    have hmi : i ∈ indices := (mem_indices i).mpr ⟨hin.1, hin.2.1⟩
    have hmj : j ∈ indices := (mem_indices j).mpr ⟨hin.2.2.1, hin.2.2.2⟩
    refine ⟨hmi, ⟨hmj, hv, hfn, fun j' hj' hlt => ?_⟩, fun i' hi' hlt => ?_⟩
    · have hj'' := (mem_indices j').mp hj'
      exact hbefore i j' ⟨hin.1, hin.2.1, hj''.1, hj''.2⟩ (Or.inr ⟨rfl, hlt⟩)
    · rw [scanRow_eq_none_iff]
      intro j' hj'
      have hi'' := (mem_indices i').mp hi'
      have hj'' := (mem_indices j').mp hj'
      exact hbefore i' j' ⟨hi''.1, hi''.2, hj''.1, hj''.2⟩ (Or.inl hlt)

/-! ## The steps of `enemyHard`, one equation per path -/

theorem dropDirection_shots (ai : AIState) : (dropDirection ai).shots = ai.shots := by
  unfold dropDirection; split_ifs <;> rfl

theorem dropDirection_anchorX (ai : AIState) : (dropDirection ai).anchorX = ai.anchorX := by
  unfold dropDirection; split_ifs <;> rfl

theorem dropDirection_anchorY (ai : AIState) : (dropDirection ai).anchorY = ai.anchorY := by
  unfold dropDirection; split_ifs <;> rfl

theorem dropDirection_lastHit (ai : AIState) :
    (dropDirection ai).lastHitX = ai.lastHitX ∧ (dropDirection ai).lastHitY = ai.lastHitY := by
  unfold dropDirection; split_ifs <;> exact ⟨rfl, rfl⟩

theorem dropDirection_direction (ai : AIState) : (dropDirection ai).direction = 0 := by
  unfold dropDirection
  split_ifs with h
  · rfl
  · exact not_not.mp h

/-- When step 1 fires nothing, `enemyHard` continues with step 2 on the state without
direction. -/
theorem enemyHard_silent_eq (fuel : Nat) (target : Player) (ai : AIState) (seed : Nat)
    (hs : Step1Silent ai) :
    enemyHard fuel target ai seed = hardStep2 fuel target (dropDirection ai) seed := by
  rcases hs with h0 | ⟨hd, hb⟩
  · rw [enemyHard_idle_eq _ _ _ _ h0]
    unfold dropDirection
    rw [if_neg (fun h => h h0)]
  · have hne : ai.direction ≠ 0 := by omega
    rw [enemyHard_blocked_eq _ _ _ _ hne hb]
    unfold dropDirection
    rw [if_pos hne]

/-- Step 2 of `enemyHard` when the probe around the anchor finds nothing and the scan finds
a cell: the call returns, without sampling, the state written by the hit or the miss
branch of the scan. -/
theorem hardStep2_scan_eq (fuel : Nat) (target : Player) (ai : AIState) (seed : Nat)
    (i j dir x y : Int) (ha : ai.anchorX ≠ -1)
    (hp : ¬ HasUntriedNeighbour ai.shots ai.anchorX ai.anchorY)
    (ht : ScanTarget target.grid ai.shots i j dir x y) :
    hardStep2 fuel target ai seed =
      if target.grid x y > 0 then
        if isShipSunk (setCell target.grid x y (-target.grid x y)) (target.grid x y) ≠ 0 then
          some ⟨{ target with
                   grid := markShipSunk (setCell target.grid x y (-target.grid x y))
                     (target.grid x y) },
                { ai with shots := setCell ai.shots x y 1, anchorX := -1, anchorY := -1,
                          currentX := -1, currentY := -1, direction := 0 }, seed⟩
        else
          some ⟨{ target with grid := setCell target.grid x y (-target.grid x y) },
                { ai with shots := setCell ai.shots x y 1, anchorX := i, anchorY := j,
                          currentX := x, currentY := y, direction := dir }, seed⟩
      else
        some ⟨{ target with grid := setCell target.grid x y (-99) },
              { ai with shots := setCell ai.shots x y 1 }, seed⟩ := by
  unfold hardStep2
  rw [if_pos ha, (firstFree_eq_none_iff _ _ _).mpr hp]
  simp only
  rw [(scanGrid_some_iff_scanTarget _ _ _ _ _ _ _).mpr ht]

/-- Step 2 of `enemyHard` falls to step 3 when there is no anchor, or when neither the probe
nor the scan finds a cell. -/
theorem hardStep2_fallback_eq (fuel : Nat) (target : Player) (ai : AIState) (seed : Nat)
    (h : ai.anchorX = -1 ∨
      (¬ HasUntriedNeighbour ai.shots ai.anchorX ai.anchorY ∧
        NoScanTarget target.grid ai.shots)) :
    hardStep2 fuel target ai seed = hardStep3 fuel target ai seed := by
  unfold hardStep2
  by_cases ha : ai.anchorX ≠ -1
  · rcases h with h | ⟨hp, hn⟩
    · exact absurd h ha
    · rw [if_pos ha, (firstFree_eq_none_iff _ _ _).mpr hp]
      simp only
      rw [(scanGrid_none_iff_noScanTarget _ _).mpr hn]
  · rw [if_neg ha]

/-- A call that reaches step 3 is the checkerboard shot on the state without direction. -/
theorem enemyHard_step3_eq (fuel : Nat) (target : Player) (ai : AIState) (seed : Nat)
    (h : ReachesStep3 target ai) :
    enemyHard fuel target ai seed = hardStep3 fuel target (dropDirection ai) seed := by
  rw [enemyHard_silent_eq _ _ _ _ h.1]
  apply hardStep2_fallback_eq
  rw [dropDirection_shots, dropDirection_anchorX, dropDirection_anchorY]
  exact h.2

/-- What a returning step 3 leaves: one shot at an untried cell with `x + y` even; on a hit
the cell is negated and becomes anchor and current cell; otherwise the cell becomes `-99`
and the search state keeps its other fields. -/
theorem hardStep3_result (fuel : Nat) (target : Player) (ai : AIState) (seed : Nat) (r : Game)
    (h : hardStep3 fuel target ai seed = some r) :
    ∃ x y, FiresAt ai r x y ∧ (x + y) % 2 = 0 ∧
      r.ai.direction = ai.direction ∧ r.ai.lastHitX = ai.lastHitX ∧
      r.ai.lastHitY = ai.lastHitY ∧ r.target.score = target.score ∧
      (target.grid x y > 0 →
        r.target.grid = setCell target.grid x y (-target.grid x y) ∧
        r.ai.anchorX = x ∧ r.ai.anchorY = y ∧ r.ai.currentX = x ∧ r.ai.currentY = y) ∧
      (¬ target.grid x y > 0 →
        r.target.grid = setCell target.grid x y (-99) ∧
        r.ai.anchorX = ai.anchorX ∧ r.ai.anchorY = ai.anchorY ∧
        r.ai.currentX = ai.currentX ∧ r.ai.currentY = ai.currentY) := by
  unfold hardStep3 at h
  cases hs : sampleWhile
      (fun x y => decide (ai.shots x y ≠ 0) || decide ((x + y) % 2 ≠ 0)) fuel seed with
  | none => rw [hs] at h; simp at h
  | some c =>
    obtain ⟨x, y, s'⟩ := c
    rw [hs] at h
    obtain ⟨hin, hag⟩ := sampleWhile_spec _ _ _ _ _ _ hs
    simp only [Bool.or_eq_false_iff, decide_eq_false_iff_not, ne_eq, not_not] at hag
    simp only at h
    by_cases hpos : target.grid x y > 0
    · rw [if_pos hpos] at h
      simp only [Option.some.injEq] at h
      subst h
      exact ⟨x, y, ⟨hin, hag.1, rfl⟩, hag.2, rfl, rfl, rfl, rfl,
        fun _ => ⟨rfl, rfl, rfl, rfl, rfl⟩, fun hn => absurd hpos hn⟩
    · rw [if_neg hpos] at h
      simp only [Option.some.injEq] at h
      subst h
      exact ⟨x, y, ⟨hin, hag.1, rfl⟩, hag.2, rfl, rfl, rfl, rfl,
        fun hp => absurd hp hpos, fun _ => ⟨rfl, rfl, rfl, rfl, rfl⟩⟩

/-! ## The hard strategy: scan and fallback -/

/-- C11, as amended. In `enemyHard` with an anchor (`anchorX ≠ -1`), no direction (or a
direction abandoned in this call) and no untried neighbour of the anchor in the grid, the
grid-wide scan considers the cells whose value `v` satisfies `-98 ≤ v ≤ -1`, in row-major
order, trying for each its neighbours in the order up, down, left, right: the call returns
having fired at the first untried neighbour so found; such a first cell exists as soon as
some cell in that range has an untried neighbour; and when none has, the call is the
checkerboard fallback. -/
theorem enemyHard_grid_scan (fuel : Nat) (target : Player) (ai : AIState) (seed : Nat)
    (hs : Step1Silent ai) (ha : ai.anchorX ≠ -1)
    (hp : ¬ HasUntriedNeighbour ai.shots ai.anchorX ai.anchorY) :
    (∀ i j dir nx ny, ScanTarget target.grid ai.shots i j dir nx ny →
      ∃ r, enemyHard fuel target ai seed = some r ∧ r.ai.shots = setCell ai.shots nx ny 1 ∧
        r.seed = seed) ∧
    (¬ NoScanTarget target.grid ai.shots →
      ∃ i j dir nx ny, ScanTarget target.grid ai.shots i j dir nx ny) ∧
    (NoScanTarget target.grid ai.shots →
      enemyHard fuel target ai seed = hardStep3 fuel target (dropDirection ai) seed) := by
  refine ⟨fun i j dir nx ny ht => ?_, fun hn => ?_, fun hn => ?_⟩
  · have ha' : (dropDirection ai).anchorX ≠ -1 := by rw [dropDirection_anchorX]; exact ha
    have hp' : ¬ HasUntriedNeighbour (dropDirection ai).shots (dropDirection ai).anchorX
        (dropDirection ai).anchorY := by
      rw [dropDirection_shots, dropDirection_anchorX, dropDirection_anchorY]; exact hp
    have ht' : ScanTarget target.grid (dropDirection ai).shots i j dir nx ny := by
      rw [dropDirection_shots]; exact ht
    rw [enemyHard_silent_eq _ _ _ _ hs, hardStep2_scan_eq fuel target _ seed i j dir nx ny ha' hp' ht']
    split_ifs <;> exact ⟨_, rfl, by rw [← dropDirection_shots ai], rfl⟩
  · cases hg : scanGrid target.grid ai.shots indices with
    | none => exact absurd ((scanGrid_none_iff_noScanTarget _ _).mp hg) hn
    | some c =>
      obtain ⟨i, j, dir, nx, ny⟩ := c
      exact ⟨i, j, dir, nx, ny, (scanGrid_some_iff_scanTarget _ _ _ _ _ _ _).mp hg⟩
  · exact enemyHard_step3_eq fuel target ai seed ⟨hs, Or.inr ⟨hp, hn⟩⟩

/-- On `openHitTarget` with the exhausted anchor `(0, 0)`, the scan passes `(0, 0)` (no untried
neighbour), reaches the hit cell `(5, 5)` and the call fires above it, at `(4, 5)`. -/
theorem enemyHard_grid_scan_witness :
    Step1Silent exhaustedState ∧ exhaustedState.anchorX ≠ -1 ∧
    ¬ HasUntriedNeighbour exhaustedState.shots exhaustedState.anchorX exhaustedState.anchorY ∧
    ScanTarget openHitTarget.grid exhaustedState.shots 5 5 1 4 5 ∧
    enemyHard 0 openHitTarget exhaustedState 98765 = some (openHitResult 98765) ∧
    (openHitResult 98765).ai.shots = setCell exhaustedState.shots 4 5 1 := by
  have hs : Step1Silent exhaustedState := Or.inl rfl
  have ht : ScanTarget openHitTarget.grid exhaustedState.shots 5 5 1 4 5 :=
    (scanGrid_some_iff_scanTarget _ _ _ _ _ _ _).mp (by decide)
  obtain ⟨r, hr, hshots, -⟩ := (enemyHard_grid_scan 0 openHitTarget exhaustedState 98765 hs
    (by decide) (by decide)).1 5 5 1 4 5 ht
  have hres : enemyHard 0 openHitTarget exhaustedState 98765 = some (openHitResult 98765) := rfl
  obtain rfl : openHitResult 98765 = r := Option.some.inj (hres.symm.trans hr)
  exact ⟨hs, by decide, by decide, ht, hres, hshots⟩

/-- C11 fails for a cell holding `-150`: on `deepHitTarget` the anchor `(0, 0)` has no untried
neighbour, `(5, 5)` holds `-150` (between `-199` and `-1`, not `-99`) and its neighbour
`(4, 5)` is untried, yet the call does not fire at `(4, 5)`: the scan test
`grid[i][j] > -99` skips the cell and the checkerboard fallback fires at `(2, 2)`. -/
theorem enemyHard_grid_scan_counterexample :
    exhaustedState.direction = 0 ∧ exhaustedState.anchorX ≠ -1 ∧
    ¬ HasUntriedNeighbour exhaustedState.shots exhaustedState.anchorX exhaustedState.anchorY ∧
    inGrid 5 5 ∧ deepHitTarget.grid 5 5 = -150 ∧ Untried exhaustedState.shots 4 5 ∧
    enemyHard 1 deepHitTarget exhaustedState 126 = some deepHitResult ∧
    deepHitResult.ai.shots 4 5 = 0 ∧ deepHitResult.ai.shots 2 2 = 1 ∧
    deepHitResult.target.grid 2 2 = -99 :=
  ⟨rfl, by decide, by decide, by decide, by decide, by decide, rfl, by decide, by decide,
    by decide⟩

/-- C12, as amended. In `enemyHard`, when the grid-wide scan fires at the neighbour
`n = (nx, ny)`, in probing direction `dir`, of the scanned hit cell `(i, j)`: if the shot hits
a ship `k` that still has another intact cell, then after the call `anchor = (i, j)`,
`current = n` and `direction = dir`; if the shot misses, `n` becomes `-99`, `anchor` is left
unchanged and `direction` is 0. -/
theorem enemyHard_scan_update (fuel : Nat) (target : Player) (ai : AIState) (seed : Nat)
    (i j dir nx ny : Int) (hs : Step1Silent ai) (ha : ai.anchorX ≠ -1)
    (hp : ¬ HasUntriedNeighbour ai.shots ai.anchorX ai.anchorY)
    (ht : ScanTarget target.grid ai.shots i j dir nx ny) :
    ∃ r, enemyHard fuel target ai seed = some r ∧ r.ai.shots = setCell ai.shots nx ny 1 ∧
      (∀ k, target.grid nx ny = k → 0 < k →
        (∃ i' j', inGrid i' j' ∧ ¬ (i' = nx ∧ j' = ny) ∧ target.grid i' j' = k) →
        r.ai.anchorX = i ∧ r.ai.anchorY = j ∧ r.ai.currentX = nx ∧ r.ai.currentY = ny ∧
          r.ai.direction = dir) ∧
      (¬ 0 < target.grid nx ny →
        r.target.grid nx ny = -99 ∧ r.ai.anchorX = ai.anchorX ∧ r.ai.anchorY = ai.anchorY ∧
          r.ai.direction = 0) := by
  have ha' : (dropDirection ai).anchorX ≠ -1 := by rw [dropDirection_anchorX]; exact ha
  have hp' : ¬ HasUntriedNeighbour (dropDirection ai).shots (dropDirection ai).anchorX
      (dropDirection ai).anchorY := by
    rw [dropDirection_shots, dropDirection_anchorX, dropDirection_anchorY]; exact hp
  have ht' : ScanTarget target.grid (dropDirection ai).shots i j dir nx ny := by
    rw [dropDirection_shots]; exact ht
  rw [enemyHard_silent_eq _ _ _ _ hs, hardStep2_scan_eq fuel target _ seed i j dir nx ny ha' hp' ht']
  by_cases hpos : target.grid nx ny > 0
  · rw [if_pos hpos]
    by_cases hsunk : isShipSunk (setCell target.grid nx ny (-target.grid nx ny))
        (target.grid nx ny) ≠ 0
    · rw [if_pos hsunk]
      refine ⟨_, rfl, by rw [← dropDirection_shots ai], ?_, fun hn => absurd hpos hn⟩
      rintro k rfl hk ⟨i', j', hin, hij, hg⟩
      exact absurd hg ((isShipSunk_after_hit _ _ _ _ hk).mp hsunk i' j' hin hij)
    · rw [if_neg hsunk]
      exact ⟨_, rfl, by rw [← dropDirection_shots ai],
        fun _ _ _ _ => ⟨rfl, rfl, rfl, rfl, rfl⟩, fun hn => absurd hpos hn⟩
  · rw [if_neg hpos]
    refine ⟨_, rfl, by rw [← dropDirection_shots ai], ?_, fun _ =>
      ⟨setCell_same _ _ _ _, dropDirection_anchorX ai, dropDirection_anchorY ai,
        dropDirection_direction ai⟩⟩
    rintro k rfl hk -
    exact absurd hk hpos

/-- On `openShipTarget` the scan fires at `(4, 5)`, above the hit cell `(5, 5)`, and hits ship 2,
which keeps `(3, 5)` intact: the anchor moves from `(0, 0)` to `(5, 5)`, the current cell is
`(4, 5)` and the direction is 1 (up). -/
theorem enemyHard_scan_update_witness :
    Step1Silent exhaustedState ∧ exhaustedState.anchorX ≠ -1 ∧
    ¬ HasUntriedNeighbour exhaustedState.shots exhaustedState.anchorX exhaustedState.anchorY ∧
    ScanTarget openShipTarget.grid exhaustedState.shots 5 5 1 4 5 ∧
    openShipTarget.grid 4 5 = 2 ∧ openShipTarget.grid 3 5 = 2 ∧
    enemyHard 0 openShipTarget exhaustedState 98765 = some (openShipResult 98765) ∧
    (openShipResult 98765).ai.anchorX = 5 ∧ (openShipResult 98765).ai.anchorY = 5 ∧
    (openShipResult 98765).ai.currentX = 4 ∧ (openShipResult 98765).ai.currentY = 5 ∧
    (openShipResult 98765).ai.direction = 1 := by
  have hs : Step1Silent exhaustedState := Or.inl rfl
  have ht : ScanTarget openShipTarget.grid exhaustedState.shots 5 5 1 4 5 :=
    (scanGrid_some_iff_scanTarget _ _ _ _ _ _ _).mp (by decide)
  obtain ⟨r, hr, -, hhit, -⟩ := enemyHard_scan_update 0 openShipTarget exhaustedState 98765
    5 5 1 4 5 hs (by decide) (by decide) ht
  have hres : enemyHard 0 openShipTarget exhaustedState 98765 = some (openShipResult 98765) :=
    rfl
  obtain rfl : openShipResult 98765 = r := Option.some.inj (hres.symm.trans hr)
  obtain ⟨h1, h2, h3, h4, h5⟩ := hhit 2 (by decide) (by decide) ⟨3, 5, by decide⟩
  exact ⟨hs, by decide, by decide, ht, by decide, by decide, hres, h1, h2, h3, h4, h5⟩

/-- C12 fails on a miss: on `openHitTarget` the scan fires at `(4, 5)`, the neighbour above
the scanned hit cell `(5, 5)`; the shot misses (no ship is sunk) and the anchor is still
`(0, 0)`, not `(5, 5)`. -/
theorem enemyHard_scan_update_counterexample :
    exhaustedState.direction = 0 ∧ exhaustedState.anchorX = 0 ∧ exhaustedState.anchorY = 0 ∧
    ¬ HasUntriedNeighbour exhaustedState.shots 0 0 ∧
    scanGrid openHitTarget.grid exhaustedState.shots indices = some (5, 5, 1, 4, 5) ∧
    openHitTarget.grid 4 5 = 0 ∧
    enemyHard 0 openHitTarget exhaustedState 98765 = some (openHitResult 98765) ∧
    (openHitResult 98765).ai.shots 4 5 = 1 ∧ (openHitResult 98765).target.grid 4 5 = -99 ∧
    (openHitResult 98765).ai.anchorX = 0 ∧ (openHitResult 98765).ai.anchorY = 0 :=
  ⟨rfl, rfl, rfl, by decide, by decide, by decide, rfl, by decide, by decide, rfl, rfl⟩

/-- C13. When `enemyHard` reaches the checkerboard fallback and fires at the cell
`c = (cx, cy)` (its `shots` entry goes from 0 to 1): if `c` held an intact cell of a ship `k`
that still has another intact cell, then afterwards `anchor = current = c` and `direction`
is 0; if `c` held no intact ship cell, `c` becomes `-99`, `anchor` is unchanged and
`direction` is 0. -/
theorem enemyHard_fallback_outcome (fuel : Nat) (target : Player) (ai : AIState) (seed : Nat)
    (r : Game) (cx cy : Int) (hreach : ReachesStep3 target ai)
    (hret : enemyHard fuel target ai seed = some r)
    (h0 : ai.shots cx cy = 0) (h1 : r.ai.shots cx cy = 1) :
    (∀ k, target.grid cx cy = k → 0 < k →
      (∃ i j, inGrid i j ∧ ¬ (i = cx ∧ j = cy) ∧ target.grid i j = k) →
      r.ai.anchorX = cx ∧ r.ai.anchorY = cy ∧ r.ai.currentX = cx ∧ r.ai.currentY = cy ∧
        r.ai.direction = 0) ∧
    (¬ 0 < target.grid cx cy →
      r.target.grid cx cy = -99 ∧ r.ai.anchorX = ai.anchorX ∧ r.ai.anchorY = ai.anchorY ∧
        r.ai.direction = 0) := by
  rw [enemyHard_step3_eq fuel target ai seed hreach] at hret
  obtain ⟨x, y, hf, -, hdir, -, -, -, hhit, hmiss⟩ := hardStep3_result _ _ _ _ _ hret
  rw [dropDirection_direction] at hdir
  have hf' : FiresAt ai r x y := by
    obtain ⟨hin, hz, hsh⟩ := hf
    rw [dropDirection_shots] at hz hsh
    exact ⟨hin, hz, hsh⟩
  obtain ⟨rfl, rfl⟩ := hf'.unique h0 h1
  constructor
  · rintro k rfl hk -
    obtain ⟨-, h2, h3, h4, h5⟩ := hhit hk
    exact ⟨h2, h3, h4, h5, hdir⟩
  · intro hn
    obtain ⟨hg, h2, h3, -, -⟩ := hmiss hn
    rw [dropDirection_anchorX] at h2
    rw [dropDirection_anchorY] at h3
    exact ⟨by rw [hg, setCell_same], h2, h3, hdir⟩

/-- Two calls that reach the fallback. From `easyStart` (no anchor) the shot at `(5, 3)` hits
ship 1, which has two more intact cells: anchor and current become `(5, 3)`. From
`deepHitTarget` with the exhausted anchor `(0, 0)` the shot at `(2, 2)` misses: the cell
becomes `-99` and the anchor stays `(0, 0)`. -/
theorem enemyHard_fallback_outcome_witness :
    (ReachesStep3 easyStart.target idleState ∧
      enemyHard 1 easyStart.target idleState easyStart.seed = some hardShot1 ∧
      idleState.shots 5 3 = 0 ∧ hardShot1.ai.shots 5 3 = 1 ∧
      hardShot1.ai.anchorX = 5 ∧ hardShot1.ai.anchorY = 3 ∧ hardShot1.ai.currentX = 5 ∧
      hardShot1.ai.currentY = 3 ∧ hardShot1.ai.direction = 0) ∧
    (ReachesStep3 deepHitTarget exhaustedState ∧
      enemyHard 1 deepHitTarget exhaustedState 126 = some deepHitResult ∧
      exhaustedState.shots 2 2 = 0 ∧ deepHitResult.ai.shots 2 2 = 1 ∧
      deepHitResult.target.grid 2 2 = -99 ∧ deepHitResult.ai.anchorX = 0 ∧
      deepHitResult.ai.anchorY = 0 ∧ deepHitResult.ai.direction = 0) := by
  have hr1 : ReachesStep3 easyStart.target idleState := ⟨Or.inl rfl, Or.inl rfl⟩
  have hr2 : ReachesStep3 deepHitTarget exhaustedState :=
    ⟨Or.inl rfl, Or.inr ⟨by decide, (scanGrid_none_iff_noScanTarget _ _).mp (by decide)⟩⟩
  obtain ⟨a1, a2, a3, a4, a5⟩ := (enemyHard_fallback_outcome 1 easyStart.target idleState
    easyStart.seed hardShot1 5 3 hr1 rfl (by decide) (by decide)).1 1 (by decide) (by decide)
    ⟨5, 4, by decide⟩
  obtain ⟨b1, b2, b3, b4⟩ := (enemyHard_fallback_outcome 1 deepHitTarget exhaustedState 126
    deepHitResult 2 2 hr2 rfl (by decide) (by decide)).2 (by decide)
  exact ⟨⟨hr1, rfl, by decide, by decide, a1, a2, a3, a4, a5⟩,
    ⟨hr2, rfl, by decide, by decide, b1, b2, b3, b4⟩⟩

/-! ## The grid after a call of `enemyHard` -/

/-- The grid left by a shot at `(x, y)`, as every firing site but step 3 of `enemyHard` and
the negative-cell branch of `enemyEasy` writes it. -/
theorem shot_branches {target : Player} {x y : Int} {aS aH aM : AIState} {seed : Nat}
    {r : Game}
    (h : (if target.grid x y > 0 then
        if isShipSunk (setCell target.grid x y (-target.grid x y)) (target.grid x y) ≠ 0 then
          some (⟨{ target with
                    grid := markShipSunk (setCell target.grid x y (-target.grid x y))
                      (target.grid x y) }, aS, seed⟩ : Game)
        else some ⟨{ target with grid := setCell target.grid x y (-target.grid x y) }, aH, seed⟩
      else some ⟨{ target with grid := setCell target.grid x y (-99) }, aM, seed⟩) = some r) :
    r.seed = seed ∧ r.target.score = target.score ∧
    ((¬ target.grid x y > 0 ∧ r.target.grid = setCell target.grid x y (-99) ∧ r.ai = aM) ∨
     (target.grid x y > 0 ∧
       ¬ isShipSunk (setCell target.grid x y (-target.grid x y)) (target.grid x y) ≠ 0 ∧
       r.target.grid = setCell target.grid x y (-target.grid x y) ∧ r.ai = aH) ∨
     (target.grid x y > 0 ∧
       isShipSunk (setCell target.grid x y (-target.grid x y)) (target.grid x y) ≠ 0 ∧
       r.target.grid = markShipSunk (setCell target.grid x y (-target.grid x y))
         (target.grid x y) ∧ r.ai = aS)) := by
  split_ifs at h with hpos hsunk
  · simp only [Option.some.injEq] at h; subst h
    dsimp only
    exact ⟨rfl, rfl, Or.inr (Or.inr ⟨hpos, hsunk, rfl, rfl⟩)⟩
  · simp only [Option.some.injEq] at h; subst h
    exact ⟨rfl, rfl, Or.inr (Or.inl ⟨hpos, hsunk, rfl, rfl⟩)⟩
  · simp only [Option.some.injEq] at h; subst h
    exact ⟨rfl, rfl, Or.inl ⟨hpos, rfl, rfl⟩⟩

theorem hardStep2_grid (fuel : Nat) (target : Player) (ai : AIState) (seed : Nat) (r : Game)
    (h : hardStep2 fuel target ai seed = some r) :
    ∃ x y, FiresAt ai r x y ∧ GridAfterShot target.grid r.target.grid x y := by
  unfold hardStep2 at h
  split_ifs at h with ha
  · cases hf : firstFree dx dy ai.shots ai.anchorX ai.anchorY [1, 2, 3, 4] with
    | none =>
      rw [hf] at h
      simp only at h
      cases hg : scanGrid target.grid ai.shots indices with
      | none =>
        rw [hg] at h
        obtain ⟨x, y, hfire, -, -, -, -, -, hhit, hmiss⟩ := hardStep3_result _ _ _ _ _ h
        refine ⟨x, y, hfire, ?_⟩
        by_cases hpos : target.grid x y > 0
        · exact Or.inr (Or.inl ⟨hpos, (hhit hpos).1⟩)
        · exact Or.inl ⟨hpos, (hmiss hpos).1⟩
      | some c =>
        obtain ⟨i, j, d, x, y⟩ := c
        rw [hg] at h
        obtain ⟨-, hrow⟩ := scanGrid_spec _ _ _ _ _ _ _ _ hg
        obtain ⟨-, -, hff⟩ := scanRow_spec _ _ _ _ _ _ _ _ hrow
        obtain ⟨-, -, -, hin, h0⟩ := firstFree_spec _ _ _ _ _ _ _ _ _ hff
        obtain ⟨-, -, hb⟩ := shot_branches h
        refine ⟨x, y, ⟨hin, h0, ?_⟩, ?_⟩
        · rcases hb with ⟨-, -, ha⟩ | ⟨-, -, -, ha⟩ | ⟨-, -, -, ha⟩ <;> rw [ha]
        · rcases hb with ⟨h1, h2, -⟩ | ⟨h1, -, h2, -⟩ | ⟨h1, -, h2, -⟩
          · exact Or.inl ⟨h1, h2⟩
          · exact Or.inr (Or.inl ⟨h1, h2⟩)
          · exact Or.inr (Or.inr ⟨h1, h2⟩)
    | some c =>
      obtain ⟨d, x, y⟩ := c
      rw [hf] at h
      obtain ⟨-, -, -, hin, h0⟩ := firstFree_spec _ _ _ _ _ _ _ _ _ hf
      obtain ⟨-, -, hb⟩ := shot_branches h
      refine ⟨x, y, ⟨hin, h0, ?_⟩, ?_⟩
      · rcases hb with ⟨-, -, ha⟩ | ⟨-, -, -, ha⟩ | ⟨-, -, -, ha⟩ <;> rw [ha]
      · rcases hb with ⟨h1, h2, -⟩ | ⟨h1, -, h2, -⟩ | ⟨h1, -, h2, -⟩
        · exact Or.inl ⟨h1, h2⟩
        · exact Or.inr (Or.inl ⟨h1, h2⟩)
        · exact Or.inr (Or.inr ⟨h1, h2⟩)
  · obtain ⟨x, y, hfire, -, -, -, -, -, hhit, hmiss⟩ := hardStep3_result _ _ _ _ _ h
    refine ⟨x, y, hfire, ?_⟩
    by_cases hpos : target.grid x y > 0
    · exact Or.inr (Or.inl ⟨hpos, (hhit hpos).1⟩)
    · exact Or.inl ⟨hpos, (hmiss hpos).1⟩

theorem enemyHard_grid (fuel : Nat) (target : Player) (ai : AIState) (seed : Nat) (r : Game)
    (h : enemyHard fuel target ai seed = some r) :
    ∃ x y, FiresAt ai r x y ∧ GridAfterShot target.grid r.target.grid x y := by
  by_cases hd : ai.direction ≠ 0
  · by_cases hc : Untried ai.shots (ai.currentX + dx ai.direction)
        (ai.currentY + dy ai.direction)
    · rw [enemyHard_step1_eq fuel target ai seed hd hc] at h
      simp only at h
      obtain ⟨-, -, hb⟩ := shot_branches h
      refine ⟨_, _, ⟨hc.1, hc.2, ?_⟩, ?_⟩
      · rcases hb with ⟨-, -, ha⟩ | ⟨-, -, -, ha⟩ | ⟨-, -, -, ha⟩ <;> rw [ha]
      · rcases hb with ⟨h1, h2, -⟩ | ⟨h1, -, h2, -⟩ | ⟨h1, -, h2, -⟩
        · exact Or.inl ⟨h1, h2⟩
        · exact Or.inr (Or.inl ⟨h1, h2⟩)
        · exact Or.inr (Or.inr ⟨h1, h2⟩)
    · rw [enemyHard_blocked_eq fuel target ai seed hd hc] at h
      have hm := hardStep2_grid _ _ _ _ _ h
      exact hm
  · rw [enemyHard_idle_eq fuel target ai seed (not_not.mp hd)] at h
    exact hardStep2_grid _ _ _ _ _ h

/-- A shot never makes a cell positive. -/
theorem GridAfterShot.nonpos {g g' : Grid} {x y : Int} (h : GridAfterShot g g' x y)
    (i j : Int) (hij : ¬ g i j > 0) : ¬ g' i j > 0 := by
  rcases h with ⟨-, hg⟩ | ⟨hpos, hg⟩ | ⟨hpos, hg⟩
  · rw [hg]
    by_cases hc : i = x ∧ j = y
    · rw [hc.1, hc.2, setCell_same]; decide
    · rw [setCell_other _ _ _ _ _ _ hc]; exact hij
  · rw [hg]
    by_cases hc : i = x ∧ j = y
    · rw [hc.1, hc.2, setCell_same]; omega
    · rw [setCell_other _ _ _ _ _ _ hc]; exact hij
  · rw [hg, markShipSunk_apply]
    split_ifs
    · omega
    · by_cases hc : i = x ∧ j = y
      · rw [hc.1, hc.2, setCell_same]; omega
      · rw [setCell_other _ _ _ _ _ _ hc]; exact hij

/-- Successive calls of `enemyHard` never make a cell positive. -/
theorem hardRun_nonpos (fuels : List Nat) (g0 g : Game) (hrun : hardRun fuels g0 = some g)
    (i j : Int) (hij : ¬ g0.target.grid i j > 0) : ¬ g.target.grid i j > 0 := by
  induction fuels generalizing g0 with
  | nil =>
    simp only [hardRun, Option.some.injEq] at hrun
    subst hrun
    exact hij
  | cons fuel fuels ih =>
    simp only [hardRun] at hrun
    cases hcall : enemyHard fuel g0.target g0.ai g0.seed with
    | none => rw [hcall] at hrun; simp at hrun
    | some g1 =>
      rw [hcall] at hrun
      simp only [Option.some_bind] at hrun
      obtain ⟨x, y, -, hg⟩ := enemyHard_grid _ _ _ _ _ hcall
      exact ih g1 hrun (hg.nonpos i j hij)

/-! ## Successive calls without a hit -/

theorem countShots_eq_zero (shots : Grid) (h : ∀ x y, inGrid x y → shots x y ≠ 1) :
    countShots shots = 0 := by
  unfold countShots
  rw [Finset.card_eq_zero, Finset.filter_eq_empty_iff]
  rintro ⟨x, y⟩ hc
  exact h x y ((mem_cells x y).mp hc)

/-- One returning `enemyHard` call from a state without anchor or direction: the shot is at a
cell with `x + y` even; either it misses, and the state again has no anchor and no direction,
or it hits and the cell is negated. -/
theorem enemyHard_idle_step (fuel : Nat) (target : Player) (ai : AIState) (seed : Nat)
    (r : Game) (hax : ai.anchorX = -1) (hdir : ai.direction = 0)
    (h : enemyHard fuel target ai seed = some r) :
    ∃ x y, FiresAt ai r x y ∧ (x + y) % 2 = 0 ∧
      ((¬ target.grid x y > 0 ∧ r.target.grid = setCell target.grid x y (-99) ∧
          r.ai.anchorX = -1 ∧ r.ai.anchorY = ai.anchorY ∧ r.ai.direction = 0) ∨
        (target.grid x y > 0 ∧ r.target.grid x y = -target.grid x y)) := by
  rw [enemyHard_step3_eq fuel target ai seed ⟨Or.inl hdir, Or.inl hax⟩] at h
  obtain ⟨x, y, hf, hpar, hd, -, -, -, hhit, hmiss⟩ := hardStep3_result _ _ _ _ _ h
  rw [dropDirection_direction] at hd
  obtain ⟨hin, hz, hsh⟩ := hf
  rw [dropDirection_shots] at hz hsh
  refine ⟨x, y, ⟨hin, hz, hsh⟩, hpar, ?_⟩
  by_cases hpos : target.grid x y > 0
  · exact Or.inr ⟨hpos, by rw [(hhit hpos).1, setCell_same]⟩
  · obtain ⟨hg, h2, h3, -, -⟩ := hmiss hpos
    rw [dropDirection_anchorX] at h2
    rw [dropDirection_anchorY] at h3
    exact Or.inl ⟨hpos, hg, h2.trans hax, h3, hd⟩

/-- Any number of successive returning `enemyHard` calls, from a state without anchor or
direction whose marked cells all have `x + y` even, when every cell that was intact at the
start is still intact at the end (no shot hit). -/
theorem hardRun_parity (fuels : List Nat) (g0 g : Game)
    (hax : g0.ai.anchorX = -1) (hay : g0.ai.anchorY = -1) (hdir : g0.ai.direction = 0)
    (hshots : ∀ x y, inGrid x y → g0.ai.shots x y ≠ 0 → (x + y) % 2 = 0)
    (hrun : hardRun fuels g0 = some g)
    (hkeep : ∀ i j, inGrid i j → g0.target.grid i j > 0 → g.target.grid i j > 0) :
    g.ai.anchorX = -1 ∧ g.ai.anchorY = -1 ∧ g.ai.direction = 0 ∧
      (∀ x y, inGrid x y → g.ai.shots x y ≠ 0 → (x + y) % 2 = 0) ∧
      countShots g.ai.shots = countShots g0.ai.shots + fuels.length := by
  induction fuels generalizing g0 with
  | nil =>
    simp only [hardRun, Option.some.injEq] at hrun
    subst hrun
    exact ⟨hax, hay, hdir, hshots, rfl⟩
  | cons fuel fuels ih =>
    simp only [hardRun] at hrun
    cases hcall : enemyHard fuel g0.target g0.ai g0.seed with
    | none => rw [hcall] at hrun; simp at hrun
    | some g1 =>
      rw [hcall] at hrun
      simp only [Option.some_bind] at hrun
      obtain ⟨x, y, hf, hpar, hcase⟩ := enemyHard_idle_step _ _ _ _ _ hax hdir hcall
      rcases hcase with ⟨hmiss, h4, h1, h2, h3⟩ | ⟨hpos, hneg⟩
      · have hshots1 : ∀ a b, inGrid a b → g1.ai.shots a b ≠ 0 → (a + b) % 2 = 0 := by
          intro a b hin hne
          rw [hf.2.2] at hne
          by_cases hab : a = x ∧ b = y
          · rw [hab.1, hab.2]; exact hpar
          · rw [setCell_other _ _ _ _ _ _ hab] at hne; exact hshots a b hin hne
        have hkeep1 : ∀ i j, inGrid i j → g1.target.grid i j > 0 → g.target.grid i j > 0 := by
          intro i j hin hp
          rw [h4] at hp
          by_cases hij : i = x ∧ j = y
          · rw [hij.1, hij.2, setCell_same] at hp; exact absurd hp (by decide)
          · rw [setCell_other _ _ _ _ _ _ hij] at hp; exact hkeep i j hin hp
        obtain ⟨r1, r2, r3, r5, r6⟩ := ih g1 h1 (h2.trans hay) h3 hshots1 hrun hkeep1
        refine ⟨r1, r2, r3, r5, ?_⟩
        rw [r6, hf.2.2, countShots_setCell _ _ _ hf.1 hf.2.1, List.length_cons]
        omega
      · have hlost : ¬ g1.target.grid x y > 0 := by rw [hneg]; omega
        exact absurd (hkeep x y hf.1 hpos) (hardRun_nonpos fuels g1 g hrun x y hlost)

/-- C14. Whenever `enemyHard` is called without anchor (`anchorX = -1` is all the code tests)
and without direction, the cell a returning call fires at has `x + y` even. Consequently,
from the state `initAIState` produces, on any grid, after any number of successive returning
`enemyHard` calls of which none hit (every cell intact at the start is still intact, as on an
all-water grid): one cell was fired at per call, every cell in the shot history, that is
every cell fired at so far, has `x + y` even, and the anchor is absent. -/
theorem enemyHard_checkerboard_parity :
    (∀ (fuel : Nat) (target : Player) (ai : AIState) (seed : Nat) (r : Game),
      ai.anchorX = -1 → ai.direction = 0 → enemyHard fuel target ai seed = some r →
      ∃ x y, FiresAt ai r x y ∧ (x + y) % 2 = 0) ∧
    (∀ (fuels : List Nat) (target : Player) (ai : AIState) (seed : Nat) (g : Game),
      hardRun fuels ⟨target, initAIState ai, seed⟩ = some g →
      (∀ i j, inGrid i j → target.grid i j > 0 → g.target.grid i j > 0) →
      g.ai.anchorX = -1 ∧ g.ai.anchorY = -1 ∧
        (∀ x y, inGrid x y → g.ai.shots x y ≠ 0 → (x + y) % 2 = 0) ∧
        countShots g.ai.shots = fuels.length) := by
  constructor
  · intro fuel target ai seed r hax hdir h
    obtain ⟨x, y, hf, hpar, -⟩ := enemyHard_idle_step _ _ _ _ _ hax hdir h
    exact ⟨x, y, hf, hpar⟩
  · intro fuels target ai seed g hrun hkeep
    have hclear : ∀ x y, inGrid x y → (initAIState ai).shots x y = 0 := by
      intro x y hin
      show clearGrid ai.shots x y = 0
      rw [clearGrid_apply, if_pos hin]
    obtain ⟨r1, r2, -, r5, r6⟩ := hardRun_parity fuels ⟨target, initAIState ai, seed⟩ g
      rfl rfl rfl (fun x y hin hne => absurd (hclear x y hin) hne) hrun hkeep
    refine ⟨r1, r2, r5, ?_⟩
    rw [r6, countShots_eq_zero _ (fun x y hin => by rw [hclear x y hin]; decide)]
    omega

set_option maxRecDepth 20000 in
/-- The miss scenario: from the state of `initAIState`, on the grid `shipRow5`, two successive
`enemyHard` calls fire at `(11, 11)` and `(0, 0)`, after rejecting the odd samples `(0, 11)`
and `(10, 3)`; both miss the ship and the anchor stays absent. -/
theorem enemyHard_checkerboard_parity_witness :
    (initAIState idleState).anchorX = -1 ∧ (initAIState idleState).direction = 0 ∧
    enemyHard 3 missStart.target missStart.ai missStart.seed = some missShot1 ∧
    (∃ x y, FiresAt missStart.ai missShot1 x y ∧ (x + y) % 2 = 0) ∧
    hardRun [3, 4] missStart = some missShot2 ∧
    (∀ i j, inGrid i j → shipRow5 i j > 0 → missShot2.target.grid i j > 0) ∧
    missShot2.ai.shots 11 11 = 1 ∧ missShot2.ai.shots 0 0 = 1 ∧
    missShot2.ai.anchorX = -1 ∧ missShot2.ai.anchorY = -1 ∧
    (∀ x y, inGrid x y → missShot2.ai.shots x y ≠ 0 → (x + y) % 2 = 0) ∧
    countShots missShot2.ai.shots = 2 := by
  have hcall : enemyHard 3 missStart.target missStart.ai missStart.seed = some missShot1 :=
    rfl
  have hrun : hardRun [3, 4] missStart = some missShot2 := rfl
  have hkeep : ∀ i j, inGrid i j → shipRow5 i j > 0 → missShot2.target.grid i j > 0 := by
    intro i j _ hp
    simp only [shipRow5] at hp
    split_ifs at hp with hc
    · have h1 : ¬ (i = 0 ∧ j = 0) := by omega
      have h2 : ¬ (i = 11 ∧ j = 11) := by omega
      simp only [missShot2, missShot1, setCell, shipRow5, if_neg h1, if_neg h2, if_pos hc]
      decide
    · exact absurd hp (by decide)
  obtain ⟨r1, r2, r3, r4⟩ := enemyHard_checkerboard_parity.2 [3, 4] ⟨shipRow5, 0⟩ idleState
    98765 missShot2 hrun hkeep
  exact ⟨rfl, rfl, hcall,
    enemyHard_checkerboard_parity.1 3 missStart.target missStart.ai missStart.seed missShot1
      rfl rfl hcall,
    hrun, hkeep, by simp [missShot2, missShot1, setCell], by simp [missShot2, setCell],
    r1, r2, r3, r4⟩

/-! ## Every cell can be sampled -/

theorem seedFor_samples : ∀ x ∈ indices, ∀ y ∈ indices,
    (myRand (seedFor x y)).1 % GRID = x ∧
      (myRand (myRand (seedFor x y)).2).1 % GRID = y := by
  decide

/-! ## The exhausted anchor -/

theorem dropDirection_of_idle (ai : AIState) (h : ai.direction = 0) : dropDirection ai = ai := by
  unfold dropDirection
  rw [if_neg (fun hne => hne h)]

/-- C15. For `enemyHard` called without direction and with its anchor at a hit-but-unsunk cell
`a = (ax, ay)`, on a grid where every other cell is intact, water, a miss or sunk, and with
no untried neighbour of `a` in the grid: the anchor probe and the grid-wide scan find nothing,
the call is the checkerboard fallback, and a returning call fires exactly one shot, at an
untried cell with `x + y` even. -/
theorem enemyHard_exhausted_anchor (fuel : Nat) (target : Player) (ai : AIState) (seed : Nat)
    (ax ay : Int) (hdir : ai.direction = 0) (hax : ai.anchorX = ax) (hay : ai.anchorY = ay)
    (hin : inGrid ax ay)
    (_hhit : -199 ≤ target.grid ax ay ∧ target.grid ax ay ≤ -1 ∧ target.grid ax ay ≠ -99)
    (honly : ∀ i j, inGrid i j → ¬ (i = ax ∧ j = ay) →
      (0 < target.grid i j ∨ target.grid i j = 0 ∨ target.grid i j = -99 ∨
        target.grid i j ≤ -200))
    (htried : ¬ HasUntriedNeighbour ai.shots ax ay) :
    firstFree dx dy ai.shots ai.anchorX ai.anchorY [1, 2, 3, 4] = none ∧
    scanGrid target.grid ai.shots indices = none ∧
    enemyHard fuel target ai seed = hardStep3 fuel target ai seed ∧
    ∀ r, enemyHard fuel target ai seed = some r →
      (∃ x y, FiresAt ai r x y ∧ (x + y) % 2 = 0) ∧
        countShots r.ai.shots = countShots ai.shots + 1 := by
  have hprobe : ¬ HasUntriedNeighbour ai.shots ai.anchorX ai.anchorY := by
    rw [hax, hay]; exact htried
  have hscan : NoScanTarget target.grid ai.shots := by
    rintro i j hij ⟨hv, hu⟩
    by_cases hc : i = ax ∧ j = ay
    · rw [hc.1, hc.2] at hu
      exact htried hu
    · rcases honly i j hij hc with h | h | h | h <;> omega
  have hanchor : ai.anchorX ≠ -1 := by
    rw [hax]
    have := hin.1
    omega
  have heq : enemyHard fuel target ai seed = hardStep3 fuel target ai seed := by
    rw [enemyHard_step3_eq fuel target ai seed ⟨Or.inl hdir, Or.inr ⟨hprobe, hscan⟩⟩,
      dropDirection_of_idle ai hdir]
  refine ⟨(firstFree_eq_none_iff _ _ _).mpr hprobe,
    (scanGrid_none_iff_noScanTarget _ _).mpr hscan, heq, fun r hr => ?_⟩
  rw [heq] at hr
  obtain ⟨x, y, hf, hpar, -⟩ := hardStep3_result _ _ _ _ _ hr
  exact ⟨⟨x, y, hf, hpar⟩, by rw [hf.2.2, countShots_setCell _ _ _ hf.1 hf.2.1]⟩

/-- On `loneHitTarget` with the exhausted anchor `(0, 0)`, the only hit cell: the probe and the
scan find nothing and the call fires once, at `(2, 2)`. -/
theorem enemyHard_exhausted_anchor_witness :
    loneHitState.direction = 0 ∧ inGrid 0 0 ∧ loneHitTarget.grid 0 0 = -1 ∧
    ¬ HasUntriedNeighbour loneHitState.shots 0 0 ∧
    firstFree dx dy loneHitState.shots loneHitState.anchorX loneHitState.anchorY [1, 2, 3, 4]
      = none ∧
    scanGrid loneHitTarget.grid loneHitState.shots indices = none ∧
    enemyHard 1 loneHitTarget loneHitState 126 = some loneHitResult ∧
    (∃ x y, FiresAt loneHitState loneHitResult x y ∧ (x + y) % 2 = 0) ∧
    countShots loneHitResult.ai.shots = countShots loneHitState.shots + 1 := by
  have honly : ∀ i j, inGrid i j → ¬ (i = 0 ∧ j = 0) →
      (0 < loneHitTarget.grid i j ∨ loneHitTarget.grid i j = 0 ∨
        loneHitTarget.grid i j = -99 ∨ loneHitTarget.grid i j ≤ -200) := by
    intro i j _ hij
    simp only [loneHitTarget]
    rw [if_neg hij]
    split_ifs
    · exact Or.inr (Or.inr (Or.inl rfl))
    · exact Or.inl (by decide)
    · exact Or.inr (Or.inl rfl)
  obtain ⟨h1, h2, -, h4⟩ := enemyHard_exhausted_anchor 1 loneHitTarget loneHitState 126 0 0
    rfl rfl rfl (by decide) (by decide) honly (by decide)
  obtain ⟨h5, h6⟩ := h4 loneHitResult rfl
  exact ⟨rfl, by decide, by decide, by decide, h1, h2, rfl, h5, h6⟩

/-! ## The medium strategy -/

theorem neighbour4_up (x y : Int) : x + dx4 0 = x - 1 ∧ y + dy4 0 = y := by
  simp [dx4, dy4]; omega

theorem neighbour4_down (x y : Int) : x + dx4 1 = x + 1 ∧ y + dy4 1 = y := by
  simp [dx4, dy4]

theorem neighbour4_left (x y : Int) : x + dx4 2 = x ∧ y + dy4 2 = y - 1 := by
  simp [dx4, dy4]; omega

theorem neighbour4_right (x y : Int) : x + dx4 3 = x ∧ y + dy4 3 = y + 1 := by
  simp [dx4, dy4]

/-- The chase loop of `enemyMedium` around `(cx, cy)`, unfolded over its four directions. -/
theorem firstFree_four_medium (shots : Grid) (cx cy : Int) :
    firstFree dx4 dy4 shots cx cy [0, 1, 2, 3] =
      if Untried shots (cx - 1) cy then some (0, cx - 1, cy)
      else if Untried shots (cx + 1) cy then some (1, cx + 1, cy)
      else if Untried shots cx (cy - 1) then some (2, cx, cy - 1)
      else if Untried shots cx (cy + 1) then some (3, cx, cy + 1)
      else none := by
  simp only [firstFree_cons, firstFree_nil, (neighbour4_up cx cy).1, (neighbour4_up cx cy).2,
    (neighbour4_down cx cy).1, (neighbour4_down cx cy).2, (neighbour4_left cx cy).1,
    (neighbour4_left cx cy).2, (neighbour4_right cx cy).1, (neighbour4_right cx cy).2]

theorem firstFree_medium_of_first (shots : Grid) (cx cy dir nx ny : Int)
    (h : FirstNeighbour shots cx cy dir nx ny) :
    firstFree dx4 dy4 shots cx cy [0, 1, 2, 3] = some (dir - 1, nx, ny) := by
  rw [firstFree_four_medium]
  obtain ⟨hcase, hfree⟩ := h
  rcases hcase with ⟨rfl, rfl, rfl⟩ | ⟨rfl, rfl, rfl, h1⟩ | ⟨rfl, rfl, rfl, h1, h2⟩ |
    ⟨rfl, rfl, rfl, h1, h2, h3⟩
  · rw [if_pos hfree]; rfl
  · rw [if_neg h1, if_pos hfree]; rfl
  · rw [if_neg h1, if_neg h2, if_pos hfree]; rfl
  · rw [if_neg h1, if_neg h2, if_neg h3, if_pos hfree]; rfl

theorem firstFree_medium_eq_none (shots : Grid) (cx cy : Int)
    (h : ¬ HasUntriedNeighbour shots cx cy) :
    firstFree dx4 dy4 shots cx cy [0, 1, 2, 3] = none := by
  rw [firstFree_four_medium]
  unfold HasUntriedNeighbour at h
  rw [if_neg (fun h1 => h (Or.inl h1)), if_neg (fun h2 => h (Or.inr (Or.inl h2))),
    if_neg (fun h3 => h (Or.inr (Or.inr (Or.inl h3)))),
    if_neg (fun h4 => h (Or.inr (Or.inr (Or.inr h4))))]

/-- The chase of `enemyMedium` when the loop finds a cell: the call returns, without
sampling, the state written by the hit or the miss branch. -/
theorem enemyMedium_chase_eq (fuel : Nat) (target : Player) (ai : AIState) (seed : Nat)
    (d x y : Int) (hl : ai.lastHitX ≠ -1)
    (hf : firstFree dx4 dy4 ai.shots ai.lastHitX ai.lastHitY [0, 1, 2, 3] = some (d, x, y)) :
    enemyMedium fuel target ai seed =
      if target.grid x y > 0 then
        if isShipSunk (setCell target.grid x y (-target.grid x y)) (target.grid x y) ≠ 0 then
          some ⟨{ target with
                   grid := markShipSunk (setCell target.grid x y (-target.grid x y))
                     (target.grid x y) },
                { ai with shots := setCell ai.shots x y 1, lastHitX := -1, lastHitY := -1 },
                seed⟩
        else
          some ⟨{ target with grid := setCell target.grid x y (-target.grid x y) },
                { ai with shots := setCell ai.shots x y 1, lastHitX := x, lastHitY := y },
                seed⟩
      else
        some ⟨{ target with grid := setCell target.grid x y (-99) },
              { ai with shots := setCell ai.shots x y 1 }, seed⟩ := by
  unfold enemyMedium
  rw [if_pos hl, hf]

/-- The chase of `enemyMedium` when the loop finds nothing, and `enemyMedium` without last
hit, both are the random shot from the state without last hit. -/
theorem enemyMedium_search_eq (fuel : Nat) (target : Player) (ai : AIState) (seed : Nat)
    (h : ai.lastHitX = -1 ∨ ¬ HasUntriedNeighbour ai.shots ai.lastHitX ai.lastHitY) :
    enemyMedium fuel target ai seed =
      mediumSearch fuel target
        (if ai.lastHitX ≠ -1 then { ai with lastHitX := -1, lastHitY := -1 } else ai) seed := by
  unfold enemyMedium
  by_cases hl : ai.lastHitX ≠ -1
  · rcases h with h | h
    · exact absurd h hl
    · rw [if_pos hl, if_pos hl, firstFree_medium_eq_none _ _ _ h]
  · rw [if_neg hl, if_neg hl]

/-- C16. In `enemyMedium` with a last hit (`lastHitX ≠ -1`), if `n = (nx, ny)` is the first
neighbour of `lastHit`, in the order up `(x-1, y)`, down `(x+1, y)`, left `(x, y-1)`, right
`(x, y+1)`, that is in the grid and untried, the call returns, whatever the grid holds and
for any iteration bound, having fired at `n` and at no other cell, with the seed unchanged. -/
theorem enemyMedium_chase_order (fuel : Nat) (target : Player) (ai : AIState) (seed : Nat)
    (dir nx ny : Int) (hl : ai.lastHitX ≠ -1)
    (hfirst : FirstNeighbour ai.shots ai.lastHitX ai.lastHitY dir nx ny) :
    ∃ r, enemyMedium fuel target ai seed = some r ∧ r.ai.shots = setCell ai.shots nx ny 1 ∧
      r.seed = seed := by
  rw [enemyMedium_chase_eq fuel target ai seed _ nx ny hl
    (firstFree_medium_of_first _ _ _ _ _ _ hfirst)]
  split_ifs <;> exact ⟨_, rfl, rfl, rfl⟩

/-- The scenario last hit `(5, 3)` with `(4, 3)` and `(5, 2)` tried, `(6, 3)` and `(5, 4)`
untried: the call fires at `(6, 3)`, below the last hit, and leaves the seed as it was. -/
theorem enemyMedium_chase_order_witness :
    chaseState.lastHitX = 5 ∧ chaseState.lastHitY = 3 ∧
    ¬ Untried chaseState.shots 4 3 ∧ ¬ Untried chaseState.shots 5 2 ∧
    Untried chaseState.shots 6 3 ∧ Untried chaseState.shots 5 4 ∧
    FirstNeighbour chaseState.shots chaseState.lastHitX chaseState.lastHitY 2 6 3 ∧
    enemyMedium 0 chaseTarget chaseState 98765 = some (chaseResult 98765) ∧
    (chaseResult 98765).ai.shots = setCell chaseState.shots 6 3 1 ∧
    (chaseResult 98765).seed = 98765 := by
  have hfirst : FirstNeighbour chaseState.shots chaseState.lastHitX chaseState.lastHitY 2 6 3 :=
    ⟨Or.inr (Or.inl ⟨rfl, rfl, rfl, by decide⟩), by decide⟩
  obtain ⟨r, hr, hshots, hseed⟩ := enemyMedium_chase_order 0 chaseTarget chaseState 98765 2 6 3
    (by decide) hfirst
  have hres : enemyMedium 0 chaseTarget chaseState 98765 = some (chaseResult 98765) := rfl
  obtain rfl : chaseResult 98765 = r := Option.some.inj (hres.symm.trans hr)
  exact ⟨rfl, rfl, by decide, by decide, by decide, by decide, hfirst, hres, hshots, hseed⟩

/-- C17. In `enemyMedium`, when the chase fires at the neighbour `n = (nx, ny)` of `lastHit`:
if `n` held an intact cell of ship `k` and another cell of ship `k` is still intact,
`lastHit` becomes `n`; if `n` held the last intact cell of ship `k`, then `n` and every cell
that held `-k` hold `-200 - k` and `lastHit` becomes `(-1, -1)`; if `n` held no intact ship
cell, `n` becomes `-99` and `lastHit` is left unchanged. -/
theorem enemyMedium_chase_outcome (fuel : Nat) (target : Player) (ai : AIState) (seed : Nat)
    (dir nx ny : Int) (hl : ai.lastHitX ≠ -1)
    (hfirst : FirstNeighbour ai.shots ai.lastHitX ai.lastHitY dir nx ny) :
    ∃ r, enemyMedium fuel target ai seed = some r ∧
      (∀ k, target.grid nx ny = k → 0 < k →
        (∃ i j, inGrid i j ∧ ¬ (i = nx ∧ j = ny) ∧ target.grid i j = k) →
        r.ai.lastHitX = nx ∧ r.ai.lastHitY = ny) ∧
      (∀ k, target.grid nx ny = k → 0 < k →
        (¬ ∃ i j, inGrid i j ∧ ¬ (i = nx ∧ j = ny) ∧ target.grid i j = k) →
        r.target.grid nx ny = -200 - k ∧
          (∀ i j, inGrid i j → target.grid i j = -k → r.target.grid i j = -200 - k) ∧
          r.ai.lastHitX = -1 ∧ r.ai.lastHitY = -1) ∧
      (¬ 0 < target.grid nx ny →
        r.target.grid nx ny = -99 ∧ r.ai.lastHitX = ai.lastHitX ∧
          r.ai.lastHitY = ai.lastHitY) := by
  have hin : inGrid nx ny := hfirst.2.1
  rw [enemyMedium_chase_eq fuel target ai seed _ nx ny hl
    (firstFree_medium_of_first _ _ _ _ _ _ hfirst)]
  by_cases hpos : target.grid nx ny > 0
  · rw [if_pos hpos]
    by_cases hsunk : isShipSunk (setCell target.grid nx ny (-target.grid nx ny))
        (target.grid nx ny) ≠ 0
    · rw [if_pos hsunk]
      refine ⟨_, rfl, ?_, ?_, fun hn => absurd hpos hn⟩
      · rintro k rfl hk ⟨i, j, hij, hne, hg⟩
        exact absurd hg ((isShipSunk_after_hit _ _ _ _ hk).mp hsunk i j hij hne)
      · rintro k rfl - -
        have hm := markShipSunk_after_hit target.grid nx ny (target.grid nx ny) hin
        dsimp only
        exact ⟨hm.1, hm.2, rfl, rfl⟩
    · rw [if_neg hsunk]
      refine ⟨_, rfl, fun _ _ _ _ => ⟨rfl, rfl⟩, ?_, fun hn => absurd hpos hn⟩
      rintro k rfl hk hnone
      exact absurd ((isShipSunk_after_hit _ _ _ _ hk).mpr
        (fun i j hij hne hg => hnone ⟨i, j, hij, hne, hg⟩)) hsunk
  · rw [if_neg hpos]
    refine ⟨_, rfl, ?_, ?_, fun _ => ⟨setCell_same _ _ _ _, rfl, rfl⟩⟩
    · rintro k rfl hk -
      exact absurd hk hpos
    · rintro k rfl hk -
      exact absurd hk hpos

/-- The chase around `(5, 3)` continued: once `(6, 3)` is tried too, the first untried
neighbour is `(5, 4)`, to the right; it holds ship 1, which keeps `(5, 5)` intact, and the
last hit becomes `(5, 4)`. -/
theorem enemyMedium_chase_outcome_witness :
    (chaseResult 98765).ai.lastHitX = 5 ∧ (chaseResult 98765).ai.lastHitY = 3 ∧
    FirstNeighbour (chaseResult 98765).ai.shots 5 3 4 5 4 ∧
    (chaseResult 98765).target.grid 5 4 = 1 ∧ (chaseResult 98765).target.grid 5 5 = 1 ∧
    enemyMedium 0 (chaseResult 98765).target (chaseResult 98765).ai 98765
      = some (chaseResult2 98765) ∧
    (chaseResult2 98765).ai.lastHitX = 5 ∧ (chaseResult2 98765).ai.lastHitY = 4 := by
  have hfirst : FirstNeighbour (chaseResult 98765).ai.shots (chaseResult 98765).ai.lastHitX
      (chaseResult 98765).ai.lastHitY 4 5 4 :=
    ⟨Or.inr (Or.inr (Or.inr ⟨rfl, rfl, rfl, by decide, by decide, by decide⟩)), by decide⟩
  obtain ⟨r, hr, hhit, -, -⟩ := enemyMedium_chase_outcome 0 (chaseResult 98765).target
    (chaseResult 98765).ai 98765 4 5 4 (by decide) hfirst
  have hres : enemyMedium 0 (chaseResult 98765).target (chaseResult 98765).ai 98765
      = some (chaseResult2 98765) := rfl
  obtain rfl : chaseResult2 98765 = r := Option.some.inj (hres.symm.trans hr)
  obtain ⟨h1, h2⟩ := hhit 1 (by decide) (by decide) ⟨5, 5, by decide⟩
  exact ⟨rfl, rfl, hfirst, by decide, by decide, hres, h1, h2⟩

/-- C18. In `enemyMedium` with a last hit (`lastHitX ≠ -1`), if no neighbour of `lastHit` is
both in the grid and untried, the whole result of the call (grid, shots, last hit, seed) is
the result of `enemyMedium` on the same grid and shot history without last hit, for every
iteration bound; a call that returns has fired at one untried cell. -/
theorem enemyMedium_chase_exhausted (fuel : Nat) (target : Player) (ai : AIState) (seed : Nat)
    (hl : ai.lastHitX ≠ -1)
    (hnone : ¬ HasUntriedNeighbour ai.shots ai.lastHitX ai.lastHitY) :
    enemyMedium fuel target ai seed =
      enemyMedium fuel target { ai with lastHitX := -1, lastHitY := -1 } seed ∧
    ∀ r, enemyMedium fuel target ai seed = some r → ∃ x y, FiresAt ai r x y := by
  refine ⟨?_, fun r hr => enemyMedium_fires _ _ _ _ _ hr⟩
  rw [enemyMedium_search_eq fuel target ai seed (Or.inr hnone), if_pos hl,
    enemyMedium_search_eq fuel target { ai with lastHitX := -1, lastHitY := -1 } seed
      (Or.inl rfl)]
  rfl

/-- On `staleChaseState` (last hit `(0, 0)`, both neighbours tried) the call gives what it
gives without last hit: a random shot, at `(2, 2)` with seed 126. -/
theorem enemyMedium_chase_exhausted_witness :
    staleChaseState.lastHitX ≠ -1 ∧
    ¬ HasUntriedNeighbour staleChaseState.shots staleChaseState.lastHitX
      staleChaseState.lastHitY ∧
    enemyMedium 1 loneHitTarget staleChaseState 126 = some staleChaseResult ∧
    enemyMedium 1 loneHitTarget { staleChaseState with lastHitX := -1, lastHitY := -1 } 126
      = some staleChaseResult ∧
    (∃ x y, FiresAt staleChaseState staleChaseResult x y) := by
  obtain ⟨heq, hfire⟩ := enemyMedium_chase_exhausted 1 loneHitTarget staleChaseState 126
    (by decide) (by decide)
  have hres : enemyMedium 1 loneHitTarget staleChaseState 126 = some staleChaseResult := rfl
  exact ⟨by decide, by decide, hres, heq ▸ hres, hfire _ hres⟩

/-- C19. Without last hit, `enemyMedium` returns exactly when `enemyEasy` does from the same
shot history and seed, fires at the same cell, and leaves the same shot history, the same
seed and, when the cell's value is not negative, the same grid. Afterwards `lastHit` is the
fired cell if the shot hit a ship that still has an intact cell, and `(-1, -1)` if the shot
sank the ship or missed. -/
theorem enemyMedium_search_matches_easy (fuel : Nat) (target : Player) (ai : AIState)
    (seed : Nat) (hlx : ai.lastHitX = -1) (hly : ai.lastHitY = -1) :
    (enemyMedium fuel target ai seed = none ↔ enemyEasy fuel target ai seed = none) ∧
    ∀ rE rM, enemyEasy fuel target ai seed = some rE →
      enemyMedium fuel target ai seed = some rM →
      ∃ x y, FiresAt ai rE x y ∧ FiresAt ai rM x y ∧ rM.ai.shots = rE.ai.shots ∧
        rM.seed = rE.seed ∧
        (0 ≤ target.grid x y → rM.target.grid = rE.target.grid) ∧
        (∀ k, target.grid x y = k → 0 < k →
          (∃ i j, inGrid i j ∧ ¬ (i = x ∧ j = y) ∧ target.grid i j = k) →
          rM.ai.lastHitX = x ∧ rM.ai.lastHitY = y) ∧
        (∀ k, target.grid x y = k → 0 < k →
          (¬ ∃ i j, inGrid i j ∧ ¬ (i = x ∧ j = y) ∧ target.grid i j = k) →
          rM.ai.lastHitX = -1 ∧ rM.ai.lastHitY = -1) ∧
        (¬ 0 < target.grid x y → rM.ai.lastHitX = -1 ∧ rM.ai.lastHitY = -1) := by
  rw [enemyMedium_search_eq fuel target ai seed (Or.inl hlx), if_neg (fun h => h hlx)]
  unfold mediumSearch enemyEasy
  cases hs : sampleWhile (fun x y => decide (ai.shots x y ≠ 0)) fuel seed with
  | none => exact ⟨Iff.rfl, fun rE rM hE => absurd hE (by simp)⟩
  | some c =>
    obtain ⟨x, y, s'⟩ := c
    obtain ⟨hin, hag⟩ := sampleWhile_spec _ _ _ _ _ _ hs
    have h0 : ai.shots x y = 0 := by simpa using hag
    simp only
    refine ⟨by split_ifs <;> simp, fun rE rM hE hM => ⟨x, y, ?_⟩⟩
    by_cases hpos : target.grid x y > 0
    · rw [if_pos hpos] at hE hM
      by_cases hsunk : isShipSunk (setCell target.grid x y (-target.grid x y))
          (target.grid x y) ≠ 0
      · rw [if_pos hsunk] at hE hM
        simp only [Option.some.injEq] at hE hM
        subst hE hM
        refine ⟨⟨hin, h0, rfl⟩, ⟨hin, h0, rfl⟩, rfl, rfl, fun _ => rfl, ?_,
          fun _ _ _ _ => ⟨rfl, rfl⟩, fun hn => absurd hpos hn⟩
        rintro k rfl hk ⟨i, j, hij, hne, hg⟩
        exact absurd hg ((isShipSunk_after_hit _ _ _ _ hk).mp hsunk i j hij hne)
      · rw [if_neg hsunk] at hE hM
        simp only [Option.some.injEq] at hE hM
        subst hE hM
        refine ⟨⟨hin, h0, rfl⟩, ⟨hin, h0, rfl⟩, rfl, rfl, fun _ => rfl,
          fun _ _ _ _ => ⟨rfl, rfl⟩, ?_, fun hn => absurd hpos hn⟩
        rintro k rfl hk hnone
        exact absurd ((isShipSunk_after_hit _ _ _ _ hk).mpr
          (fun i j hij hne hg => hnone ⟨i, j, hij, hne, hg⟩)) hsunk
    · rw [if_neg hpos] at hE hM
      simp only [Option.some.injEq] at hM
      subst hM
      have hmiss : ∀ k, target.grid x y = k → 0 < k → False := by
        rintro k rfl hk
        exact hpos hk
      by_cases hzero : target.grid x y = 0
      · rw [if_pos hzero] at hE
        simp only [Option.some.injEq] at hE
        subst hE
        exact ⟨⟨hin, h0, rfl⟩, ⟨hin, h0, rfl⟩, rfl, rfl, fun _ => rfl,
          fun k hk hkp _ => (hmiss k hk hkp).elim, fun k hk hkp _ => (hmiss k hk hkp).elim,
          fun _ => ⟨hlx, hly⟩⟩
      · rw [if_neg hzero] at hE
        simp only [Option.some.injEq] at hE
        subst hE
        exact ⟨⟨hin, h0, rfl⟩, ⟨hin, h0, rfl⟩, rfl, rfl, fun hge => by omega,
          fun k hk hkp _ => (hmiss k hk hkp).elim, fun k hk hkp _ => (hmiss k hk hkp).elim,
          fun _ => ⟨hlx, hly⟩⟩

/-- From `easyStart` both strategies fire at `(5, 3)` and leave the same grid, shot history and
seed; the shot hits ship 1, which keeps two intact cells, and `enemyMedium` records
`(5, 3)` as last hit. -/
theorem enemyMedium_search_matches_easy_witness :
    idleState.lastHitX = -1 ∧ idleState.lastHitY = -1 ∧
    enemyEasy 1 easyStart.target idleState easyStart.seed = some easyShot1 ∧
    enemyMedium 1 easyStart.target idleState easyStart.seed = some mediumShot1 ∧
    FiresAt idleState easyShot1 5 3 ∧ FiresAt idleState mediumShot1 5 3 ∧
    mediumShot1.ai.shots = easyShot1.ai.shots ∧ mediumShot1.seed = easyShot1.seed ∧
    mediumShot1.target.grid = easyShot1.target.grid ∧
    mediumShot1.ai.lastHitX = 5 ∧ mediumShot1.ai.lastHitY = 3 := by
  obtain ⟨x, y, hfE, hfM, hshots, hseed, hgrid, hhit, -, -⟩ :=
    (enemyMedium_search_matches_easy 1 easyStart.target idleState easyStart.seed rfl rfl).2
      easyShot1 mediumShot1 rfl rfl
  obtain ⟨rfl, rfl⟩ : (5 : Int) = x ∧ (3 : Int) = y := hfE.unique (by decide) (by decide)
  obtain ⟨h1, h2⟩ := hhit 1 (by decide) (by decide) ⟨5, 4, by decide⟩
  exact ⟨rfl, rfl, rfl, rfl, hfE, hfM, hshots, hseed, hgrid (by decide), h1, h2⟩

/-! ## Completion of `enemyHard` -/

/-- A sampling loop whose condition holds on every cell of the grid never exits. -/
theorem sampleWhile_eq_none (again : Int → Int → Bool)
    (h : ∀ x y, inGrid x y → again x y = true) (fuel seed : Nat) :
    sampleWhile again fuel seed = none := by
  induction fuel generalizing seed with
  | zero => rfl
  | succ n ih =>
    simp only [sampleWhile]
    rw [if_pos (h _ _ ⟨Int.emod_nonneg _ (by decide), Int.emod_lt_of_pos _ (by decide),
      Int.emod_nonneg _ (by decide), Int.emod_lt_of_pos _ (by decide)⟩)]
    exact ih _

/-- From the seed `seedFor x y` a sampling loop draws `(x, y)` first, and exits there when the
cell fails its condition. -/
theorem sampleWhile_seedFor (again : Int → Int → Bool) (x y : Int) (hin : inGrid x y)
    (hag : again x y = false) :
    ∃ seed', sampleWhile again 1 (seedFor x y) = some (x, y, seed') := by
  obtain ⟨hx, hy⟩ := seedFor_samples x ((mem_indices x).mpr ⟨hin.1, hin.2.1⟩) y
    ((mem_indices y).mpr ⟨hin.2.2.1, hin.2.2.2⟩)
  simp only [sampleWhile]
  rw [hx, hy, hag]
  exact ⟨_, rfl⟩

theorem hardStep3_returns (fuel : Nat) (target : Player) (ai : AIState) (seed : Nat)
    (c : Int × Int × Nat)
    (hs : sampleWhile (fun x y => decide (ai.shots x y ≠ 0) || decide ((x + y) % 2 ≠ 0))
      fuel seed = some c) :
    ∃ r, hardStep3 fuel target ai seed = some r := by
  unfold hardStep3
  rw [hs]
  simp only
  split_ifs <;> exact ⟨_, rfl⟩

theorem hardStep2_returns (fuel : Nat) (target : Player) (ai : AIState) (seed : Nat)
    (h : ∃ r, hardStep3 fuel target ai seed = some r) :
    ∃ r, hardStep2 fuel target ai seed = some r := by
  unfold hardStep2
  by_cases ha : ai.anchorX ≠ -1
  · rw [if_pos ha]
    cases firstFree dx dy ai.shots ai.anchorX ai.anchorY [1, 2, 3, 4] with
    | some c =>
      simp only
      split_ifs <;> exact ⟨_, rfl⟩
    | none =>
      simp only
      cases scanGrid target.grid ai.shots indices with
      | some c =>
        simp only
        split_ifs <;> exact ⟨_, rfl⟩
      | none => exact h
  · rw [if_neg ha]
    exact h

theorem enemyHard_returns (fuel : Nat) (target : Player) (ai : AIState) (seed : Nat)
    (h : ∀ ai' : AIState, ai'.shots = ai.shots → ∃ r, hardStep3 fuel target ai' seed = some r) :
    ∃ r, enemyHard fuel target ai seed = some r := by
  unfold enemyHard
  by_cases hd : ai.direction ≠ 0
  · rw [if_pos hd]
    simp only
    split_ifs
    · exact ⟨_, rfl⟩
    · exact ⟨_, rfl⟩
    · exact ⟨_, rfl⟩
    · exact hardStep2_returns _ _ _ _ (h _ rfl)
  · rw [if_neg hd]
    exact hardStep2_returns _ _ _ _ (h _ rfl)

/-- Step 2 of `enemyHard` returns without sampling as soon as there is an anchor and the
probe or the scan finds a cell. -/
theorem hardStep2_returns_unsampled (fuel : Nat) (target : Player) (ai : AIState) (seed : Nat)
    (ha : ai.anchorX ≠ -1)
    (h : HasUntriedNeighbour ai.shots ai.anchorX ai.anchorY ∨
      ¬ NoScanTarget target.grid ai.shots) :
    ∃ r, hardStep2 fuel target ai seed = some r := by
  unfold hardStep2
  rw [if_pos ha]
  cases hf : firstFree dx dy ai.shots ai.anchorX ai.anchorY [1, 2, 3, 4] with
  | some c =>
    simp only
    split_ifs <;> exact ⟨_, rfl⟩
  | none =>
    simp only
    cases hg : scanGrid target.grid ai.shots indices with
    | some c =>
      simp only
      split_ifs <;> exact ⟨_, rfl⟩
    | none =>
      rcases h with h | h
      · exact absurd h ((firstFree_eq_none_iff _ _ _).mp hf)
      · exact absurd ((scanGrid_none_iff_noScanTarget _ _).mp hg) h

/-- A call of `enemyHard` that does not reach step 3 returns whatever the seed and the
iteration bound: the pursuit, the probe or the scan fires and no sample is drawn. -/
theorem enemyHard_returns_unsampled (fuel : Nat) (target : Player) (ai : AIState) (seed : Nat)
    (hdir : 0 ≤ ai.direction ∧ ai.direction ≤ 4) (h : ¬ ReachesStep3 target ai) :
    ∃ r, enemyHard fuel target ai seed = some r := by
  by_cases hs : Step1Silent ai
  · rw [enemyHard_silent_eq fuel target ai seed hs]
    have hrest : ¬ (ai.anchorX = -1 ∨
        (¬ HasUntriedNeighbour ai.shots ai.anchorX ai.anchorY ∧
          NoScanTarget target.grid ai.shots)) := fun hh => h ⟨hs, hh⟩
    have ha : ai.anchorX ≠ -1 := fun hh => hrest (Or.inl hh)
    apply hardStep2_returns_unsampled
    · rw [dropDirection_anchorX]; exact ha
    · rw [dropDirection_shots, dropDirection_anchorX, dropDirection_anchorY]
      by_cases hp : HasUntriedNeighbour ai.shots ai.anchorX ai.anchorY
      · exact Or.inl hp
      · exact Or.inr (fun hn => hrest (Or.inr ⟨hp, hn⟩))
  · have hd : ai.direction ≠ 0 := fun hh => hs (Or.inl hh)
    have hc : Untried ai.shots (ai.currentX + dx ai.direction)
        (ai.currentY + dy ai.direction) := by
      by_contra hc
      exact hs (Or.inr ⟨⟨by omega, hdir.2⟩, hc⟩)
    rw [enemyHard_step1_eq fuel target ai seed hd hc]
    simp only
    split_ifs <;> exact ⟨_, rfl⟩

/-- C20, as amended. For every state with `direction` in `0 .. 4`: there is a seed, hence a
finite sequence of samples, and an iteration bound under which the `enemyHard` call returns
having fired one shot, if and only if the call does not reach the checkerboard fallback
(the pursuit, the anchor probe or the grid scan fires) or at least one cell with `x + y` even
is untried. Equivalently, the call returns under no seed and no bound exactly when it reaches
the fallback with no untried even cell. When the fallback is not reached the call returns
under every seed and bound; and a call can only return when some cell is untried. -/
theorem enemyHard_completes (target : Player) (ai : AIState)
    (hdir : 0 ≤ ai.direction ∧ ai.direction ≤ 4) :
    ((∃ seed fuel r, enemyHard fuel target ai seed = some r ∧
        countShots r.ai.shots = countShots ai.shots + 1) ↔
      (¬ ReachesStep3 target ai ∨ ∃ x y, Untried ai.shots x y ∧ (x + y) % 2 = 0)) ∧
    ((∀ fuel seed, enemyHard fuel target ai seed = none) ↔
      (ReachesStep3 target ai ∧ ¬ ∃ x y, Untried ai.shots x y ∧ (x + y) % 2 = 0)) ∧
    (¬ ReachesStep3 target ai → ∀ fuel seed, ∃ r, enemyHard fuel target ai seed = some r) ∧
    ((∃ seed fuel r, enemyHard fuel target ai seed = some r) → ∃ x y, Untried ai.shots x y) := by
  have hcount : ∀ fuel seed r, enemyHard fuel target ai seed = some r →
      countShots r.ai.shots = countShots ai.shots + 1 := by
    intro fuel seed r hr
    obtain ⟨a, b, hin, h0, hsh⟩ := enemyHard_fires _ _ _ _ _ hr
    rw [hsh, countShots_setCell _ _ _ hin h0]
  have heven : (∃ x y, Untried ai.shots x y ∧ (x + y) % 2 = 0) →
      ∃ seed fuel r, enemyHard fuel target ai seed = some r := by
    rintro ⟨x, y, hu, hpar⟩
    have hret : ∃ r, enemyHard 1 target ai (seedFor x y) = some r := by
      apply enemyHard_returns
      intro ai' hsh
      have hag : (fun a b => decide (ai'.shots a b ≠ 0) || decide ((a + b) % 2 ≠ 0)) x y
          = false := by
        simp only [hsh, hu.2, hpar, ne_eq, not_true_eq_false, decide_False, Bool.or_self]
      obtain ⟨s', hs⟩ := sampleWhile_seedFor
        (fun a b => decide (ai'.shots a b ≠ 0) || decide ((a + b) % 2 ≠ 0)) x y hu.1 hag
      exact hardStep3_returns 1 target ai' (seedFor x y) _ hs
    obtain ⟨r, hr⟩ := hret
    exact ⟨seedFor x y, 1, r, hr⟩
  have hstuck : ReachesStep3 target ai →
      (¬ ∃ x y, Untried ai.shots x y ∧ (x + y) % 2 = 0) →
      ∀ fuel seed, enemyHard fuel target ai seed = none := by
    intro hreach hnone fuel seed
    rw [enemyHard_step3_eq fuel target ai seed hreach]
    unfold hardStep3
    rw [sampleWhile_eq_none]
    intro x y hin
    rw [dropDirection_shots]
    by_cases h0 : ai.shots x y = 0
    · have hodd : (x + y) % 2 ≠ 0 := fun hpar => hnone ⟨x, y, ⟨hin, h0⟩, hpar⟩
      simp [hodd]
    · simp [h0]
  have hcan : (¬ ReachesStep3 target ai ∨ ∃ x y, Untried ai.shots x y ∧ (x + y) % 2 = 0) →
      ∃ seed fuel r, enemyHard fuel target ai seed = some r := by
    rintro (h | h)
    · obtain ⟨r, hr⟩ := enemyHard_returns_unsampled 1 target ai 0 hdir h
      exact ⟨0, 1, r, hr⟩
    · exact heven h
  refine ⟨⟨?_, ?_⟩, ⟨?_, ?_⟩, ?_, ?_⟩
  · rintro ⟨seed, fuel, r, hr, -⟩
    by_contra hno
    rw [not_or, not_not] at hno
    rw [hstuck hno.1 hno.2 fuel seed] at hr
    exact absurd hr (by simp)
  · intro h
    obtain ⟨seed, fuel, r, hr⟩ := hcan h
    exact ⟨seed, fuel, r, hr, hcount fuel seed r hr⟩
  · intro hnever
    by_contra hno
    have hcase : ¬ ReachesStep3 target ai ∨
        ∃ x y, Untried ai.shots x y ∧ (x + y) % 2 = 0 := by
      by_cases hr : ReachesStep3 target ai
      · exact Or.inr (by_contra (fun he => hno ⟨hr, he⟩))
      · exact Or.inl hr
    obtain ⟨seed, fuel, r, hr⟩ := hcan hcase
    rw [hnever fuel seed] at hr
    exact absurd hr (by simp)
  · rintro ⟨hreach, hnone⟩
    exact hstuck hreach hnone
  · intro h fuel seed
    exact enemyHard_returns_unsampled fuel target ai seed hdir h
  · rintro ⟨seed, fuel, r, hr⟩
    obtain ⟨x, y, hin, h0, -⟩ := enemyHard_fires _ _ _ _ _ hr
    exact ⟨x, y, hin, h0⟩

/-- From `lastCellState` the even cell `(5, 3)` is untried, so the call can return having
fired one shot. From `oddProbeState`, where every even cell is tried but the odd cell `(1, 0)`
above the anchor `(2, 0)` is not, the probe fires and the call returns under every seed.
From `evenTriedState`, which reaches the fallback with every even cell tried, the call
returns for no seed, although the odd cell `(0, 1)` is untried. -/
theorem enemyHard_completes_witness :
    (0 ≤ lastCellState.direction ∧ lastCellState.direction ≤ 4) ∧
    (Untried lastCellState.shots 5 3 ∧ (5 + 3 : Int) % 2 = 0) ∧
    (∃ seed fuel r, enemyHard fuel lastCellTarget lastCellState seed = some r ∧
      countShots r.ai.shots = countShots lastCellState.shots + 1) ∧
    (¬ ∃ x y, Untried oddProbeState.shots x y ∧ (x + y) % 2 = 0) ∧
    ¬ ReachesStep3 oddProbeTarget oddProbeState ∧
    (∀ fuel seed, ∃ r, enemyHard fuel oddProbeTarget oddProbeState seed = some r) ∧
    ReachesStep3 evenTriedTarget evenTriedState ∧
    (∀ fuel seed, enemyHard fuel evenTriedTarget evenTriedState seed = none) := by
  have hreach : ReachesStep3 evenTriedTarget evenTriedState := ⟨Or.inl rfl, Or.inl rfl⟩
  have hnone : ¬ ∃ x y, Untried evenTriedState.shots x y ∧ (x + y) % 2 = 0 := by
    rintro ⟨x, y, ⟨-, h0⟩, hpar⟩
    simp only [evenTriedState] at h0
    rw [if_pos hpar] at h0
    exact absurd h0 (by decide)
  have hnone' : ¬ ∃ x y, Untried oddProbeState.shots x y ∧ (x + y) % 2 = 0 := by
    rintro ⟨x, y, ⟨-, h0⟩, hpar⟩
    simp only [oddProbeState, evenTriedState] at h0
    rw [if_pos hpar] at h0
    exact absurd h0 (by decide)
  have hprobe : ¬ ReachesStep3 oddProbeTarget oddProbeState := by
    rintro ⟨-, h | ⟨h, -⟩⟩
    · exact absurd h (by decide)
    · exact h (Or.inl (by decide))
  exact ⟨by decide, by decide,
    (enemyHard_completes lastCellTarget lastCellState (by decide)).1.mpr
      (Or.inr ⟨5, 3, by decide, by decide⟩),
    hnone', hprobe,
    (enemyHard_completes oddProbeTarget oddProbeState (by decide)).2.2.1 hprobe,
    hreach,
    (enemyHard_completes evenTriedTarget evenTriedState (by decide)).2.1.mpr ⟨hreach, hnone⟩⟩

/-- C20 fails when only odd cells are left: in `evenTriedState` the cell `(0, 1)` is untried and
the direction is 0, yet `enemyHard` returns for no seed and no iteration bound, because the
checkerboard loop rejects every cell with `x + y` odd. -/
theorem enemyHard_completes_counterexample :
    (0 ≤ evenTriedState.direction ∧ evenTriedState.direction ≤ 4) ∧
    Untried evenTriedState.shots 0 1 ∧
    ¬ ∃ fuel seed r, enemyHard fuel evenTriedTarget evenTriedState seed = some r := by
  refine ⟨by decide, by decide, ?_⟩
  rintro ⟨fuel, seed, r, hr⟩
  rw [enemyHard_step3_eq fuel evenTriedTarget evenTriedState seed ⟨Or.inl rfl, Or.inl rfl⟩] at hr
  unfold hardStep3 at hr
  rw [sampleWhile_eq_none] at hr
  · exact absurd hr (by simp)
  · intro x y _
    rw [dropDirection_shots]
    by_cases hpar : (x + y) % 2 = 0
    · simp [evenTriedState, hpar]
    · simp [hpar]

/-! ## Completion of `enemyEasy` and `enemyMedium` -/

theorem enemyEasy_returns (fuel : Nat) (target : Player) (ai : AIState) (seed : Nat)
    (c : Int × Int × Nat)
    (hs : sampleWhile (fun x y => decide (ai.shots x y ≠ 0)) fuel seed = some c) :
    ∃ r, enemyEasy fuel target ai seed = some r := by
  unfold enemyEasy
  rw [hs]
  simp only
  split_ifs <;> exact ⟨_, rfl⟩

theorem mediumSearch_returns (fuel : Nat) (target : Player) (ai : AIState) (seed : Nat)
    (c : Int × Int × Nat)
    (hs : sampleWhile (fun x y => decide (ai.shots x y ≠ 0)) fuel seed = some c) :
    ∃ r, mediumSearch fuel target ai seed = some r := by
  unfold mediumSearch
  rw [hs]
  simp only
  split_ifs <;> exact ⟨_, rfl⟩

theorem enemyMedium_returns (fuel : Nat) (target : Player) (ai : AIState) (seed : Nat)
    (h : ∀ ai' : AIState, ai'.shots = ai.shots →
      ∃ r, mediumSearch fuel target ai' seed = some r) :
    ∃ r, enemyMedium fuel target ai seed = some r := by
  unfold enemyMedium
  by_cases hl : ai.lastHitX ≠ -1
  · rw [if_pos hl]
    cases firstFree dx4 dy4 ai.shots ai.lastHitX ai.lastHitY [0, 1, 2, 3] with
    | some c =>
      simp only
      split_ifs <;> exact ⟨_, rfl⟩
    | none => exact h _ rfl
  · rw [if_neg hl]
    exact h _ rfl

/-- C21. For `enemyEasy` and for `enemyMedium`: the call returns for some seed (hence some
finite sequence of samples) and some iteration bound if and only if at least one cell of the
grid is untried; when every cell is already tried, the sampling loop exits for no seed and
no bound. -/
theorem easy_medium_return_iff (target : Player) (ai : AIState) :
    ((∃ seed fuel r, enemyEasy fuel target ai seed = some r) ↔ ∃ x y, Untried ai.shots x y) ∧
    ((∃ seed fuel r, enemyMedium fuel target ai seed = some r) ↔
      ∃ x y, Untried ai.shots x y) ∧
    ((¬ ∃ x y, Untried ai.shots x y) →
      ∀ fuel seed, sampleWhile (fun x y => decide (ai.shots x y ≠ 0)) fuel seed = none) := by
  have hsample : ∀ (ai' : AIState) (x y : Int), ai'.shots = ai.shots → Untried ai.shots x y →
      ∃ s', sampleWhile (fun a b => decide (ai'.shots a b ≠ 0)) 1 (seedFor x y)
        = some (x, y, s') := by
    intro ai' x y hsh hu
    apply sampleWhile_seedFor (fun a b => decide (ai'.shots a b ≠ 0)) x y hu.1
    simp only [hsh, hu.2, ne_eq, not_true_eq_false, decide_False]
  refine ⟨⟨?_, ?_⟩, ⟨?_, ?_⟩, ?_⟩
  · rintro ⟨seed, fuel, r, hr⟩
    obtain ⟨x, y, hin, h0, -⟩ := enemyEasy_fires _ _ _ _ _ hr
    exact ⟨x, y, hin, h0⟩
  · rintro ⟨x, y, hu⟩
    obtain ⟨s', hs⟩ := hsample ai x y rfl hu
    obtain ⟨r, hr⟩ := enemyEasy_returns 1 target ai (seedFor x y) _ hs
    exact ⟨seedFor x y, 1, r, hr⟩
  · rintro ⟨seed, fuel, r, hr⟩
    obtain ⟨x, y, hin, h0, -⟩ := enemyMedium_fires _ _ _ _ _ hr
    exact ⟨x, y, hin, h0⟩
  · rintro ⟨x, y, hu⟩
    have hret : ∃ r, enemyMedium 1 target ai (seedFor x y) = some r := by
      apply enemyMedium_returns
      intro ai' hsh
      obtain ⟨s', hs⟩ := hsample ai' x y hsh hu
      exact mediumSearch_returns 1 target ai' (seedFor x y) _ hs
    obtain ⟨r, hr⟩ := hret
    exact ⟨seedFor x y, 1, r, hr⟩
  · intro hnone fuel seed
    apply sampleWhile_eq_none
    intro x y hin
    have h0 : ai.shots x y ≠ 0 := fun h => hnone ⟨x, y, hin, h⟩
    simp [h0]

/-- From `idleState` the cell `(5, 3)` is untried and both strategies return under some seed;
from `allTriedState`, where no cell is untried, neither returns and the loop never exits. -/
theorem easy_medium_return_iff_witness :
    Untried idleState.shots 5 3 ∧
    (∃ seed fuel r, enemyEasy fuel easyStart.target idleState seed = some r) ∧
    (∃ seed fuel r, enemyMedium fuel easyStart.target idleState seed = some r) ∧
    (¬ ∃ x y, Untried allTriedState.shots x y) ∧
    (¬ ∃ seed fuel r, enemyEasy fuel easyStart.target allTriedState seed = some r) ∧
    (¬ ∃ seed fuel r, enemyMedium fuel easyStart.target allTriedState seed = some r) ∧
    (∀ fuel seed,
      sampleWhile (fun x y => decide (allTriedState.shots x y ≠ 0)) fuel seed = none) := by
  have hnone : ¬ ∃ x y, Untried allTriedState.shots x y := by
    rintro ⟨x, y, -, h0⟩
    exact absurd h0 (by simp [allTriedState])
  have h1 := easy_medium_return_iff easyStart.target idleState
  have h2 := easy_medium_return_iff easyStart.target allTriedState
  exact ⟨by decide, h1.1.mpr ⟨5, 3, by decide⟩, h1.2.1.mpr ⟨5, 3, by decide⟩, hnone,
    fun h => hnone (h2.1.mp h), fun h => hnone (h2.2.1.mp h), h2.2.2 hnone⟩

/-! ## The random source -/

/-- C23. For every 32-bit seed `s`, `myRand` sets the seed to
`s' = (s * 1103515245 + 12345) mod 2^32` and returns `(s' >> 16) & 0x7FFF`, that is
`(s' / 65536) mod 32768`: a value between 0 and 32767 that depends on `s` only; hence
`myRand() % 14` lies in `[0, 14)`, and so does every coordinate a sampling loop returns. -/
theorem myRand_lcg (s : Nat) (_hs : s < 2 ^ 32) :
    (myRand s).2 = (s * 1103515245 + 12345) % 2 ^ 32 ∧ (myRand s).2 < 2 ^ 32 ∧
    (myRand s).1 = ((((myRand s).2 >>> 16) &&& 0x7FFF : Nat) : Int) ∧
    (myRand s).1 = (((myRand s).2 / 65536 % 32768 : Nat) : Int) ∧
    0 ≤ (myRand s).1 ∧ (myRand s).1 ≤ 32767 ∧
    (∀ s', s' = s → myRand s' = myRand s) ∧
    0 ≤ (myRand s).1 % GRID ∧ (myRand s).1 % GRID < GRID ∧
    (∀ again fuel x y s', sampleWhile again fuel s = some (x, y, s') → inGrid x y) := by
  have hval : (((s * 1103515245 + 12345) % 2 ^ 32) >>> 16) &&& 0x7FFF
      = ((s * 1103515245 + 12345) % 2 ^ 32) / 65536 % 32768 := by
    rw [Nat.shiftRight_eq_div_pow]
    exact Nat.and_pow_two_sub_one_eq_mod _ 15
  have hlt : ((s * 1103515245 + 12345) % 2 ^ 32) / 65536 % 32768 < 32768 :=
    Nat.mod_lt _ (by decide)
  refine ⟨rfl, Nat.mod_lt _ (by decide), rfl, ?_, ?_, ?_, fun s' h => by rw [h], ?_, ?_,
    fun again fuel x y s' h => (sampleWhile_spec again fuel s x y s' h).1⟩
  · show (((((s * 1103515245 + 12345) % 2 ^ 32) >>> 16) &&& 0x7FFF : Nat) : Int) = _
    rw [hval]
    rfl
  · exact Int.natCast_nonneg _
  · show (((((s * 1103515245 + 12345) % 2 ^ 32) >>> 16) &&& 0x7FFF : Nat) : Int) ≤ 32767
    rw [hval]
    omega
  · exact Int.emod_nonneg _ (by decide)
  · exact Int.emod_lt_of_pos _ (by decide)

/-- The seed the program is compiled with, 98765: the next seed is 3888048770 and the value
returned is 26558, whose remainder modulo 14 is 0. -/
theorem myRand_lcg_witness :
    98765 < 2 ^ 32 ∧ (myRand 98765).2 = 3888048770 ∧ (myRand 98765).1 = 26558 ∧
    (myRand 98765).2 = (98765 * 1103515245 + 12345) % 2 ^ 32 ∧
    (myRand 98765).1 ≤ 32767 ∧ (myRand 98765).1 % GRID = 0 ∧
    (0 ≤ (myRand 98765).1 % GRID ∧ (myRand 98765).1 % GRID < GRID) := by
  have h := myRand_lcg 98765 (by decide)
  exact ⟨by decide, by decide, by decide, h.1, h.2.2.2.2.2.1, by decide,
    h.2.2.2.2.2.2.2.1, h.2.2.2.2.2.2.2.2.1⟩

/-! ## Search-state fields a strategy leaves alone -/

theorem enemyEasy_fields (fuel : Nat) (target : Player) (ai : AIState) (seed : Nat) (r : Game)
    (h : enemyEasy fuel target ai seed = some r) :
    r.ai.lastHitX = ai.lastHitX ∧ r.ai.lastHitY = ai.lastHitY ∧ r.ai.anchorX = ai.anchorX ∧
    r.ai.anchorY = ai.anchorY ∧ r.ai.currentX = ai.currentX ∧ r.ai.currentY = ai.currentY ∧
    r.ai.direction = ai.direction := by
  unfold enemyEasy at h
  cases hs : sampleWhile (fun x y => decide (ai.shots x y ≠ 0)) fuel seed with
  | none => rw [hs] at h; simp at h
  | some c =>
    obtain ⟨x, y, s'⟩ := c
    rw [hs] at h
    simp only at h
    split_ifs at h <;>
      (simp only [Option.some.injEq] at h; subst h; exact ⟨rfl, rfl, rfl, rfl, rfl, rfl, rfl⟩)

/-- The grid, the shot history and the seed `enemyEasy` returns are the same from any two
search states with the same shot history. -/
theorem enemyEasy_reads_shots_only (fuel : Nat) (target : Player) (ai ai' : AIState)
    (seed : Nat) (hsh : ai'.shots = ai.shots) :
    (enemyEasy fuel target ai' seed).map (fun g => (g.target, g.ai.shots, g.seed))
      = (enemyEasy fuel target ai seed).map (fun g => (g.target, g.ai.shots, g.seed)) := by
  unfold enemyEasy
  rw [hsh]
  cases sampleWhile (fun x y => decide (ai.shots x y ≠ 0)) fuel seed with
  | none => rfl
  | some c =>
    obtain ⟨x, y, s'⟩ := c
    simp only
    split_ifs <;> simp only [Option.map_some', hsh]

theorem mediumSearch_fields (fuel : Nat) (target : Player) (ai : AIState) (seed : Nat)
    (r : Game) (h : mediumSearch fuel target ai seed = some r) :
    r.ai.anchorX = ai.anchorX ∧ r.ai.anchorY = ai.anchorY ∧ r.ai.currentX = ai.currentX ∧
    r.ai.currentY = ai.currentY ∧ r.ai.direction = ai.direction := by
  unfold mediumSearch at h
  cases hs : sampleWhile (fun x y => decide (ai.shots x y ≠ 0)) fuel seed with
  | none => rw [hs] at h; simp at h
  | some c =>
    obtain ⟨x, y, s'⟩ := c
    rw [hs] at h
    simp only at h
    split_ifs at h <;>
      (simp only [Option.some.injEq] at h; subst h; exact ⟨rfl, rfl, rfl, rfl, rfl⟩)

theorem enemyMedium_fields (fuel : Nat) (target : Player) (ai : AIState) (seed : Nat)
    (r : Game) (h : enemyMedium fuel target ai seed = some r) :
    r.ai.anchorX = ai.anchorX ∧ r.ai.anchorY = ai.anchorY ∧ r.ai.currentX = ai.currentX ∧
    r.ai.currentY = ai.currentY ∧ r.ai.direction = ai.direction := by
  unfold enemyMedium at h
  split_ifs at h with hl
  · cases hf : firstFree dx4 dy4 ai.shots ai.lastHitX ai.lastHitY [0, 1, 2, 3] with
    | none =>
      rw [hf] at h
      simp only at h
      have hm := mediumSearch_fields _ _ _ _ _ h
      exact hm
    | some c =>
      obtain ⟨d, x, y⟩ := c
      rw [hf] at h
      simp only at h
      split_ifs at h <;>
        (simp only [Option.some.injEq] at h; subst h; exact ⟨rfl, rfl, rfl, rfl, rfl⟩)
  · exact mediumSearch_fields fuel target ai seed r h

theorem hardStep3_lastHit (fuel : Nat) (target : Player) (ai : AIState) (seed : Nat)
    (r : Game) (h : hardStep3 fuel target ai seed = some r) :
    r.ai.lastHitX = ai.lastHitX ∧ r.ai.lastHitY = ai.lastHitY := by
  unfold hardStep3 at h
  cases hs : sampleWhile
      (fun x y => decide (ai.shots x y ≠ 0) || decide ((x + y) % 2 ≠ 0)) fuel seed with
  | none => rw [hs] at h; simp at h
  | some c =>
    obtain ⟨x, y, s'⟩ := c
    rw [hs] at h
    simp only at h
    split_ifs at h <;> (simp only [Option.some.injEq] at h; subst h; exact ⟨rfl, rfl⟩)

theorem hardStep2_lastHit (fuel : Nat) (target : Player) (ai : AIState) (seed : Nat)
    (r : Game) (h : hardStep2 fuel target ai seed = some r) :
    r.ai.lastHitX = ai.lastHitX ∧ r.ai.lastHitY = ai.lastHitY := by
  unfold hardStep2 at h
  split_ifs at h with ha
  · cases hf : firstFree dx dy ai.shots ai.anchorX ai.anchorY [1, 2, 3, 4] with
    | none =>
      rw [hf] at h
      simp only at h
      cases hg : scanGrid target.grid ai.shots indices with
      | none =>
        rw [hg] at h
        exact hardStep3_lastHit fuel target ai seed r h
      | some c =>
        obtain ⟨i, j, d, x, y⟩ := c
        rw [hg] at h
        simp only at h
        split_ifs at h <;> (simp only [Option.some.injEq] at h; subst h; exact ⟨rfl, rfl⟩)
    | some c =>
      obtain ⟨d, x, y⟩ := c
      rw [hf] at h
      simp only at h
      split_ifs at h <;> (simp only [Option.some.injEq] at h; subst h; exact ⟨rfl, rfl⟩)
  · exact hardStep3_lastHit fuel target ai seed r h

theorem enemyHard_lastHit (fuel : Nat) (target : Player) (ai : AIState) (seed : Nat)
    (r : Game) (h : enemyHard fuel target ai seed = some r) :
    r.ai.lastHitX = ai.lastHitX ∧ r.ai.lastHitY = ai.lastHitY := by
  unfold enemyHard at h
  by_cases hd : ai.direction ≠ 0
  · rw [if_pos hd] at h
    simp only at h
    by_cases hc : 0 ≤ ai.currentX + dx ai.direction ∧ ai.currentX + dx ai.direction < GRID ∧
        0 ≤ ai.currentY + dy ai.direction ∧ ai.currentY + dy ai.direction < GRID ∧
        ai.shots (ai.currentX + dx ai.direction) (ai.currentY + dy ai.direction) = 0
    · rw [if_pos hc] at h
      split_ifs at h <;> (simp only [Option.some.injEq] at h; subst h; exact ⟨rfl, rfl⟩)
    · rw [if_neg hc] at h
      have hm := hardStep2_lastHit _ _ _ _ _ h
      exact hm
  · rw [if_neg hd] at h
    exact hardStep2_lastHit fuel target ai seed r h

/-- C22. A returning `enemyEasy` call leaves `lastHit`, `anchor`, `current` and `direction`
unchanged, and what it returns apart from these fields (the grid, the shot history with the
cell fired at, the seed) is the same from any search state with the same shot history; a
returning `enemyMedium` call leaves `anchor`, `current` and `direction` unchanged; a returning
`enemyHard` call leaves `lastHit` unchanged. -/
theorem strategies_untouched_fields (fuel : Nat) (target : Player) (ai : AIState) (seed : Nat)
    (r : Game) :
    (enemyEasy fuel target ai seed = some r →
      r.ai.lastHitX = ai.lastHitX ∧ r.ai.lastHitY = ai.lastHitY ∧
      r.ai.anchorX = ai.anchorX ∧ r.ai.anchorY = ai.anchorY ∧
      r.ai.currentX = ai.currentX ∧ r.ai.currentY = ai.currentY ∧
      r.ai.direction = ai.direction) ∧
    (∀ ai' : AIState, ai'.shots = ai.shots →
      (enemyEasy fuel target ai' seed).map (fun g => (g.target, g.ai.shots, g.seed))
        = (enemyEasy fuel target ai seed).map (fun g => (g.target, g.ai.shots, g.seed))) ∧
    (enemyMedium fuel target ai seed = some r →
      r.ai.anchorX = ai.anchorX ∧ r.ai.anchorY = ai.anchorY ∧
      r.ai.currentX = ai.currentX ∧ r.ai.currentY = ai.currentY ∧
      r.ai.direction = ai.direction) ∧
    (enemyHard fuel target ai seed = some r →
      r.ai.lastHitX = ai.lastHitX ∧ r.ai.lastHitY = ai.lastHitY) :=
  ⟨enemyEasy_fields fuel target ai seed r,
   fun ai' hsh => enemyEasy_reads_shots_only fuel target ai ai' seed hsh,
   enemyMedium_fields fuel target ai seed r, enemyHard_lastHit fuel target ai seed r⟩

/-- The strategy `enemyEasy` on `easyStart` returns `easyShot1` with the six coordinate fields
and the direction as before, and returns the same grid and shot history from `pursuitState`
with the shot history of `idleState`; `enemyMedium` from `chaseState` and `enemyHard` from
`pursuitState` return with the fields of the other strategy unchanged. -/
theorem strategies_untouched_fields_witness :
    (enemyEasy 1 easyStart.target idleState easyStart.seed = some easyShot1 ∧
      easyShot1.ai.lastHitX = idleState.lastHitX ∧ easyShot1.ai.anchorX = idleState.anchorX ∧
      easyShot1.ai.direction = idleState.direction) ∧
    (enemyEasy 1 easyStart.target { pursuitState with shots := idleState.shots }
        easyStart.seed).map (fun g => (g.target, g.ai.shots, g.seed))
      = some (easyShot1.target, easyShot1.ai.shots, easyShot1.seed) ∧
    (enemyMedium 1 chaseTarget chaseState 7 = some (chaseResult 7) ∧
      (chaseResult 7).ai.anchorX = chaseState.anchorX ∧
      (chaseResult 7).ai.direction = chaseState.direction) ∧
    (enemyHard 1 pursuitTarget pursuitState 7 = some (pursuitResult 7) ∧
      (pursuitResult 7).ai.lastHitX = pursuitState.lastHitX ∧
      (pursuitResult 7).ai.lastHitY = pursuitState.lastHitY) := by
  have h1 := (strategies_untouched_fields 1 easyStart.target idleState easyStart.seed
    easyShot1).1 rfl
  have h2 := (strategies_untouched_fields 1 easyStart.target idleState easyStart.seed
    easyShot1).2.1 { pursuitState with shots := idleState.shots } rfl
  have h3 := (strategies_untouched_fields 1 chaseTarget chaseState 7 (chaseResult 7)).2.2.1 rfl
  have h4 := (strategies_untouched_fields 1 pursuitTarget pursuitState 7
    (pursuitResult 7)).2.2.2 rfl
  exact ⟨⟨rfl, h1.1, h1.2.2.1, h1.2.2.2.2.2.2⟩, h2.trans rfl, ⟨rfl, h3.1, h3.2.2.2.2⟩,
    ⟨rfl, h4.1, h4.2⟩⟩

/-! ## The grid after a call of any strategy -/

theorem enemyEasy_effect (fuel : Nat) (target : Player) (ai : AIState) (seed : Nat) (r : Game)
    (h : enemyEasy fuel target ai seed = some r) :
    ∃ x y, FiresAt ai r x y ∧ ShotEffect target.grid r.target.grid x y := by
  obtain ⟨x, y, hf, hpos, hzero, hneg⟩ := enemyEasy_grid _ _ _ _ _ h
  refine ⟨x, y, hf, ?_⟩
  rcases lt_trichotomy (target.grid x y) 0 with hlt | heq | hgt
  · exact Or.inr ⟨hlt, hneg hlt⟩
  · exact Or.inl (Or.inl ⟨by omega, hzero heq⟩)
  · have hg := hpos hgt
    by_cases hs : isShipSunk (setCell target.grid x y (-target.grid x y)) (target.grid x y) ≠ 0
    · rw [if_pos hs] at hg
      exact Or.inl (Or.inr (Or.inr ⟨hgt, hg⟩))
    · rw [if_neg hs] at hg
      exact Or.inl (Or.inr (Or.inl ⟨hgt, hg⟩))

theorem mediumSearch_grid (fuel : Nat) (target : Player) (ai : AIState) (seed : Nat)
    (r : Game) (h : mediumSearch fuel target ai seed = some r) :
    ∃ x y, FiresAt ai r x y ∧ GridAfterShot target.grid r.target.grid x y := by
  unfold mediumSearch at h
  cases hs : sampleWhile (fun x y => decide (ai.shots x y ≠ 0)) fuel seed with
  | none => rw [hs] at h; simp at h
  | some c =>
    obtain ⟨x, y, s'⟩ := c
    rw [hs] at h
    obtain ⟨hin, hag⟩ := sampleWhile_spec _ _ _ _ _ _ hs
    have h0 : ai.shots x y = 0 := by simpa using hag
    simp only at h
    obtain ⟨-, -, hb⟩ := shot_branches h
    refine ⟨x, y, ⟨hin, h0, ?_⟩, ?_⟩
    · rcases hb with ⟨-, -, ha⟩ | ⟨-, -, -, ha⟩ | ⟨-, -, -, ha⟩ <;> rw [ha]
    · rcases hb with ⟨h1, h2, -⟩ | ⟨h1, -, h2, -⟩ | ⟨h1, -, h2, -⟩
      · exact Or.inl ⟨h1, h2⟩
      · exact Or.inr (Or.inl ⟨h1, h2⟩)
      · exact Or.inr (Or.inr ⟨h1, h2⟩)

theorem enemyMedium_grid (fuel : Nat) (target : Player) (ai : AIState) (seed : Nat)
    (r : Game) (h : enemyMedium fuel target ai seed = some r) :
    ∃ x y, FiresAt ai r x y ∧ GridAfterShot target.grid r.target.grid x y := by
  unfold enemyMedium at h
  split_ifs at h with hl
  · cases hf : firstFree dx4 dy4 ai.shots ai.lastHitX ai.lastHitY [0, 1, 2, 3] with
    | none =>
      rw [hf] at h
      simp only at h
      have hm := mediumSearch_grid _ _ _ _ _ h
      exact hm
    | some c =>
      obtain ⟨d, x, y⟩ := c
      rw [hf] at h
      obtain ⟨-, -, -, hin, h0⟩ := firstFree_spec _ _ _ _ _ _ _ _ _ hf
      simp only at h
      obtain ⟨-, -, hb⟩ := shot_branches h
      refine ⟨x, y, ⟨hin, h0, ?_⟩, ?_⟩
      · rcases hb with ⟨-, -, ha⟩ | ⟨-, -, -, ha⟩ | ⟨-, -, -, ha⟩ <;> rw [ha]
      · rcases hb with ⟨h1, h2, -⟩ | ⟨h1, -, h2, -⟩ | ⟨h1, -, h2, -⟩
        · exact Or.inl ⟨h1, h2⟩
        · exact Or.inr (Or.inl ⟨h1, h2⟩)
        · exact Or.inr (Or.inr ⟨h1, h2⟩)
  · exact mediumSearch_grid fuel target ai seed r h

/-- Every returning call of a strategy fires at one cell and changes the grid as `ShotEffect`
describes. -/
theorem strategy_effect (fuel : Nat) (target : Player) (ai : AIState) (seed : Nat) (r : Game)
    (h : enemyEasy fuel target ai seed = some r ∨ enemyMedium fuel target ai seed = some r ∨
      enemyHard fuel target ai seed = some r) :
    ∃ x y, FiresAt ai r x y ∧ ShotEffect target.grid r.target.grid x y := by
  rcases h with h | h | h
  · exact enemyEasy_effect _ _ _ _ _ h
  · obtain ⟨x, y, hf, hg⟩ := enemyMedium_grid _ _ _ _ _ h
    exact ⟨x, y, hf, Or.inl hg⟩
  · obtain ⟨x, y, hf, hg⟩ := enemyHard_grid _ _ _ _ _ h
    exact ⟨x, y, hf, Or.inl hg⟩

/-- Cell by cell: a shot at `(x, y)` leaves a cell other than `(x, y)` as it was, unless the
shot hit ship `k` and the cell held `-k`, in which case it may hold `-200 - k`. -/
theorem ShotEffect.other {g g' : Grid} {x y : Int} (h : ShotEffect g g' x y) (i j : Int)
    (hij : ¬ (i = x ∧ j = y)) :
    g' i j = g i j ∨ (g x y > 0 ∧ g i j = -g x y ∧ g' i j = -200 - g x y) := by
  rcases h with (⟨-, hg⟩ | ⟨-, hg⟩ | ⟨hpos, hg⟩) | ⟨-, hg⟩
  · left; rw [hg, setCell_other _ _ _ _ _ _ hij]
  · left; rw [hg, setCell_other _ _ _ _ _ _ hij]
  · rw [hg, markShipSunk_apply, setCell_other _ _ _ _ _ _ hij]
    by_cases hc : inGrid i j ∧ g i j = -g x y
    · rw [if_pos hc]; exact Or.inr ⟨hpos, hc.2, rfl⟩
    · rw [if_neg hc]; exact Or.inl rfl
  · left; rw [hg]

/-- The cell fired at: a positive value `k` becomes `-k` or `-200 - k`, water becomes `-99`,
a negative value stays or becomes `-99`. -/
theorem ShotEffect.fired {g g' : Grid} {x y : Int} (h : ShotEffect g g' x y) :
    (g x y > 0 → g' x y = -g x y ∨ g' x y = -200 - g x y) ∧
    (g x y = 0 → g' x y = -99) ∧
    (g x y < 0 → g' x y = -99 ∨ g' x y = g x y) := by
  rcases h with (⟨hpos, hg⟩ | ⟨hpos, hg⟩ | ⟨hpos, hg⟩) | ⟨hneg, hg⟩
  · refine ⟨fun hp => absurd hp hpos, fun _ => ?_, fun _ => Or.inl ?_⟩ <;>
      rw [hg, setCell_same]
  · refine ⟨fun _ => Or.inl ?_, fun hz => by omega, fun hn => by omega⟩
    rw [hg, setCell_same]
  · refine ⟨fun _ => ?_, fun hz => by omega, fun hn => by omega⟩
    rw [hg, markShipSunk_apply, setCell_same]
    by_cases hc : inGrid x y ∧ -g x y = -g x y
    · rw [if_pos hc]; exact Or.inr rfl
    · rw [if_neg hc]; exact Or.inl rfl
  · refine ⟨fun hp => by omega, fun hz => by omega, fun _ => Or.inr ?_⟩
    rw [hg]

/-- After a shot at `(x, y)` the positive cells are those that were positive, less `(x, y)`. -/
theorem ShotEffect.pos_iff {g g' : Grid} {x y : Int} (h : ShotEffect g g' x y) (i j : Int) :
    g' i j > 0 ↔ g i j > 0 ∧ ¬ (i = x ∧ j = y) := by
  by_cases hij : i = x ∧ j = y
  · obtain ⟨rfl, rfl⟩ := hij
    obtain ⟨h1, h2, h3⟩ := h.fired
    rcases lt_trichotomy (g i j) 0 with hlt | heq | hgt
    · rcases h3 hlt with h' | h' <;> rw [h'] <;> constructor <;> intro hh <;> omega
    · rw [h2 heq]; constructor <;> intro hh <;> omega
    · rcases h1 hgt with h' | h' <;> rw [h'] <;> constructor <;> intro hh
      · omega
      · exact absurd ⟨rfl, rfl⟩ hh.2
      · omega
      · exact absurd ⟨rfl, rfl⟩ hh.2
  · rcases h.other i j hij with h' | ⟨hp, h1, h2⟩
    · rw [h']; exact ⟨fun hh => ⟨hh, hij⟩, fun hh => hh.1⟩
    · rw [h2, h1]; constructor <;> intro hh <;> omega

theorem countPositive_shot {g g' : Grid} {x y : Int} (h : ShotEffect g g' x y)
    (hin : inGrid x y) :
    (g x y > 0 → countPositive g' + 1 = countPositive g) ∧
    (¬ g x y > 0 → countPositive g' = countPositive g) := by
  have hset : cells.filter (fun c => g' c.1 c.2 > 0)
      = (cells.filter (fun c => g c.1 c.2 > 0)).erase (x, y) := by
    ext ⟨i, j⟩
    simp only [Finset.mem_filter, Finset.mem_erase, Prod.mk.injEq, ne_eq, h.pos_iff i j]
    tauto
  unfold countPositive
  rw [hset]
  constructor
  · intro hp
    apply Finset.card_erase_add_one
    simp only [Finset.mem_filter, mem_cells]
    exact ⟨hin, hp⟩
  · intro hp
    rw [Finset.erase_eq_of_not_mem]
    simp only [Finset.mem_filter, mem_cells, not_and]
    exact fun _ => hp

theorem Consistent.after_shot {g g' shots : Grid} {x y : Int} (hc : Consistent g shots)
    (hin : inGrid x y) (h0 : shots x y = 0) (h : ShotEffect g g' x y) :
    0 ≤ g x y ∧ Consistent g' (setCell shots x y 1) := by
  have hnn : 0 ≤ g x y := by
    by_contra hneg
    have := (hc x y hin).mpr (by omega)
    omega
  refine ⟨hnn, fun i j hij => ?_⟩
  by_cases hxy : i = x ∧ j = y
  · obtain ⟨rfl, rfl⟩ := hxy
    rw [setCell_same]
    obtain ⟨h1, h2, -⟩ := h.fired
    rcases hnn.lt_or_eq with hgt | heq
    · rcases h1 hgt with h' | h' <;> rw [h'] <;> exact ⟨fun _ => by omega, fun _ => rfl⟩
    · rw [h2 heq.symm]; exact ⟨fun _ => by decide, fun _ => rfl⟩
  · rw [setCell_other _ _ _ _ _ _ hxy]
    rcases h.other i j hxy with h' | ⟨hp, h1, h2⟩
    · rw [h']; exact hc i j hij
    · rw [h2]
      have := hc i j hij
      rw [h1] at this
      exact ⟨fun _ => by omega, fun _ => this.mpr (by omega)⟩

/-! ## Consistency of grid and shot history (C24) -/

/-- C24. If before a call every cell of the array satisfies `shots[x][y] = 1` if and only if
`grid[x][y] < 0`, then after any returning call of `enemyEasy`, `enemyMedium` or `enemyHard`
every cell satisfies it again; and the cell fired at held a value `≥ 0`: it showed neither a
hit, nor a miss, nor a sunk ship. -/
theorem strategies_keep_consistency (fuel : Nat) (target : Player) (ai : AIState) (seed : Nat)
    (r : Game) (hc : Consistent target.grid ai.shots)
    (h : enemyEasy fuel target ai seed = some r ∨ enemyMedium fuel target ai seed = some r ∨
      enemyHard fuel target ai seed = some r) :
    Consistent r.target.grid r.ai.shots ∧
    ∃ x y, FiresAt ai r x y ∧ 0 ≤ target.grid x y := by
  obtain ⟨x, y, hf, he⟩ := strategy_effect _ _ _ _ _ h
  obtain ⟨hnn, hcons⟩ := hc.after_shot hf.1 hf.2.1 he
  refine ⟨?_, x, y, hf, hnn⟩
  rw [hf.2.2]
  exact hcons

/-- The state `lastCellState` is consistent with the grid of `lastCellTarget` (the two hit
cells are the two marked cells); `enemyMedium` sinks the ship at `(5, 3)`, and the state
returned is consistent again. -/
theorem strategies_keep_consistency_witness :
    Consistent lastCellTarget.grid lastCellState.shots ∧
    enemyMedium 1 lastCellTarget lastCellState 5548972 = some lastCellMedium ∧
    Consistent lastCellMedium.target.grid lastCellMedium.ai.shots ∧
    ∃ x y, FiresAt lastCellState lastCellMedium x y ∧ 0 ≤ lastCellTarget.grid x y := by
  have hc : Consistent lastCellTarget.grid lastCellState.shots := by
    intro x y _
    simp only [lastCellTarget, lastCellState]
    split_ifs <;> simp_all
  exact ⟨hc, rfl, strategies_keep_consistency 1 lastCellTarget lastCellState 5548972
    lastCellMedium hc (Or.inr (Or.inl rfl))⟩

/-! ## Frame of a shot on the grid (C26) -/

/-- C26. A returning call of `enemyEasy`, `enemyMedium` or `enemyHard` fires at one cell
`(x, y)`; any other cell whose value changed held `-k`, where `k > 0` is the value `(x, y)`
held, and holds `-200 - k` afterwards; no cell that was not positive becomes positive; the
number of positive cells of the array decreases by exactly one if `(x, y)` held a positive
value and is unchanged otherwise; and if `allDestroyed` returned 1 before the call it returns
1 after it. -/
theorem strategies_grid_frame (fuel : Nat) (target : Player) (ai : AIState) (seed : Nat)
    (r : Game)
    (h : enemyEasy fuel target ai seed = some r ∨ enemyMedium fuel target ai seed = some r ∨
      enemyHard fuel target ai seed = some r) :
    ∃ x y, FiresAt ai r x y ∧
      (∀ i j, ¬ (i = x ∧ j = y) → r.target.grid i j ≠ target.grid i j →
        target.grid x y > 0 ∧ target.grid i j = -target.grid x y ∧
        r.target.grid i j = -200 - target.grid x y) ∧
      (∀ i j, ¬ target.grid i j > 0 → ¬ r.target.grid i j > 0) ∧
      (target.grid x y > 0 → countPositive r.target.grid + 1 = countPositive target.grid) ∧
      (¬ target.grid x y > 0 → countPositive r.target.grid = countPositive target.grid) ∧
      (allDestroyed target.grid = 1 → allDestroyed r.target.grid = 1) := by
  obtain ⟨x, y, hf, he⟩ := strategy_effect _ _ _ _ _ h
  obtain ⟨hc1, hc2⟩ := countPositive_shot he hf.1
  refine ⟨x, y, hf, fun i j hij hne => ?_, fun i j hnp hp => ?_, hc1, hc2, fun hall => ?_⟩
  · rcases he.other i j hij with h' | h'
    · exact absurd h' hne
    · exact h'
  · exact hnp ((he.pos_iff i j).mp hp).1
  · rw [allDestroyed_eq_one_iff] at hall ⊢
    exact fun i j hij hp => hall i j hij ((he.pos_iff i j).mp hp).1

/-- On `lastCellTarget`, whose only positive cell is `(5, 3)`, `enemyMedium` returns
`lastCellMedium`: the frame holds there, and the one positive cell is gone. -/
theorem strategies_grid_frame_witness :
    enemyMedium 1 lastCellTarget lastCellState 5548972 = some lastCellMedium ∧
    countPositive lastCellTarget.grid = 1 ∧
    ∃ x y, FiresAt lastCellState lastCellMedium x y ∧
      (∀ i j, ¬ (i = x ∧ j = y) → lastCellMedium.target.grid i j ≠ lastCellTarget.grid i j →
        lastCellTarget.grid x y > 0 ∧ lastCellTarget.grid i j = -lastCellTarget.grid x y ∧
        lastCellMedium.target.grid i j = -200 - lastCellTarget.grid x y) ∧
      (∀ i j, ¬ lastCellTarget.grid i j > 0 → ¬ lastCellMedium.target.grid i j > 0) ∧
      (lastCellTarget.grid x y > 0 →
        countPositive lastCellMedium.target.grid + 1 = countPositive lastCellTarget.grid) ∧
      (¬ lastCellTarget.grid x y > 0 →
        countPositive lastCellMedium.target.grid = countPositive lastCellTarget.grid) ∧
      (allDestroyed lastCellTarget.grid = 1 → allDestroyed lastCellMedium.target.grid = 1) :=
  ⟨rfl, by decide, strategies_grid_frame 1 lastCellTarget lastCellState 5548972 lastCellMedium
    (Or.inr (Or.inl rfl))⟩

/-! ## Well-formed search states of the hard strategy (C25) -/

theorem wellFormedAt_reset : WellFormedAt (-1) (-1) (-1) (-1) 0 :=
  ⟨by decide, fun _ => ⟨⟨rfl, rfl⟩, rfl⟩, fun h => absurd ⟨rfl, rfl⟩ h, fun h => absurd rfl h⟩

theorem wellFormedAt_anchor (ax ay : Int) (h : inGrid ax ay) : WellFormedAt ax ay ax ay 0 := by
  refine ⟨by decide, fun ha => ?_, fun _ => ⟨h, h⟩, fun hd => absurd rfl hd⟩
  have := h.1
  omega

theorem wellFormedAt_first (ax ay d : Int) (ha : inGrid ax ay) (hd : d ∈ [1, 2, 3, 4])
    (hin : inGrid (ax + dx d) (ay + dy d)) :
    WellFormedAt ax ay (ax + dx d) (ay + dy d) d := by
  refine ⟨?_, fun h => ?_, fun _ => ⟨ha, hin⟩, fun _ => ⟨1, le_refl _, by ring, by ring⟩⟩
  · simp only [List.mem_cons, List.mem_singleton, List.not_mem_nil, or_false] at hd
    omega
  · have := ha.1
    omega

theorem wellFormedAt_step (ax ay cx cy d : Int) (hwf : WellFormedAt ax ay cx cy d) (hd : d ≠ 0)
    (hin : inGrid (cx + dx d) (cy + dy d)) :
    WellFormedAt ax ay (cx + dx d) (cy + dy d) d := by
  obtain ⟨hr, habs, hpres, hline⟩ := hwf
  have hna : ¬ (ax = -1 ∧ ay = -1) := fun ha => hd (habs ha).2
  obtain ⟨n, hn, hx, hy⟩ := hline hd
  exact ⟨hr, fun ha => absurd ha hna, fun _ => ⟨(hpres hna).1, hin⟩,
    fun _ => ⟨n + 1, by omega, by rw [hx]; ring, by rw [hy]; ring⟩⟩

theorem wellFormedAt_drop (ax ay cx cy d : Int) (hwf : WellFormedAt ax ay cx cy d)
    (hd : d ≠ 0) : WellFormedAt ax ay ax ay 0 :=
  wellFormedAt_anchor ax ay (hwf.2.2.1 (fun ha => hd (hwf.2.1 ha).2)).1

theorem wellFormed_of_branches {target : Player} {x y : Int} {aS aH aM : AIState} {seed : Nat}
    {r : Game}
    (h : (if target.grid x y > 0 then
        if isShipSunk (setCell target.grid x y (-target.grid x y)) (target.grid x y) ≠ 0 then
          some (⟨{ target with
                    grid := markShipSunk (setCell target.grid x y (-target.grid x y))
                      (target.grid x y) }, aS, seed⟩ : Game)
        else some ⟨{ target with grid := setCell target.grid x y (-target.grid x y) }, aH, seed⟩
      else some ⟨{ target with grid := setCell target.grid x y (-99) }, aM, seed⟩) = some r)
    (hS : WellFormed aS) (hH : WellFormed aH) (hM : WellFormed aM) : WellFormed r.ai := by
  obtain ⟨-, -, hb⟩ := shot_branches h
  rcases hb with ⟨-, -, ha⟩ | ⟨-, -, -, ha⟩ | ⟨-, -, -, ha⟩ <;> rw [ha] <;> assumption

theorem hardStep3_wellFormed (fuel : Nat) (target : Player) (ai : AIState) (seed : Nat)
    (r : Game) (hwf : WellFormed ai) (hd : ai.direction = 0)
    (h : hardStep3 fuel target ai seed = some r) : WellFormed r.ai := by
  obtain ⟨x, y, hf, -, hdir, -, -, -, hhit, hmiss⟩ := hardStep3_result _ _ _ _ _ h
  unfold WellFormed
  by_cases hpos : target.grid x y > 0
  · obtain ⟨-, e1, e2, e3, e4⟩ := hhit hpos
    rw [e1, e2, e3, e4, hdir, hd]
    exact wellFormedAt_anchor x y hf.1
  · obtain ⟨-, e1, e2, e3, e4⟩ := hmiss hpos
    rw [e1, e2, e3, e4, hdir]
    exact hwf

theorem hardStep2_wellFormed (fuel : Nat) (target : Player) (ai : AIState) (seed : Nat)
    (r : Game) (hwf : WellFormed ai) (hd : ai.direction = 0)
    (h : hardStep2 fuel target ai seed = some r) : WellFormed r.ai := by
  unfold hardStep2 at h
  split_ifs at h with ha
  · have hanchor : inGrid ai.anchorX ai.anchorY := (hwf.2.2.1 (fun hh => ha hh.1)).1
    cases hf : firstFree dx dy ai.shots ai.anchorX ai.anchorY [1, 2, 3, 4] with
    | none =>
      rw [hf] at h
      simp only at h
      cases hg : scanGrid target.grid ai.shots indices with
      | none =>
        rw [hg] at h
        exact hardStep3_wellFormed fuel target ai seed r hwf hd h
      | some c =>
        obtain ⟨i, j, d, x, y⟩ := c
        rw [hg] at h
        obtain ⟨hi, hrow⟩ := scanGrid_spec _ _ _ _ _ _ _ _ hg
        obtain ⟨hj, -, hff⟩ := scanRow_spec _ _ _ _ _ _ _ _ hrow
        obtain ⟨hdm, hx, hy, hin, -⟩ := firstFree_spec _ _ _ _ _ _ _ _ _ hff
        have hij : inGrid i j :=
          ⟨((mem_indices i).mp hi).1, ((mem_indices i).mp hi).2, ((mem_indices j).mp hj).1,
            ((mem_indices j).mp hj).2⟩
        simp only at h
        refine wellFormed_of_branches h wellFormedAt_reset ?_ hwf
        rw [hx, hy] at hin ⊢
        exact wellFormedAt_first i j d hij hdm hin
    | some c =>
      obtain ⟨d, x, y⟩ := c
      rw [hf] at h
      obtain ⟨hdm, hx, hy, hin, -⟩ := firstFree_spec _ _ _ _ _ _ _ _ _ hf
      simp only at h
      refine wellFormed_of_branches h wellFormedAt_reset ?_ hwf
      rw [hx, hy] at hin ⊢
      exact wellFormedAt_first ai.anchorX ai.anchorY d hanchor hdm hin
  · exact hardStep3_wellFormed fuel target ai seed r hwf hd h

theorem enemyHard_preserves_wellFormed (fuel : Nat) (target : Player) (ai : AIState)
    (seed : Nat) (r : Game) (hwf : WellFormed ai)
    (h : enemyHard fuel target ai seed = some r) : WellFormed r.ai := by
  by_cases hd : ai.direction ≠ 0
  · have hdrop : WellFormed
        { ai with currentX := ai.anchorX, currentY := ai.anchorY, direction := 0 } :=
      wellFormedAt_drop _ _ _ _ _ hwf hd
    by_cases hc : Untried ai.shots (ai.currentX + dx ai.direction)
        (ai.currentY + dy ai.direction)
    · rw [enemyHard_step1_eq fuel target ai seed hd hc] at h
      simp only at h
      exact wellFormed_of_branches h wellFormedAt_reset
        (wellFormedAt_step _ _ _ _ _ hwf hd hc.1) hdrop
    · rw [enemyHard_blocked_eq fuel target ai seed hd hc] at h
      exact hardStep2_wellFormed _ _ _ _ _ hdrop rfl h
  · rw [enemyHard_idle_eq fuel target ai seed (not_not.mp hd)] at h
    exact hardStep2_wellFormed _ _ _ _ _ hwf (not_not.mp hd) h

theorem hardRun_wellFormed (fuels : List Nat) (g0 g : Game) (hwf : WellFormed g0.ai)
    (hrun : hardRun fuels g0 = some g) : WellFormed g.ai := by
  induction fuels generalizing g0 with
  | nil =>
    simp only [hardRun, Option.some.injEq] at hrun
    subst hrun
    exact hwf
  | cons fuel fuels ih =>
    simp only [hardRun] at hrun
    cases hcall : enemyHard fuel g0.target g0.ai g0.seed with
    | none => rw [hcall] at hrun; simp at hrun
    | some g1 =>
      rw [hcall] at hrun
      simp only [Option.some_bind] at hrun
      exact ih g1 (enemyHard_preserves_wellFormed _ _ _ _ _ hwf hcall) hrun

/-- C25. The search state `initAIState` produces is well formed (`WellFormed`: direction in
`0 .. 4`; anchor absent implies current absent and no direction; anchor present implies anchor
and current in the grid; a direction implies `current = anchor + n * step(direction)` with
`n ≥ 1`); every returning `enemyHard` call from a well-formed state leaves a well-formed state;
hence so is the state after any sequence of returning calls that starts from `initAIState`. -/
theorem enemyHard_wellFormed (ai0 ai : AIState) (fuel : Nat) (target : Player) (seed : Nat)
    (r : Game) (fuels : List Nat) (g : Game) :
    WellFormed (initAIState ai0) ∧
    (WellFormed ai → enemyHard fuel target ai seed = some r → WellFormed r.ai) ∧
    (hardRun fuels ⟨target, initAIState ai0, seed⟩ = some g → WellFormed g.ai) :=
  ⟨wellFormedAt_reset, enemyHard_preserves_wellFormed fuel target ai seed r,
    hardRun_wellFormed fuels ⟨target, initAIState ai0, seed⟩ g wellFormedAt_reset⟩

set_option maxRecDepth 20000 in
/-- From the well-formed state `exhaustedState` (anchor and current cell `(0, 0)`, no
direction) the scan of `enemyHard` hits at `(4, 5)` and leaves anchor `(5, 5)`, current cell
`(4, 5)`, direction 1: well formed with `n = 1`. The two calls of the miss scenario, started
from `initAIState`, leave a well-formed state too. -/
theorem enemyHard_wellFormed_witness :
    WellFormed (initAIState idleState) ∧
    (WellFormed exhaustedState ∧
      enemyHard 1 openShipTarget exhaustedState 7 = some (openShipResult 7) ∧
      WellFormed (openShipResult 7).ai ∧
      (openShipResult 7).ai.currentX = (openShipResult 7).ai.anchorX + 1 * dx 1) ∧
    (hardRun [3, 4] missStart = some missShot2 ∧ WellFormed missShot2.ai) := by
  have hwf : WellFormed exhaustedState := wellFormedAt_anchor 0 0 (by decide)
  have hcall : enemyHard 1 openShipTarget exhaustedState 7 = some (openShipResult 7) := rfl
  have hrun : hardRun [3, 4] missStart = some missShot2 := rfl
  have h := enemyHard_wellFormed idleState exhaustedState 1 openShipTarget 7
    (openShipResult 7) [3, 4] missShot2
  have h' := enemyHard_wellFormed idleState exhaustedState 3 ⟨shipRow5, 0⟩ 98765
    (openShipResult 7) [3, 4] missShot2
  exact ⟨h.1, ⟨hwf, hcall, h.2.1 hwf hcall, by decide⟩, hrun, h'.2.2 hrun⟩

/-! ## Ship placement -/

theorem mem_intRange (a b i : Int) : i ∈ intRange a b ↔ a ≤ i ∧ i ≤ b := by
  unfold intRange
  simp only [List.mem_map, List.mem_range]
  constructor
  · rintro ⟨k, hk, rfl⟩
    omega
  · intro h
    exact ⟨(i - a).toNat, by omega, by omega⟩

theorem isAreaFree_eq_one_iff (g : Grid) (x y width height : Int) :
    isAreaFree g x y width height = 1 ↔
      ∀ i j, (x - 1 ≤ i ∧ i ≤ x + height) → (y - 1 ≤ j ∧ j ≤ y + width) → inGrid i j →
        g i j = 0 := by
  unfold isAreaFree
  split_ifs with h
  · simp only [zero_ne_one, false_iff, not_forall]
    simp only [List.any_eq_true, mem_intRange, Bool.and_eq_true, Bool.not_eq_true',
      Bool.or_eq_false_iff, decide_eq_false_iff_not, decide_eq_true_eq] at h
    obtain ⟨i, hi, j, hj, ⟨⟨⟨h1, h2⟩, h3⟩, h4⟩, hne⟩ := h
    exact ⟨i, j, hi, hj, ⟨by omega, by omega, by omega, by omega⟩, hne⟩
  · simp only [true_iff]
    intro i j hi hj hin
    by_contra hne
    apply h
    simp only [List.any_eq_true, mem_intRange, Bool.and_eq_true, Bool.not_eq_true',
      Bool.or_eq_false_iff, decide_eq_false_iff_not, decide_eq_true_eq]
    obtain ⟨a1, a2, a3, a4⟩ := hin
    exact ⟨i, hi, j, hj, ⟨⟨⟨by omega, by omega⟩, by omega⟩, by omega⟩, hne⟩

/-- The inner loop of `placeRect` on row `p0`, cell by cell. -/
theorem placeRow_apply (p0 y v : Int) (l : List Int) (g : Grid) (p q : Int) :
    (l.foldl (fun g j => setCell g p0 (y + j) v) g) p q
      = if p = p0 ∧ ∃ j ∈ l, q = y + j then v else g p q := by
  induction l generalizing g with
  | nil => simp
  | cons j l ih =>
    rw [List.foldl_cons, ih]
    by_cases h1 : p = p0 ∧ ∃ k ∈ l, q = y + k
    · rw [if_pos h1, if_pos ⟨h1.1, by obtain ⟨k, hk, e⟩ := h1.2
                                      exact ⟨k, List.mem_cons_of_mem _ hk, e⟩⟩]
    · rw [if_neg h1]
      by_cases h2 : p = p0 ∧ q = y + j
      · rw [h2.1, h2.2, setCell_same, if_pos ⟨rfl, j, List.mem_cons_self _ _, rfl⟩]
      · rw [setCell_other _ _ _ _ _ _ h2, if_neg]
        rintro ⟨hp, k, hk, e⟩
        rcases List.mem_cons.mp hk with rfl | hk
        · exact h2 ⟨hp, e⟩
        · exact h1 ⟨hp, k, hk, e⟩

/-- The loops of `placeRect`, cell by cell. -/
theorem placeRows_apply (x y v : Int) (js : List Int) (l : List Int) (g : Grid) (p q : Int) :
    (l.foldl (fun g i => js.foldl (fun g j => setCell g (x + i) (y + j) v) g) g) p q
      = if (∃ i ∈ l, p = x + i) ∧ ∃ j ∈ js, q = y + j then v else g p q := by
  induction l generalizing g with
  | nil => simp
  | cons i l ih =>
    rw [List.foldl_cons, ih, placeRow_apply]
    by_cases h1 : (∃ k ∈ l, p = x + k) ∧ ∃ j ∈ js, q = y + j
    · rw [if_pos h1, if_pos ⟨by obtain ⟨k, hk, e⟩ := h1.1
                                exact ⟨k, List.mem_cons_of_mem _ hk, e⟩, h1.2⟩]
    · rw [if_neg h1]
      by_cases h2 : p = x + i ∧ ∃ j ∈ js, q = y + j
      · rw [if_pos h2, if_pos ⟨⟨i, List.mem_cons_self _ _, h2.1⟩, h2.2⟩]
      · rw [if_neg h2, if_neg]
        rintro ⟨⟨k, hk, e⟩, hj⟩
        rcases List.mem_cons.mp hk with rfl | hk
        · exact h2 ⟨e, hj⟩
        · exact h1 ⟨⟨k, hk, e⟩, hj⟩

/-- The function `placeRect` writes `shipId` into the cells of the rectangle and nothing else. -/
theorem placeRect_apply (g : Grid) (x y width height shipId p q : Int) :
    placeRect g x y width height shipId p q
      = if InRect x y width height p q then shipId else g p q := by
  unfold placeRect
  rw [placeRows_apply]
  have hiff : ((∃ i ∈ intRange 0 (height - 1), p = x + i) ∧
      ∃ j ∈ intRange 0 (width - 1), q = y + j) ↔ InRect x y width height p q := by
    simp only [mem_intRange, InRect]
    constructor
    · rintro ⟨⟨i, hi, rfl⟩, j, hj, rfl⟩
      omega
    · intro h
      exact ⟨⟨p - x, by omega, by omega⟩, q - y, by omega, by omega⟩
  by_cases h : InRect x y width height p q
  · rw [if_pos (hiff.mpr h), if_pos h]
  · rw [if_neg (fun hh => h (hiff.mp hh)), if_neg h]

/-- A rectangle with at least one row, one column and two cells covers a cell `(i, j)` with
`i + j` even. -/
theorem rect_has_even_cell (x y width height : Int) (hw : 1 ≤ width) (hh : 1 ≤ height)
    (h2 : 2 ≤ width ∨ 2 ≤ height) :
    ∃ i j, InRect x y width height i j ∧ (i + j) % 2 = 0 := by
  by_cases hpar : (x + y) % 2 = 0
  · exact ⟨x, y, ⟨le_refl _, by omega, le_refl _, by omega⟩, hpar⟩
  · rcases h2 with h2 | h2
    · exact ⟨x, y + 1, ⟨le_refl _, by omega, by omega, by omega⟩, by omega⟩
    · exact ⟨x + 1, y, ⟨by omega, by omega, le_refl _, by omega⟩, by omega⟩

/-- C27. Every ship shape the game places in the grid (a horizontal or vertical run of
`n ≥ 2` cells, a 2x5 or a 5x2 block) covers a cell `(i, j)` of the grid with `(i + j) % 2 == 0`:
`placeRect` writes the ship id there, and whenever that cell is untried the sampling loop of
the checkerboard fallback of `enemyHard` returns it for some seed. -/
theorem ship_shape_covers_even_cell (g shots : Grid) (x y width height shipId : Int)
    (hx : 0 ≤ x) (hy : 0 ≤ y) (hxh : x + height ≤ GRID) (hyw : y + width ≤ GRID)
    (hshape : (width = 1 ∧ 2 ≤ height) ∨ (height = 1 ∧ 2 ≤ width) ∨
      (width = 2 ∧ height = 5) ∨ (width = 5 ∧ height = 2)) :
    ∃ i j, inGrid i j ∧ InRect x y width height i j ∧ (i + j) % 2 = 0 ∧
      placeRect g x y width height shipId i j = shipId ∧
      (shots i j = 0 → ∃ seed',
        sampleWhile (fun a b => decide (shots a b ≠ 0) || decide ((a + b) % 2 ≠ 0)) 1
          (seedFor i j) = some (i, j, seed')) := by
  obtain ⟨i, j, hrect, hpar⟩ := rect_has_even_cell x y width height (by omega) (by omega)
    (by omega)
  have hin : inGrid i j := by
    obtain ⟨h1, h2, h3, h4⟩ := hrect
    exact ⟨by omega, by omega, by omega, by omega⟩
  refine ⟨i, j, hin, hrect, hpar, ?_, fun h0 => ?_⟩
  · rw [placeRect_apply, if_pos hrect]
  · apply sampleWhile_seedFor
      (fun a b => decide (shots a b ≠ 0) || decide ((a + b) % 2 ≠ 0)) i j hin
    simp [h0, hpar]

/-- The ship of `shipRow5`, a horizontal run of three cells from `(5, 3)`: the cell `(5, 3)` is
covered and has an even coordinate sum. -/
theorem ship_shape_covers_even_cell_witness :
    InRect 5 3 3 1 5 3 ∧ (5 + 3 : Int) % 2 = 0 ∧
    ∃ i j, inGrid i j ∧ InRect 5 3 3 1 i j ∧ (i + j) % 2 = 0 ∧
      placeRect emptyGrid 5 3 3 1 1 i j = 1 ∧
      (idleState.shots i j = 0 → ∃ seed',
        sampleWhile
          (fun a b => decide (idleState.shots a b ≠ 0) || decide ((a + b) % 2 ≠ 0)) 1
          (seedFor i j) = some (i, j, seed')) :=
  ⟨by decide, by decide,
    ship_shape_covers_even_cell emptyGrid idleState.shots 5 3 3 1 1 (by decide) (by decide)
      (by decide) (by decide) (Or.inr (Or.inl ⟨rfl, by decide⟩))⟩

/-! ## The placement test (C28) -/

/-- The upper-bound test followed by `isAreaFree`, common to `canPlaceShip` and
`canPlaceShip5x2Manual`. -/
theorem boundTest_eq_one_iff (g : Grid) (x y width height : Int) :
    (if x + height > GRID ∨ y + width > GRID then 0 else isAreaFree g x y width height) = 1 ↔
      (x + height ≤ GRID ∧ y + width ≤ GRID) ∧ isAreaFree g x y width height = 1 := by
  by_cases hb : x + height > GRID ∨ y + width > GRID
  · rw [if_pos hb]
    constructor
    · intro h; exact absurd h (by decide)
    · rintro ⟨⟨h1, h2⟩, -⟩; omega
  · rw [if_neg hb]
    constructor
    · intro h; exact ⟨⟨by omega, by omega⟩, h⟩
    · intro h; exact h.2

theorem canPlaceShip_eq_one_iff (g : Grid) (x y size vertical : Int) :
    canPlaceShip g x y size vertical = 1 ↔
      (x + (if vertical ≠ 0 then size else 1) ≤ GRID ∧
        y + (if vertical ≠ 0 then 1 else size) ≤ GRID) ∧
      isAreaFree g x y (if vertical ≠ 0 then 1 else size)
        (if vertical ≠ 0 then size else 1) = 1 := by
  unfold canPlaceShip
  exact boundTest_eq_one_iff g x y _ _

theorem canPlaceShip5x2Manual_eq_one_iff (g : Grid) (x y vertical : Int) :
    canPlaceShip5x2Manual g x y vertical = 1 ↔
      (x + (if vertical ≠ 0 then 5 else 2) ≤ GRID ∧
        y + (if vertical ≠ 0 then 2 else 5) ≤ GRID) ∧
      isAreaFree g x y (if vertical ≠ 0 then 2 else 5) (if vertical ≠ 0 then 5 else 2) = 1 := by
  unfold canPlaceShip5x2Manual
  exact boundTest_eq_one_iff g x y _ _

/-- For a start cell with non-negative coordinates, `canPlaceShip` returns 1 exactly when the
placement is possible. -/
theorem canPlaceShip_iff_possible (g : Grid) (x y size vertical : Int) (hx : 0 ≤ x)
    (hy : 0 ≤ y) (hsize : 1 ≤ size) :
    canPlaceShip g x y size vertical = 1 ↔
      PlacementPossible g x y (if vertical ≠ 0 then 1 else size)
        (if vertical ≠ 0 then size else 1) := by
  rw [canPlaceShip_eq_one_iff, isAreaFree_eq_one_iff]
  unfold PlacementPossible
  constructor
  · rintro ⟨⟨hb1, hb2⟩, hfree⟩
    refine ⟨?_, hfree⟩
    rintro i j ⟨h1, h2, h3, h4⟩
    exact ⟨by omega, by omega, by omega, by omega⟩
  · rintro ⟨hin, hfree⟩
    refine ⟨?_, hfree⟩
    have hcell := hin (x + (if vertical ≠ 0 then size else 1) - 1)
      (y + (if vertical ≠ 0 then 1 else size) - 1)
      ⟨by split_ifs <;> omega, by omega, by split_ifs <;> omega, by omega⟩
    obtain ⟨-, h2, -, h4⟩ := hcell
    exact ⟨by omega, by omega⟩

/-- For a start cell with non-negative coordinates, `canPlaceShip5x2Manual` returns 1 exactly
when the placement of the 5x2 / 2x5 rectangle is possible. -/
theorem canPlaceShip5x2Manual_iff_possible (g : Grid) (x y vertical : Int) (hx : 0 ≤ x)
    (hy : 0 ≤ y) :
    canPlaceShip5x2Manual g x y vertical = 1 ↔
      PlacementPossible g x y (if vertical ≠ 0 then 2 else 5)
        (if vertical ≠ 0 then 5 else 2) := by
  rw [canPlaceShip5x2Manual_eq_one_iff, isAreaFree_eq_one_iff]
  unfold PlacementPossible
  constructor
  · rintro ⟨⟨hb1, hb2⟩, hfree⟩
    refine ⟨?_, hfree⟩
    rintro i j ⟨h1, h2, h3, h4⟩
    exact ⟨by omega, by omega, by omega, by omega⟩
  · rintro ⟨hin, hfree⟩
    refine ⟨?_, hfree⟩
    have hcell := hin (x + (if vertical ≠ 0 then 5 else 2) - 1)
      (y + (if vertical ≠ 0 then 2 else 5) - 1)
      ⟨by split_ifs <;> omega, by omega, by split_ifs <;> omega, by omega⟩
    obtain ⟨-, h2, -, h4⟩ := hcell
    exact ⟨by omega, by omega⟩

/-- C28, at an input where the code departs from it. On the empty grid, `canPlaceShip` with
start cell `(-1, 0)`, size 3, vertical, returns 1, although the first cell of the ship,
`(-1, 0)`, lies outside the grid, so that the placement is not possible: only
`x + height > GRID` and `y + width > GRID` are tested, never `x < 0` or `y < 0`, and
`isAreaFree` skips the cells outside the grid. `canPlaceShip5x2Manual` does the same. -/
theorem canPlaceShip_accepts_negative_start :
    canPlaceShip emptyGrid (-1) 0 3 1 = 1 ∧
    InRect (-1) 0 1 3 (-1) 0 ∧ ¬ inGrid (-1) 0 ∧
    ¬ PlacementPossible emptyGrid (-1) 0 1 3 ∧
    canPlaceShip emptyGrid 0 (-1) 3 0 = 1 ∧
    ¬ PlacementPossible emptyGrid 0 (-1) 3 1 ∧
    canPlaceShip5x2Manual emptyGrid (-1) 0 1 = 1 ∧
    ¬ PlacementPossible emptyGrid (-1) 0 2 5 := by
  refine ⟨by decide, by decide, by decide, fun h => ?_, by decide, fun h => ?_, by decide,
    fun h => ?_⟩
  · exact absurd (h.1 (-1) 0 (by decide)) (by decide)
  · exact absurd (h.1 0 (-1) (by decide)) (by decide)
  · exact absurd (h.1 (-1) 0 (by decide)) (by decide)

/-! ## Placement keeps ships apart (C29) -/

/-- C29. If in grid `g` any two equal or adjacent cells (diagonally included) holding non-zero
ids hold the same id, and `isAreaFree(g, x, y, width, height)` returns 1 for a rectangle with
`0 ≤ x`, `x + height ≤ 14`, `0 ≤ y`, `y + width ≤ 14`, then the write loop of `placeShips` and
`placeShip5x2Manual` overwrites only cells that held 0, changes no cell outside the rectangle,
and leaves a grid with the same property. The id written need not even be fresh. -/
theorem placement_keeps_ships_apart (g : Grid) (x y width height shipId : Int)
    (hap : Apart g) (hfree : isAreaFree g x y width height = 1)
    (hx : 0 ≤ x) (hxh : x + height ≤ GRID) (hy : 0 ≤ y) (hyw : y + width ≤ GRID) :
    (∀ i j, InRect x y width height i j → g i j = 0) ∧
    (∀ i j, ¬ InRect x y width height i j →
      placeRect g x y width height shipId i j = g i j) ∧
    (∀ i j, InRect x y width height i j →
      placeRect g x y width height shipId i j = shipId) ∧
    Apart (placeRect g x y width height shipId) ∧
    (∀ vertical : Int, width = (if vertical ≠ 0 then 2 else 5) →
      height = (if vertical ≠ 0 then 5 else 2) →
      canPlaceShip5x2Manual g x y vertical = 1 ∧
      Apart (placeShip5x2Manual g x y shipId vertical)) := by
  have hzero := (isAreaFree_eq_one_iff g x y width height).mp hfree
  have hrect : ∀ i j, InRect x y width height i j → inGrid i j := by
    rintro i j ⟨h1, h2, h3, h4⟩
    exact ⟨by omega, by omega, by omega, by omega⟩
  have hnear : ∀ i j i' j', InRect x y width height i j → inGrid i' j' →
      (i' - 1 ≤ i ∧ i ≤ i' + 1) → (j' - 1 ≤ j ∧ j ≤ j' + 1) → g i' j' = 0 := by
    rintro i j i' j' ⟨h1, h2, h3, h4⟩ hin' hi hj
    exact hzero i' j' ⟨by omega, by omega⟩ ⟨by omega, by omega⟩ hin'
  have hapart : Apart (placeRect g x y width height shipId) := by
    intro i j i' j' hin hin' hi hj hne hne'
    rw [placeRect_apply] at hne hne' ⊢
    rw [placeRect_apply]
    by_cases hr : InRect x y width height i j <;> by_cases hr' : InRect x y width height i' j'
    · rw [if_pos hr, if_pos hr']
    · rw [if_neg hr'] at hne'
      exact absurd (hnear i j i' j' hr hin' hi hj) hne'
    · rw [if_neg hr] at hne
      exact absurd (hnear i' j' i j hr' hin ⟨by omega, by omega⟩ ⟨by omega, by omega⟩) hne
    · rw [if_neg hr] at hne ⊢
      rw [if_neg hr'] at hne' ⊢
      exact hap i j i' j' hin hin' hi hj hne hne'
  refine ⟨fun i j hr => ?_, fun i j hr => ?_, fun i j hr => ?_, hapart, ?_⟩
  · exact hnear i j i j hr (hrect i j hr) ⟨by omega, by omega⟩ ⟨by omega, by omega⟩
  · rw [placeRect_apply, if_neg hr]
  · rw [placeRect_apply, if_pos hr]
  · intro vertical hw hh
    constructor
    · unfold canPlaceShip5x2Manual
      simp only
      rw [← hw, ← hh, if_neg (by omega)]
      exact hfree
    · unfold placeShip5x2Manual
      simp only
      rw [← hw, ← hh]
      exact hapart

/-- The grid `shipRow5` holds ship 1 on row 5; the column of three cells from `(0, 0)` is
free with its margin, and writing id 2 there keeps the two ships apart. -/
theorem placement_keeps_ships_apart_witness :
    Apart shipRow5 ∧ isAreaFree shipRow5 0 0 1 3 = 1 ∧
    Apart (placeRect shipRow5 0 0 1 3 2) ∧
    placeRect shipRow5 0 0 1 3 2 2 0 = 2 ∧ placeRect shipRow5 0 0 1 3 2 5 3 = shipRow5 5 3 := by
  have hap : Apart shipRow5 := by
    intro i j i' j' _ _ _ _ hne hne'
    simp only [shipRow5] at hne hne' ⊢
    split_ifs at hne hne' ⊢ <;> first | rfl | exact absurd rfl hne | exact absurd rfl hne'
  have h := placement_keeps_ships_apart shipRow5 0 0 1 3 2 hap (by decide) (by decide)
    (by decide) (by decide) (by decide)
  exact ⟨hap, by decide, h.2.2.2.1, h.2.2.1 2 0 (by decide), h.2.1 5 3 (by decide)⟩

/-! ## Sorting the scores (C30) -/

theorem exchange_apply (s : Nat → Score) (i j k : Nat) :
    exchange s i j k = if (s j).score > (s i).score then s (Equiv.swap i j k) else s k := by
  unfold exchange
  by_cases h : (s j).score > (s i).score
  · rw [if_pos h, if_pos h]
    simp only [setAt, Equiv.swap_apply_def]
    by_cases hj : k = j
    · by_cases hi : k = i
      · rw [if_pos hj, if_pos hi, ← hi, hj]
      · rw [if_pos hj, if_neg hi, if_pos hj]
    · by_cases hi : k = i
      · rw [if_neg hj, if_pos hi, if_pos hi]
      · rw [if_neg hj, if_neg hi, if_neg hi, if_neg hj]
  · rw [if_neg h, if_neg h]

theorem exchange_perm (s : Nat → Score) (i j : Nat) :
    ∃ σ : Equiv.Perm Nat, (∀ k, k ≠ i → k ≠ j → σ k = k) ∧
      ∀ k, exchange s i j k = s (σ k) := by
  by_cases h : (s j).score > (s i).score
  · refine ⟨Equiv.swap i j, fun k hi hj => Equiv.swap_apply_of_ne_of_ne hi hj, fun k => ?_⟩
    rw [exchange_apply, if_pos h]
  · refine ⟨Equiv.refl Nat, fun k _ _ => rfl, fun k => ?_⟩
    rw [exchange_apply, if_neg h]
    rfl

theorem exchange_le (s : Nat → Score) (i j : Nat) :
    (exchange s i j j).score ≤ (exchange s i j i).score ∧
    (s i).score ≤ (exchange s i j i).score := by
  rw [exchange_apply, exchange_apply]
  by_cases h : (s j).score > (s i).score
  · rw [if_pos h, if_pos h, Equiv.swap_apply_left, Equiv.swap_apply_right]
    omega
  · rw [if_neg h, if_neg h]
    omega

/-- The inner loop over any list `js` of indices other than `i`: the result is the array
composed with a permutation that moves only `i` and the members of `js`, the entry at `i`
dominates the entries at the members of `js`, and it did not decrease. -/
theorem exchangeList_spec (i : Nat) (js : List Nat) (s : Nat → Score) :
    (∃ σ : Equiv.Perm Nat, (∀ k, k ≠ i → k ∉ js → σ k = k) ∧
      ∀ k, js.foldl (fun s j => exchange s i j) s k = s (σ k)) ∧
    (∀ j ∈ js, j ≠ i → (js.foldl (fun s j => exchange s i j) s j).score
      ≤ (js.foldl (fun s j => exchange s i j) s i).score) ∧
    (s i).score ≤ (js.foldl (fun s j => exchange s i j) s i).score := by
  induction js generalizing s with
  | nil => exact ⟨⟨Equiv.refl Nat, fun _ _ _ => rfl, fun _ => rfl⟩, fun j hj => by simp at hj,
      le_refl _⟩
  | cons j rest ih =>
    rw [List.foldl_cons]
    obtain ⟨⟨σ1, hfix1, hperm1⟩, hdom1, hmono1⟩ := ih (exchange s i j)
    obtain ⟨σ0, hfix0, hperm0⟩ := exchange_perm s i j
    obtain ⟨hle, hge⟩ := exchange_le s i j
    refine ⟨⟨σ1.trans σ0, fun k hi hk => ?_, fun k => ?_⟩, fun q hq hqi => ?_, hge.trans hmono1⟩
    · have hk1 : k ∉ rest := fun h => hk (List.mem_cons_of_mem _ h)
      have hk0 : k ≠ j := fun h => hk (h ▸ List.mem_cons_self _ _)
      rw [Equiv.trans_apply, hfix1 k hi hk1, hfix0 k hi hk0]
    · rw [hperm1, hperm0, Equiv.trans_apply]
    · by_cases hmem : q ∈ rest
      · exact hdom1 q hmem hqi
      · have hqj : q = j := by
          rcases List.mem_cons.mp hq with h | h
          · exact h
          · exact absurd h hmem
        rw [hperm1 q, hfix1 q hqi hmem, hqj]
        exact hle.trans hmono1

theorem mem_passRange (count : Int) (i j : Nat) :
    j ∈ List.range' (i + 1) (count.toNat - (i + 1)) ↔ i < j ∧ j < count.toNat := by
  rw [List.mem_range'_1]
  omega

/-- One pass of the outer loop, for index `i`. -/
theorem sortPass_spec (s : Nat → Score) (count : Int) (i : Nat) :
    (∃ σ : Equiv.Perm Nat, (∀ k, k < i ∨ count.toNat ≤ k → σ k = k) ∧
      ∀ k, sortPass s count i k = s (σ k)) ∧
    (∀ j, i < j → j < count.toNat →
      (sortPass s count i j).score ≤ (sortPass s count i i).score) := by
  by_cases hempty : count.toNat ≤ i + 1
  · have hnil : sortPass s count i = s := by
      unfold sortPass
      rw [Nat.sub_eq_zero_of_le hempty]
      rfl
    rw [hnil]
    exact ⟨⟨Equiv.refl Nat, fun _ _ => rfl, fun _ => rfl⟩, fun j hij hjn => by omega⟩
  · obtain ⟨⟨σ, hfix, hperm⟩, hdom, -⟩ :=
      exchangeList_spec i (List.range' (i + 1) (count.toNat - (i + 1))) s
    refine ⟨⟨σ, fun k hk => ?_, hperm⟩, fun j hij hjn => ?_⟩
    · apply hfix k (by omega)
      rw [mem_passRange]
      omega
    · exact hdom j ((mem_passRange count i j).mpr ⟨hij, hjn⟩) (by omega)

/-- A permutation that fixes every index outside `[lo, hi)` maps `[lo, hi)` into itself. -/
theorem perm_maps_range (σ : Equiv.Perm Nat) (lo hi : Nat)
    (hfix : ∀ k, k < lo ∨ hi ≤ k → σ k = k) (k : Nat) (hk : lo ≤ k ∧ k < hi) :
    lo ≤ σ k ∧ σ k < hi := by
  by_contra hout
  have h1 : σ (σ k) = σ k := hfix (σ k) (by omega)
  have h2 : σ k = k := σ.injective h1
  omega

/-- The state after the first `m` passes of the outer loop of `sortScores`. -/
theorem sortPasses_spec (scores : Nat → Score) (count : Int) (m : Nat) :
    (∃ σ : Equiv.Perm Nat, (∀ k, count.toNat ≤ k → σ k = k) ∧
      ∀ k, (List.range m).foldl (fun s i => sortPass s count i) scores k = scores (σ k)) ∧
    (∀ p q, p < m → p < q → q < count.toNat →
      ((List.range m).foldl (fun s i => sortPass s count i) scores q).score
        ≤ ((List.range m).foldl (fun s i => sortPass s count i) scores p).score) := by
  induction m with
  | zero =>
    exact ⟨⟨Equiv.refl Nat, fun _ _ => rfl, fun _ => rfl⟩, fun p q hp => absurd hp (by omega)⟩
  | succ m ih =>
    rw [List.range_succ, List.foldl_append, List.foldl_cons, List.foldl_nil]
    obtain ⟨⟨σ, hfix, hperm⟩, hsorted⟩ := ih
    obtain ⟨⟨τ, hfixτ, hpermτ⟩, hdom⟩ :=
      sortPass_spec ((List.range m).foldl (fun s i => sortPass s count i) scores) count m
    refine ⟨⟨τ.trans σ, fun k hk => ?_, fun k => ?_⟩, fun p q hp hpq hq => ?_⟩
    · rw [Equiv.trans_apply, hfixτ k (Or.inr hk), hfix k hk]
    · rw [hpermτ, hperm, Equiv.trans_apply]
    · by_cases hpm : p = m
      · rw [hpm]
        exact hdom q (by omega) hq
      · have hp' : p < m := by omega
        rw [hpermτ q, hpermτ p, hfixτ p (Or.inl hp')]
        by_cases hqm : q < m
        · rw [hfixτ q (Or.inl hqm)]
          exact hsorted p q hp' hpq hq
        · obtain ⟨h1, h2⟩ := perm_maps_range τ m count.toNat hfixτ q ⟨by omega, hq⟩
          exact hsorted p (τ q) hp' (by omega) h2

/-- The permutation of indices behind `sortScores` and the order it leaves. -/
theorem sortScores_spec (scores : Nat → Score) (count : Int) :
    (∃ σ : Equiv.Perm Nat, (∀ k, count.toNat ≤ k → σ k = k) ∧
      ∀ k, sortScores scores count k = scores (σ k)) ∧
    (∀ p q, p ≤ q → q < count.toNat →
      (sortScores scores count q).score ≤ (sortScores scores count p).score) := by
  obtain ⟨hperm, hsorted⟩ := sortPasses_spec scores count (count - 1).toNat
  refine ⟨hperm, fun p q hpq hq => ?_⟩
  rcases Nat.eq_or_lt_of_le hpq with rfl | hlt
  · exact le_refl _
  · exact hsorted p q (by omega) hlt hq

/-- A permutation of the indices that fixes every index from `n` on permutes `0 .. n - 1`. -/
theorem range_map_perm (σ : Equiv.Perm Nat) (n : Nat) (hfix : ∀ k, n ≤ k → σ k = k) :
    ((List.range n).map σ).Perm (List.range n) := by
  have hfix0 : ∀ k, k < 0 ∨ n ≤ k → σ k = k := fun k hk => hfix k (by omega)
  apply (List.perm_ext_iff_of_nodup ((List.nodup_range n).map σ.injective)
    (List.nodup_range n)).mpr
  intro a
  simp only [List.mem_map, List.mem_range]
  constructor
  · rintro ⟨k, hk, rfl⟩
    exact (perm_maps_range σ 0 n hfix0 k ⟨Nat.zero_le _, hk⟩).2
  · intro ha
    refine ⟨σ.symm a, ?_, σ.apply_symm_apply a⟩
    by_contra hge
    have h1 : σ (σ.symm a) = σ.symm a := hfix _ (by omega)
    rw [σ.apply_symm_apply] at h1
    omega

/-- C30. For every score array and every `count` (the claim asks `count ≥ 0`; a negative
`count` runs no iteration): after `sortScores(scores, count)` the first `count` entries are in
non-increasing order of score; the array is the original one composed with a permutation of
the indices below `count`, so that each entry keeps its name with its score and the first
`count` entries are a permutation of the original ones; entries at index `≥ count` are
unchanged. For `count > 0` the score at index 0 is the greatest of the first `count` original
scores and is what `getBestScore` returns. -/
theorem sortScores_sorted_permutation (scores : Nat → Score) (count : Int) :
    (∀ p q : Nat, p ≤ q → (q : Int) < count →
      (sortScores scores count q).score ≤ (sortScores scores count p).score) ∧
    (∃ σ : Equiv.Perm Nat, (∀ k : Nat, count ≤ (k : Int) → σ k = k) ∧
      ∀ k, sortScores scores count k = scores (σ k)) ∧
    ((List.range count.toNat).map (sortScores scores count)).Perm
      ((List.range count.toNat).map scores) ∧
    (∀ k : Nat, count ≤ (k : Int) → sortScores scores count k = scores k) ∧
    (0 < count →
      (∀ k : Nat, (k : Int) < count →
        (scores k).score ≤ (sortScores scores count 0).score) ∧
      (∃ k : Nat, (k : Int) < count ∧ sortScores scores count 0 = scores k) ∧
      getBestScore scores count = (sortScores scores count 0).score) := by
  obtain ⟨⟨σ, hfix, hperm⟩, hsorted⟩ := sortScores_spec scores count
  have hfix0 : ∀ k, k < 0 ∨ count.toNat ≤ k → σ k = k := fun k hk => hfix k (by omega)
  refine ⟨fun p q hpq hq => hsorted p q hpq (by omega),
    ⟨σ, fun k hk => hfix k (by omega), hperm⟩, ?_, fun k hk => ?_, fun hpos => ⟨fun k hk => ?_,
      ?_, ?_⟩⟩
  · have hmap : (List.range count.toNat).map (sortScores scores count)
        = ((List.range count.toNat).map σ).map scores := by
      rw [List.map_map]
      exact List.map_congr_left (fun k _ => hperm k)
    rw [hmap]
    exact (range_map_perm σ count.toNat hfix).map scores
  · rw [hperm k, hfix k (by omega)]
  · have hlt : σ.symm k < count.toNat := by
      by_contra hge
      have h1 : σ (σ.symm k) = σ.symm k := hfix _ (by omega)
      rw [σ.apply_symm_apply] at h1
      omega
    have h := hsorted 0 (σ.symm k) (Nat.zero_le _) hlt
    rw [hperm (σ.symm k), σ.apply_symm_apply] at h
    exact h
  · have h := (perm_maps_range σ 0 count.toNat hfix0 0 ⟨le_refl _, by omega⟩).2
    exact ⟨σ 0, by omega, hperm 0⟩
  · unfold getBestScore
    rw [if_neg (by omega)]

/-- Sorting the first three entries of `sampleScores` (120, 340, 205): they come out as
340, 205, 120 with their names, the entry at index 3 is untouched, and `getBestScore`
returns 340; with `count = 0` it returns 0. -/
theorem sortScores_sorted_permutation_witness :
    (sortScores sampleScores 3 0).score = 340 ∧ (sortScores sampleScores 3 0).name = "bob" ∧
    (sortScores sampleScores 3 1).score = 205 ∧ (sortScores sampleScores 3 1).name = "eve" ∧
    (sortScores sampleScores 3 2).score = 120 ∧ (sortScores sampleScores 3 2).name = "ana" ∧
    (sortScores sampleScores 3 3).score = 999 ∧
    getBestScore sampleScores 3 = 340 ∧ getBestScore sampleScores 0 = 0 ∧
    (∀ p q : Nat, p ≤ q → (q : Int) < 3 →
      (sortScores sampleScores 3 q).score ≤ (sortScores sampleScores 3 p).score) ∧
    ((List.range (3 : Int).toNat).map (sortScores sampleScores 3)).Perm
      ((List.range (3 : Int).toNat).map sampleScores) :=
  ⟨by decide, by decide, by decide, by decide, by decide, by decide, by decide, by decide,
    by decide, (sortScores_sorted_permutation sampleScores 3).1,
    (sortScores_sorted_permutation sampleScores 3).2.2.1⟩

/-! ## The hard strategy on a fleet: sinking is always handled (C7) -/

/-- Writing a ship into a free area keeps ships apart. -/
theorem placeRect_apart (g : Grid) (x y width height shipId : Int) (hap : Apart g)
    (hfree : isAreaFree g x y width height = 1) :
    Apart (placeRect g x y width height shipId) := by
  have hzero := (isAreaFree_eq_one_iff g x y width height).mp hfree
  have hnear : ∀ i j i' j', InRect x y width height i j → inGrid i' j' →
      (i' - 1 ≤ i ∧ i ≤ i' + 1) → (j' - 1 ≤ j ∧ j ≤ j' + 1) → g i' j' = 0 := by
    rintro i j i' j' ⟨h1, h2, h3, h4⟩ hin' hi hj
    exact hzero i' j' ⟨by omega, by omega⟩ ⟨by omega, by omega⟩ hin'
  intro i j i' j' hin hin' hi hj hne hne'
  rw [placeRect_apply] at hne hne' ⊢
  rw [placeRect_apply]
  by_cases hr : InRect x y width height i j <;> by_cases hr' : InRect x y width height i' j'
  · rw [if_pos hr, if_pos hr']
  · rw [if_neg hr'] at hne'
    exact absurd (hnear i j i' j' hr hin' hi hj) hne'
  · rw [if_neg hr] at hne
    exact absurd (hnear i' j' i j hr' hin ⟨by omega, by omega⟩ ⟨by omega, by omega⟩) hne
  · rw [if_neg hr] at hne ⊢
    rw [if_neg hr'] at hne' ⊢
    exact hap i j i' j' hin hin' hi hj hne hne'

/-- One accepted placement, as `placeShips` and the manual placement make it, turns a fleet
into a fleet: the rectangle lies in the grid, has at least two cells, its enlarged area is
free, and the id is new. -/
theorem Fleet.place {g : Grid} (hF : Fleet g) (x y w h shipId : Int)
    (hx : 0 ≤ x) (hy : 0 ≤ y) (hxh : x + h ≤ GRID) (hyw : y + w ≤ GRID) (hw : 1 ≤ w)
    (hh : 1 ≤ h) (h2 : 2 ≤ w ∨ 2 ≤ h) (hfree : isAreaFree g x y w h = 1)
    (hid : 1 ≤ shipId ∧ shipId ≤ 98) (hfresh : ∀ i j, inGrid i j → g i j ≠ shipId) :
    Fleet (placeRect g x y w h shipId) := by
  have hzero := (isAreaFree_eq_one_iff g x y w h).mp hfree
  have hrz : ∀ i j, InRect x y w h i j → inGrid i j ∧ g i j = 0 := by
    rintro i j ⟨h1, h2', h3, h4⟩
    have hij : inGrid i j := ⟨by omega, by omega, by omega, by omega⟩
    exact ⟨hij, hzero i j ⟨by omega, by omega⟩ ⟨by omega, by omega⟩ hij⟩
  refine ⟨fun i j hij => ?_, placeRect_apart g x y w h shipId hF.2.1 hfree,
    fun i j hij hp => ?_⟩
  · rw [placeRect_apply]
    split_ifs
    · omega
    · exact hF.1 i j hij
  · rw [placeRect_apply] at hp ⊢
    by_cases hr : InRect x y w h i j
    · rw [if_pos hr]
      refine ⟨x, y, w, h, hx, hy, hxh, hyw, hw, hh, h2, fun p q hpq => ?_⟩
      rw [placeRect_apply]
      by_cases hr' : InRect x y w h p q
      · rw [if_pos hr']
        exact ⟨fun _ => hr', fun _ => rfl⟩
      · rw [if_neg hr']
        exact ⟨fun he => absurd he (hfresh p q hpq), fun he => absurd he hr'⟩
    · rw [if_neg hr] at hp ⊢
      obtain ⟨x0, y0, w0, h0, a1, a2, a3, a4, a5, a6, a7, hrect⟩ := hF.2.2 i j hij hp
      refine ⟨x0, y0, w0, h0, a1, a2, a3, a4, a5, a6, a7, fun p q hpq => ?_⟩
      rw [placeRect_apply]
      by_cases hr' : InRect x y w h p q
      · rw [if_pos hr']
        have hz := (hrz p q hr').2
        constructor
        · intro he
          exact absurd he.symm (hfresh i j hij)
        · intro hR
          have := (hrect p q hpq).mpr hR
          omega
      · rw [if_neg hr']
        exact hrect p q hpq

/-- A loop of writes of one value at cells given by the loop variable, cell by cell. -/
theorem writeList_apply (fx fy : Int → Int) (v : Int) (l : List Int) (g : Grid) (p q : Int) :
    (l.foldl (fun g i => setCell g (fx i) (fy i) v) g) p q
      = if ∃ i ∈ l, p = fx i ∧ q = fy i then v else g p q := by
  induction l generalizing g with
  | nil => simp
  | cons i l ih =>
    rw [List.foldl_cons, ih]
    by_cases h1 : ∃ k ∈ l, p = fx k ∧ q = fy k
    · rw [if_pos h1, if_pos (by obtain ⟨k, hk, e⟩ := h1
                                exact ⟨k, List.mem_cons_of_mem _ hk, e⟩)]
    · rw [if_neg h1]
      by_cases h2 : p = fx i ∧ q = fy i
      · rw [h2.1, h2.2, setCell_same, if_pos ⟨i, List.mem_cons_self _ _, rfl, rfl⟩]
      · rw [setCell_other _ _ _ _ _ _ h2, if_neg]
        rintro ⟨k, hk, e⟩
        rcases List.mem_cons.mp hk with rfl | hk
        · exact h2 e
        · exact h1 ⟨k, hk, e⟩

/-- The manual write loop fills the same rectangle as `placeRect`. -/
theorem placeShipManual_eq (g : Grid) (x y size shipId vertical : Int) :
    placeShipManual g x y size shipId vertical
      = placeRect g x y (if vertical ≠ 0 then 1 else size) (if vertical ≠ 0 then size else 1)
          shipId := by
  funext p q
  unfold placeShipManual
  rw [writeList_apply (fun i => x + (if vertical ≠ 0 then i else 0))
    (fun i => y + (if vertical ≠ 0 then 0 else i)), placeRect_apply]
  have hiff : (∃ i ∈ intRange 0 (size - 1), p = x + (if vertical ≠ 0 then i else 0) ∧
      q = y + (if vertical ≠ 0 then 0 else i)) ↔
      InRect x y (if vertical ≠ 0 then 1 else size) (if vertical ≠ 0 then size else 1) p q := by
    simp only [mem_intRange, InRect]
    by_cases hv : vertical ≠ 0
    · simp only [if_pos hv]
      constructor
      · rintro ⟨i, hi, rfl, rfl⟩
        omega
      · intro h
        exact ⟨p - x, by omega, by omega, by omega⟩
    · simp only [if_neg hv]
      constructor
      · rintro ⟨i, hi, rfl, rfl⟩
        omega
      · intro h
        exact ⟨q - y, by omega, by omega, by omega⟩
  by_cases h : InRect x y (if vertical ≠ 0 then 1 else size) (if vertical ≠ 0 then size else 1)
      p q
  · rw [if_pos (hiff.mpr h), if_pos h]
  · rw [if_neg (fun hh => h (hiff.mp hh)), if_neg h]

/-- A manual placement of a normal ship of at least two cells at a start cell with
non-negative coordinates, accepted by `canPlaceShip`, turns a fleet into a fleet. -/
theorem fleet_manual {g : Grid} (hF : Fleet g) (x y size shipId vertical : Int) (hx : 0 ≤ x)
    (hy : 0 ≤ y) (hsize : 2 ≤ size) (hcan : canPlaceShip g x y size vertical = 1)
    (hid : 1 ≤ shipId ∧ shipId ≤ 98) (hfresh : ∀ i j, inGrid i j → g i j ≠ shipId) :
    Fleet (placeShipManual g x y size shipId vertical) := by
  rw [placeShipManual_eq]
  obtain ⟨⟨hb1, hb2⟩, hfree⟩ := (canPlaceShip_eq_one_iff g x y size vertical).mp hcan
  refine hF.place x y _ _ shipId hx hy hb1 hb2 ?_ ?_ ?_ hfree hid hfresh
  · split_ifs <;> omega
  · split_ifs <;> omega
  · by_cases hv : vertical ≠ 0
    · rw [if_pos hv, if_pos hv]; exact Or.inr hsize
    · rw [if_neg hv, if_neg hv]; exact Or.inl hsize

/-- A manual placement of the 5x2 ship at a start cell with non-negative coordinates,
accepted by `canPlaceShip5x2Manual`, turns a fleet into a fleet. -/
theorem fleet_manual5x2 {g : Grid} (hF : Fleet g) (x y shipId vertical : Int) (hx : 0 ≤ x)
    (hy : 0 ≤ y) (hcan : canPlaceShip5x2Manual g x y vertical = 1)
    (hid : 1 ≤ shipId ∧ shipId ≤ 98) (hfresh : ∀ i j, inGrid i j → g i j ≠ shipId) :
    Fleet (placeShip5x2Manual g x y shipId vertical) := by
  unfold placeShip5x2Manual
  obtain ⟨⟨hb1, hb2⟩, hfree⟩ := (canPlaceShip5x2Manual_eq_one_iff g x y vertical).mp hcan
  refine hF.place x y _ _ shipId hx hy hb1 hb2 ?_ ?_ ?_ hfree hid hfresh
  · split_ifs <;> omega
  · split_ifs <;> omega
  · split_ifs <;> omega

end BatailleNavale
